import Mathlib

/-!
# sim_logger: checksum codec, track-file codec, recorder log and replay actors

A shallow embedding of `msfs_logger_replay.cpp`.

Conventions of the embedding

* A C string (`char *` read up to its terminator) is a `List Char`; where the
  source hands a raw buffer that may hold a NUL to a string function, the
  embedding applies `c_str` at the call.
* A file opened in text mode is the `List Char` the C stream delivers; a file
  that cannot be opened is `none`.
* C `int` values are `Nat` where the source keeps them non-negative (checksum
  state, table indices) and `Int` otherwise; no value in the modelled code comes
  near the 32-bit range.
* `double`/`float` computations: where a theorem does not depend on them, the
  functions that contain them take the floating-point part as a parameter.
  Where it does, a finite `double` or `float` is the rational number it holds
  and every operation is followed by the rounding of IEEE 754 (`dbl`, `flt`):
  so for `heading_delta` (`heading_delta_double`), for the 'B' record of the
  writer (`b_float_fields`) and for its parse by the loader
  (`parse_b_record`). The geodesy, the slew rates and the attitude passes are
  the source's expressions on an ordered field, read as exact arithmetic; the
  clock `zulu_clock` is the rational number that the `double` holds.
* Global arrays are functions on `Nat`, assigned with `Function.update`; the
  calls to the simulator are collected in a trace.
-/

namespace SimLogger

/-! ## Checksum codec (source lines 614-890) -/

/-- Return codes of the checksum routines (`enum CHKSUM_RESULT`). -/
inductive CHKSUM_RESULT where
  | CHKSUM_OK
  | CHKSUM_NOT_FOUND
  | CHKSUM_TOO_SHORT
  | CHKSUM_BAD
  | CHKSUM_FILE_ERROR
  deriving DecidableEq, Repr

open CHKSUM_RESULT

/-- Length of a line buffer (`const int MAXBUF = 1000`). -/
def MAXBUF : Nat := 1000

/-- Number of characters of a checksum tag (`const int CHKSUM_CHARS = 6`). -/
def CHKSUM_CHARS : Nat := 6

/-- Number of characters in `chk_source` and `chk_map` (`const int CHK_CHARS = 63`). -/
def CHK_CHARS : Nat := 63

/-- The characters that are mapped into the checksum; all others are ignored. -/
def chk_source : List Char :=
  "0123456789ABCDEFGHIJKLMNOPQRSTUVWXYZ.abcdefghijklmnopqrstuvwxyz".toList

/-- Map table `int chk_map[CHK_CHARS]`. -/
def chk_map : List Nat :=
  [14,46,51,8,26,2,32,39,29,
   37,4,44,20,61,22,58,16,25,
   60,13,31,53,11,50,6,38,41,
   23,56,17,1,19,45,10,28,15,
   36,9,57,12,49,33,3,24,30,
   62,47,5,43,0,27,52,34,55,
   21,54,59,18,48,35,40,7,42]

/-- Modulo value for the index which increments through the file. -/
def CHKSUM_MAX_INDEX : Nat := 1987

/-- The checksum state `struct ChksumData { int index; int num[CHKSUM_CHARS]; }`. -/
structure ChksumData where
  index : Nat
  num : List Nat
  deriving DecidableEq, Repr

/-- Source `incr_chksum`: `c_pos` is the first position of `c` in `chk_source`
(`CHK_CHARS` when there is none, and then the state is returned as it is);
otherwise every slot is sent through the map table and the index advances. -/
def incr_chksum (chk_data : ChksumData) (c : Char) : ChksumData :=
  let c_pos := chk_source.indexOf c
  if c_pos = CHK_CHARS then chk_data
  else
    let map_num := chk_map.getD ((c_pos + chk_data.index) % CHK_CHARS) 0
    { index := (chk_data.index + 1) % CHKSUM_MAX_INDEX
      num := (List.range CHKSUM_CHARS).map fun i =>
        chk_map.getD ((chk_data.num.getD i 0 + map_num + i) % CHK_CHARS) 0 }

/-- Source `chksum_string`: every character of the C string `s`, in order. -/
def chksum_string (chk_data : ChksumData) (s : List Char) : ChksumData :=
  s.foldl incr_chksum chk_data

/-- Source `chksum_binary`: the first `count` characters of the buffer `s`. -/
def chksum_binary (chk_data : ChksumData) (s : List Char) (count : Nat) : ChksumData :=
  (s.take count).foldl incr_chksum chk_data

/-- Source `chksum_to_string`: slot `i` becomes `chk_source[num[i] % 36]`. -/
def chksum_to_string (chk_data : ChksumData) : List Char :=
  (List.range CHKSUM_CHARS).map fun i => chk_source.getD (chk_data.num.getD i 0 % 36) '0'

/-- Source `chksum_reset`: index 1, `num[i] = i`. -/
def chksum_reset : ChksumData :=
  { index := 1, num := List.range CHKSUM_CHARS }

/-- The part of a character buffer that C string functions see: everything
before the first NUL. -/
def c_str (buf : List Char) : List Char :=
  buf.takeWhile fun c => c != '\x00'

/-- The characters one `fgets(buf, n, f)` call with `n = k + 1` takes from the
stream: at most `k`, stopping after a line feed; paired with the rest of the
stream. -/
def fgets_take : Nat → List Char → List Char × List Char
  | 0, s => ([], s)
  | _ + 1, [] => ([], [])
  | k + 1, c :: s =>
    if c = '\n' then ([c], s)
    else ((c :: (fgets_take k s).1), (fgets_take k s).2)

/-- The successive results of `fgets(line_buf, MAXBUF, f)` until it returns
`NULL` (end of file); `fuel` bounds the number of calls. -/
def read_lines_fuel : Nat → List Char → List (List Char)
  | 0, _ => []
  | fuel + 1, s =>
    if s = [] then []
    else (fgets_take (MAXBUF - 1) s).1 :: read_lines_fuel fuel (fgets_take (MAXBUF - 1) s).2

/-- All lines `while (fgets(line_buf, MAXBUF, f) != NULL)` sees on a stream:
every call takes at least one character, so `s.length` calls reach the end. -/
def read_lines (s : List Char) : List (List Char) :=
  read_lines_fuel s.length s


/-- The loop of source `chksum_binary_file`: `while (!feof(f))` reads up to
`MAXBUF` characters with `fread` and feeds the `read_count` characters read to
`chksum_binary`; the end-of-file flag is set by a read that comes back short. -/
def chksum_binary_loop : Nat → ChksumData → List Char → ChksumData
  | 0, chk_data, _ => chk_data
  | fuel + 1, chk_data, s =>
    let buf := s.take MAXBUF
    let read_count := buf.length
    let chk_data := chksum_binary chk_data buf read_count
    if read_count < MAXBUF then chk_data
    else chksum_binary_loop fuel chk_data (s.drop MAXBUF)

/-- Source `chksum_binary_file`: result code and tag (`"000000"` when the file
cannot be opened). Every pass of the loop takes `MAXBUF` characters, so
`s.length + 1` passes reach the end of the file. -/
def chksum_binary_file (file : Option (List Char)) : CHKSUM_RESULT × List Char :=
  match file with
  | none => (CHKSUM_FILE_ERROR, "000000".toList)
  | some s => (CHKSUM_OK, chksum_to_string (chksum_binary_loop (s.length + 1) chksum_reset s))

/-- The loop of source `chksum_igc_file`: lines are fed to `chksum_string` until
one has `line_buf[0] == 'G'`; returns the checksum state and the last content of
`line_buf`. -/
def igc_scan : ChksumData → List Char → List (List Char) → ChksumData × List Char
  | chk_data, line_buf, [] => (chk_data, line_buf)
  | chk_data, _, l :: ls =>
    if l.head? = some 'G' then (chk_data, l)
    else igc_scan (chksum_string chk_data (c_str l)) l ls

/-- Source `chksum_igc_file`. The C buffer `line_buf` is not initialised before
the loop; the embedding starts it empty, which matters only for an empty file. -/
def chksum_igc_file (file : Option (List Char)) : CHKSUM_RESULT :=
  match file with
  | none => CHKSUM_FILE_ERROR
  | some s =>
    let chk_data := (igc_scan chksum_reset [] (read_lines s)).1
    let line_buf := (igc_scan chksum_reset [] (read_lines s)).2
    if line_buf.head? ≠ some 'G' then CHKSUM_NOT_FOUND
    else if (c_str line_buf).length < CHKSUM_CHARS + 1 then CHKSUM_TOO_SHORT
    else if (List.range CHKSUM_CHARS).any
        (fun i => (chksum_to_string chk_data).getD i '0' != line_buf.getD (i + 1) '0')
      then CHKSUM_BAD
    else CHKSUM_OK

/-- Source `check_file`. -/
def check_file (file : Option (List Char)) : CHKSUM_RESULT :=
  chksum_igc_file file

/-- The globals read by source `chksum_chksum`: the seven per-file tags and the
three status codes. -/
structure ChksumGlobals where
  chksum_flt : List Char
  chksum_air : List Char
  chksum_wx : List Char
  chksum_cmx : List Char
  chksum_cx : List Char
  chksum_cfg : List Char
  chksum_xml : List Char
  cx_code : Int
  wx_code : Int
  therm_code : Int

/-- Source `chksum_chksum`: the tag it stores in its argument (its return code
is always `CHKSUM_OK`). -/
def chksum_chksum (g : ChksumGlobals) : List Char :=
  let chk_data := chksum_reset
  let chk_data := chksum_string chk_data g.chksum_flt
  let chk_data := chksum_string chk_data g.chksum_air
  let chk_data := chksum_string chk_data g.chksum_wx
  let chk_data := chksum_string chk_data g.chksum_cmx
  let chk_data := chksum_string chk_data g.chksum_cx
  let chk_data := chksum_string chk_data g.chksum_cfg
  let chk_data := chksum_string chk_data g.chksum_xml
  let chk_data :=
    if g.cx_code = 0 then chksum_string chk_data "CX UNLOCKED".toList
    else chksum_string chk_data "CX LOCKED".toList
  let chk_data :=
    if g.wx_code = 0 then chksum_string chk_data "WX UNLOCKED".toList
    else chksum_string chk_data "WX LOCKED".toList
  let chk_data :=
    if g.therm_code = 0 then chksum_string chk_data "THERM FILE PRESENT".toList
    else chksum_string chk_data "NO THERM FILE".toList
  chksum_to_string chk_data

/-- The loop of source `starts_bracket` with `budget` iterations left
(`i < 10`), at index `i`, on the rest of the string from `i`. -/
def starts_bracket_from : Nat → Nat → List Char → Int
  | 0, _, _ => -1
  | _ + 1, _, [] => -1
  | budget + 1, i, ch :: s =>
    if ch = '[' then (i : Int)
    else if ch ≠ ' ' then -1
    else starts_bracket_from budget (i + 1) s

/-- Source `starts_bracket`: the index of `'['` when it is the first non-space
character and lies within the first ten, else `-1`. -/
def starts_bracket (s : List Char) : Int :=
  starts_bracket_from 10 0 s

/-- The table of source `perf_match`: section names and the number of leading
characters that are compared. -/
def perf_strings : List (List Char × Nat) :=
  [ ("[airplane_geometry]".toList, 5),
    ("[flaps.".toList, 4),
    ("[flight_tuning]".toList, 4),
    ("[water_ballast_system]".toList, 3),
    ("[weight_and_balance]".toList, 3),
    ("[generalenginedata]".toList, 11),
    ("[jet_engine]".toList, 4),
    ("[piston_engine]".toList, 4),
    ("[propeller]".toList, 4),
    ("[turbineenginedata]".toList, 6),
    ("[turboprop_engine]".toList, 6) ]

/-- The test `strncmp(a, b, n) == 0` on C strings. -/
def strncmp_eq (a b : List Char) (n : Nat) : Bool :=
  a.take n == b.take n

/-- Source `perf_match`. -/
def perf_match (line_buf : List Char) : Bool :=
  let pos := starts_bracket line_buf
  if pos < 0 then false
  else perf_strings.any fun p => strncmp_eq (line_buf.drop pos.toNat) p.1 p.2

/-- One pass of the line loop of source `chksum_cfg_file` on the state
`(in_perf_section, chk_data)`. -/
def cfg_step (st : Bool × ChksumData) (line_buf : List Char) : Bool × ChksumData :=
  if !st.1 then (perf_match (c_str line_buf), st.2)
  else if starts_bracket (c_str line_buf) < 0 then
    (st.1, chksum_string st.2 (c_str line_buf))
  else (perf_match (c_str line_buf), st.2)

/-- Source `chksum_cfg_file`: result code and tag. -/
def chksum_cfg_file (file : Option (List Char)) : CHKSUM_RESULT × List Char :=
  match file with
  | none => (CHKSUM_FILE_ERROR, "000000".toList)
  | some s =>
    (CHKSUM_OK, chksum_to_string ((read_lines s).foldl cfg_step (false, chksum_reset)).2)

/-! ## Track-file writer (source lines 1274-1600) -/

/-- Source `clean_string`: each wide character is narrowed with `char(in[i])`;
readers of the result stop at the first NUL. -/
def clean_string (inp : List Char) : List Char :=
  c_str (inp.map fun w => Char.ofNat (w.toNat % 256))

/-- One record of the recorder's log `igc_pos` (`struct igc_b`); `D` stands for
`double`. -/
structure igc_b (D : Type) where
  zulu_time : Int
  latitude : D
  longitude : D
  altitude : D
  rpm : D

/-- Log a maximum of this many 'B' records. -/
def IGC_MAX_RECORDS : Nat := 40000

/-- One position sample of the user aircraft (`struct UserStruct`). -/
structure UserStruct (D : Type) where
  latitude : D
  longitude : D
  altitude : D
  sim_on_ground : Int
  zulu_time : Int
  rpm : Int

/-- The recorder's globals: the array `igc_pos` and the counter
`igc_record_count`. -/
structure IgcLog (D : Type) where
  igc_pos : Nat → igc_b D
  igc_record_count : Nat

/-- Source `igc_log_point`; `to_double` is the conversion of the `INT32` field
`rpm` to `double`. -/
def igc_log_point {D : Type} (to_double : Int → D) (st : IgcLog D) (p : UserStruct D) :
    IgcLog D :=
  if st.igc_record_count < IGC_MAX_RECORDS then
    if st.igc_record_count = 0 ∨
        p.zulu_time ≠ (st.igc_pos (st.igc_record_count - 1)).zulu_time then
      { igc_pos := Function.update st.igc_pos st.igc_record_count
          { zulu_time := p.zulu_time, latitude := p.latitude, longitude := p.longitude,
            altitude := p.altitude, rpm := to_double p.rpm }
        igc_record_count := st.igc_record_count + 1 }
    else st
  else st

/-! ## Heading difference (source lines 1803-1808)

The source computes on `double`. In `heading_delta` below the rounding `fl`
of the result of each arithmetic operation is explicit: it is `dbl` for the
`double` arithmetic of the source (`heading_delta_double`, further down), and
the identity where the slew rates are read as exact arithmetic on an ordered
field. The C library's `fmod` is exact on `double`: it does not round. -/

/-- C library `fmod`: `x - n * y`, where `n` is the quotient `x / y` with its
fractional part cut off (rounded toward zero), so that a result other than zero
has the sign of `x`. -/
def fmod {K : Type} [LinearOrderedField K] [FloorRing K] (x y : K) : K :=
  x - ((if 0 ≤ x / y then Int.floor (x / y) else Int.ceil (x / y) : Int) : K) * y

/-- Source `heading_delta`; `M_PI` is the source's constant of that name and
`fl` the rounding of the result of an arithmetic operation. -/
def heading_delta {K : Type} [LinearOrderedField K] [FloorRing K] (fl : K → K) (M_PI : K)
    (desired current : K) : K :=
  let angle := fmod (fl (fl (desired - current) + fl (2 * M_PI))) (fl (2 * M_PI))
  if angle > M_PI then fl (angle - fl (2 * M_PI)) else angle

/-! ## Floating-point values (IEEE 754 `double` and `float`)

A finite `double` or `float` is a rational number. An arithmetic operation of
the source on floating-point operands is the exact operation on the rationals
followed by the rounding of the result to the format: to the nearest value of
the format, a tie to the one with the even significand. The formats have 53
and 24 significant bits and the least exponents -1074 and -149 (subnormal
values included); the exponent is not bounded above, so a result of 2^1024 or
more (2^128 for `float`), which the machine turns into an infinity, stays
finite here. Every operation rounds to the format of its operands, as the
machine does under SSE2 and, for `double`, under the 53-bit precision control
of the Microsoft runtime. -/

/-- The integer nearest to `y`, the even one of the two when `y` lies half way
between two integers. -/
def round_even (y : Rat) : Int :=
  if y - Int.floor y < 1 / 2 then Int.floor y
  else if 1 / 2 < y - Int.floor y then Int.floor y + 1
  else if Int.floor y % 2 = 0 then Int.floor y
  else Int.floor y + 1

/-- The exponent of the unit in the last place of `x` in the format with `p`
significant bits and the least exponent `emin`. -/
def ulp_exp (p : Nat) (emin : Int) (x : Rat) : Int :=
  max (Int.log 2 |x| - (p - 1)) emin

/-- Rounding of `x` to the format with `p` significant bits and the least
exponent `emin`: sign and magnitude, the magnitude rounded to the nearest
multiple of the unit in the last place, ties to even. -/
def round_fp (p : Nat) (emin : Int) (x : Rat) : Rat :=
  if 0 ≤ x then round_even (x / 2 ^ ulp_exp p emin x) * 2 ^ ulp_exp p emin x
  else -(round_even (-x / 2 ^ ulp_exp p emin x) * 2 ^ ulp_exp p emin x)

/-- Rounding to `double`. -/
def dbl (x : Rat) : Rat := round_fp 53 (-1074) x

/-- Rounding to `float`. -/
def flt (x : Rat) : Rat := round_fp 24 (-149) x

/-- Source constant `M_PI = 4.0*atan(1.0)` on `double`: `atan(1.0)` is
`0x3FE921FB54442D18`, the `double` nearest to a quarter of pi, and the product
by 4 is exact: `0x400921FB54442D18`, which is 884279719003555 / 2^48. -/
def M_PI_double : Rat := 884279719003555 / 281474976710656

/-- Source `heading_delta` on `double`: every sum, difference and product is
rounded to `double`, and `M_PI` is the `double` of that name. -/
def heading_delta_double (desired current : Rat) : Rat :=
  heading_delta dbl M_PI_double desired current

/-- The value of `heading_delta_double` as a function of the rounded
difference `d` of `desired` and `current`. -/
def heading_wrap (d : Rat) : Rat :=
  let angle := fmod (dbl (d + dbl (2 * M_PI_double))) (dbl (2 * M_PI_double))
  if angle > M_PI_double then dbl (angle - dbl (2 * M_PI_double)) else angle

/-- The `double` nearest to 0.2, `0x3FC999999999999A`. -/
def double_0_2 : Rat := 3602879701896397 / 18014398509481984

/-- The functions of the C mathematical library that the replay calls. -/
structure CMath (K : Type) where
  sin : K → K
  cos : K → K
  tan : K → K
  acos : K → K
  atan : K → K
  atan2 : K → K → K
  sqrt : K → K

/-- Source constant `M_PI = 4.0*atan(1.0)`. -/
def M_PI {K : Type} [LinearOrderedField K] (m : CMath K) : K := 4 * m.atan 1

/-- Earth's radius in meters. -/
def EARTH_RAD {K : Type} [LinearOrderedField K] : K := 6366710

/-- Source `deg2rad`. -/
def deg2rad {K : Type} [LinearOrderedField K] (m : CMath K) (deg : K) : K :=
  deg * (M_PI m / 180)

/-- Source `bearing` (radians) from point 1 to point 2. -/
def bearing {K : Type} [LinearOrderedField K] [FloorRing K] (m : CMath K)
    (lat1d lon1d lat2d lon2d : K) : K :=
  let lat1 := deg2rad m lat1d
  let lon1 := deg2rad m lon1d
  let lat2 := deg2rad m lat2d
  let lon2 := deg2rad m lon2d
  fmod (m.atan2 (m.sin (lon2 - lon1) * m.cos lat2)
      (m.cos lat1 * m.sin lat2 - m.sin lat1 * m.cos lat2 * m.cos (lon2 - lon1)) + 2 * M_PI m)
    (2 * M_PI m)

/-- Source `distance` (m) on earth's surface from point 1 to point 2. -/
def distance {K : Type} [LinearOrderedField K] (m : CMath K) (lat1 lon1 lat2 lon2 : K) : K :=
  let lat1r := deg2rad m lat1
  let lon1r := deg2rad m lon1
  let lat2r := deg2rad m lat2
  let lon2r := deg2rad m lon2
  m.acos (m.sin lat1r * m.sin lat2r + m.cos lat1r * m.cos lat2r * m.cos (lon2r - lon1r)) *
    EARTH_RAD

/-- Source `target_heading`: the bearing between the middle points of two
segments. -/
def target_heading {K : Type} [LinearOrderedField K] [FloorRing K] (m : CMath K)
    (lat1 lon1 lat2 lon2 lat3 lon3 : K) : K :=
  let avg_lat1 := (lat1 + lat2) / 2
  let avg_lon1 := (lon1 + lon2) / 2
  let avg_lat2 := (lat2 + lat3) / 2
  let avg_lon2 := (lon2 + lon3) / 2
  bearing m avg_lat1 avg_lon1 avg_lat2 avg_lon2

/-- The conversion `(DWORD) x` of a `double`: the fractional part is cut off
and the value is taken modulo `2^32` (what the compiled code does with a
negative value, for which the C standard defines no result). -/
def to_DWORD {K : Type} [LinearOrderedField K] [FloorRing K] (x : K) : Nat :=
  ((if 0 ≤ x then Int.floor x else Int.ceil x) % 2 ^ 32).toNat

/-- Source `slew_rotation_to_rate` (rotation in radians / second). -/
def slew_rotation_to_rate {K : Type} [LinearOrderedField K] [FloorRing K] (m : CMath K)
    (rotation : K) : Nat :=
  if rotation < 0 then to_DWORD (-m.sqrt (-rotation * 11240000))
  else to_DWORD (m.sqrt (rotation * 11240000))

/-- Source `slew_ahead_to_rate` (speed in meters per second). -/
def slew_ahead_to_rate {K : Type} [LinearOrderedField K] [FloorRing K] (m : CMath K)
    (speed : K) : Nat :=
  if speed < 0 then to_DWORD (-m.sqrt (-speed * 45678))
  else to_DWORD (m.sqrt (speed * 45678))

/-- Source `slew_alt_to_rate`; positive is downwards. -/
def slew_alt_to_rate {K : Type} [LinearOrderedField K] [FloorRing K] (m : CMath K)
    (sink : K) : Nat :=
  if sink < 0 then to_DWORD (-m.sqrt (-sink * 3084000))
  else to_DWORD (m.sqrt (sink * 3084000))

/-- Source `desired_heading`. -/
def desired_heading {K : Type} [LinearOrderedField K] [FloorRing K] (m : CMath K)
    (bearing_to_wp target_heading : K) : K :=
  let coefficient : K := 1 / 2
  let heading := bearing_to_wp -
    coefficient * heading_delta id (M_PI m) target_heading bearing_to_wp
  let heading := heading + 2 * M_PI m
  fmod heading (2 * M_PI m)

/-- The settings `ini_pitch_offset`, `ini_pitch_min`, `ini_pitch_max` and
`ini_pitch_v_zero`. -/
structure PitchIni (K : Type) where
  ini_pitch_offset : K
  ini_pitch_min : K
  ini_pitch_max : K
  ini_pitch_v_zero : K

/-- Source `desired_pitch`. -/
def desired_pitch {K : Type} [LinearOrderedField K] (m : CMath K) (ini : PitchIni K)
    (alt_delta dist time : K) : K :=
  if time < 1 / 10 then 0
  else if dist < 1 / 10 then 0
  else
    let zdist := m.sqrt (alt_delta ^ 2 + dist ^ 2)
    let speed := zdist / time
    let slope_pitch := -m.atan (alt_delta / dist)
    let C := -2 * ini.ini_pitch_min / M_PI m
    let X := m.tan (ini.ini_pitch_max / C)
    let speed_pitch := C * m.atan (X * (1 - ini.ini_pitch_v_zero / speed)) + ini.ini_pitch_offset
    let pitch := slope_pitch + speed_pitch
    let pitch := min pitch (3 / 2)
    max pitch (-(3 / 2))

/-- Source `slew_turn_rate`. -/
def slew_turn_rate {K : Type} [LinearOrderedField K] [FloorRing K] (m : CMath K)
    (bearing_to_wp current_heading target_heading : K) : Nat :=
  let coefficient : K := 65 / 100
  let desired := desired_heading m bearing_to_wp target_heading
  slew_rotation_to_rate m (-coefficient * heading_delta id (M_PI m) desired current_heading)

/-- Source `slew_ahead_rate`. -/
def slew_ahead_rate {K : Type} [LinearOrderedField K] [FloorRing K] (m : CMath K)
    (lat1 lon1 lat2 lon2 time_to_go : K) : Nat :=
  let speed := distance m lat1 lon1 lat2 lon2 / time_to_go
  slew_ahead_to_rate m speed

/-! ## Replay loader (source lines 1653-1662, 1836-1866, 2386-2413, 2464-2593) -/

/-- One point of a replay track (`struct ReplayPoint`); `D` stands for `double`. -/
structure ReplayPoint (D : Type) where
  latitude : D
  longitude : D
  altitude : D
  pitch : D
  bank : D
  heading : D
  zulu_time : Int
  speed : D
  deriving DecidableEq

/-- The values parsed from one 'B' line of a track file by source
`load_igc_file`: latitude, longitude, altitude and time. -/
structure BFix (D : Type) where
  latitude : D
  longitude : D
  altitude : D
  zulu_time : Int
  deriving DecidableEq

/-- The four fields of a replay point that the line loop of `load_igc_file`
assigns. -/
def ReplayPoint.fix {D : Type} (r : ReplayPoint D) : BFix D :=
  { latitude := r.latitude, longitude := r.longitude, altitude := r.altitude,
    zulu_time := r.zulu_time }

/-- Do NOT try and interpolate a gap of more than this many seconds. -/
def IGC_GAP_TIME : Int := 12

/-- If a gap is more than this many seconds, insert an interpolated point. -/
def IGC_DELTA_MAX : Int := 5

/-- Interpolate at intervals of this many seconds. -/
def IGC_INTERP_TIMESTEP : Int := 3

/-- Source `interp`: `geo` is its floating-point part (the latitude and
longitude from `distance_and_bearing`, the interpolated altitude; the other
`double` fields are not assigned by the source); the time is
`p1.zulu_time + step_time`. -/
def interp {D : Type}
    (geo : ReplayPoint D → ReplayPoint D → ReplayPoint D → ReplayPoint D → Int → ReplayPoint D)
    (p0 p1 p2 p3 : ReplayPoint D) (step_time : Int) : ReplayPoint D :=
  { geo p0 p1 p2 p3 step_time with zulu_time := p1.zulu_time + step_time }

/-- The `while` loop of the gap filling in source `load_igc_file` on the array
`p` and the record counter `i`, with `fuel` passes allowed. -/
def gap_fill_loop {D : Type}
    (geo : ReplayPoint D → ReplayPoint D → ReplayPoint D → ReplayPoint D → Int → ReplayPoint D) :
    Nat → (Nat → ReplayPoint D) × Nat → (Nat → ReplayPoint D) × Nat
  | 0, st => st
  | fuel + 1, (p, i) =>
    if (p (i - 1)).zulu_time - (p (i - 2)).zulu_time > IGC_DELTA_MAX then
      let p_interp := interp geo (p (i - 3)) (p (i - 2)) (p (i - 1)) (p i) IGC_INTERP_TIMESTEP
      let p1 := Function.update p (i + 1) (p i)
      let p2 := Function.update p1 i (p1 (i - 1))
      let p3 := Function.update p2 (i - 1) p_interp
      gap_fill_loop geo fuel (p3, i + 1)
    else (p, i)

/-- The body of the line loop of source `load_igc_file` from the point where a
'B' line has been parsed into `b`: the four fields of `p[i]` are assigned, the
gap before `p[i-1]` is filled when `i > 2` and the gap is at most
`IGC_GAP_TIME`, and `i` is incremented. Each pass of the inner loop shortens the
gap by `IGC_INTERP_TIMESTEP`, so as many passes as the gap has seconds suffice. -/
def load_point {D : Type}
    (geo : ReplayPoint D → ReplayPoint D → ReplayPoint D → ReplayPoint D → Int → ReplayPoint D)
    (st : (Nat → ReplayPoint D) × Nat) (b : BFix D) : (Nat → ReplayPoint D) × Nat :=
  let i := st.2
  let p := Function.update st.1 i
    { st.1 i with latitude := b.latitude, longitude := b.longitude,
                  altitude := b.altitude, zulu_time := b.zulu_time }
  let st2 :=
    if 2 < i ∧ (p (i - 1)).zulu_time - (p (i - 2)).zulu_time ≤ IGC_GAP_TIME then
      gap_fill_loop geo ((p (i - 1)).zulu_time - (p (i - 2)).zulu_time).toNat (p, i)
    else (p, i)
  (st2.1, st2.2 + 1)

/-- Source `text_char`. -/
def text_char (m : Char) : Bool :=
  ('a' ≤ m && m ≤ 'z') || ('A' ≤ m && m ≤ 'Z') || ('0' ≤ m && m ≤ '9') ||
    m == ' ' || m == '_' || m == '-'

/-- The lower-case form `_stricmp` compares ('A'-'Z' to 'a'-'z'). -/
def c_tolower (ch : Char) : Char :=
  if 'A' ≤ ch ∧ ch ≤ 'Z' then Char.ofNat (ch.toNat + 32) else ch

/-- Writes `s[k] = ch` into a character buffer; bytes never written are NUL. -/
def buf_set (buf : List Char) (k : Nat) (ch : Char) : List Char :=
  (buf ++ List.replicate (k + 1 - buf.length) '\x00').set k ch

/-- Writes the characters of `run` into a buffer from index `k` on. -/
def buf_write (buf : List Char) : Nat → List Char → List Char
  | _, [] => buf
  | k, ch :: run => buf_write (buf_set buf k ch) (k + 1) run

/-- Source `get_igc_record` on the buffers `out_s` and `rec` with the key
`key`: the return value and the content of `out_s` afterwards. The copy loop
writes `out_s[m] = rec[m+len]` with the same `m` that counted the leading
spaces. -/
def get_igc_record (out_s rec key : List Char) : Bool × List Char :=
  let len := key.length
  let s := (c_str rec).take len
  if s.map c_tolower = key.map c_tolower then
    let value := (c_str rec).drop len
    let m := (value.takeWhile fun ch => ch == ' ').length
    if value.drop m = [] then (true, out_s)
    else
      let run := (value.drop m).takeWhile text_char
      (true, buf_write out_s m (run ++ ['\x00']))
  else (false, out_s)

/-- The state of the line loop of source `load_igc_file`: the title and ATC id
buffers of the actor, the replay array `p` and the record counter `i`. -/
structure LoadState (D : Type) where
  title : List Char
  atc_id : List Char
  p : Nat → ReplayPoint D
  i : Nat

/-- One pass of the line loop of source `load_igc_file` on `line_buf`:
the six header keys are tried in order (a match ends the pass), a line that
does not start with 'B' is skipped, a 'B' line is parsed by `parse_b` (the
`sscanf_s` conversion and its floating-point arithmetic) and stored. -/
def load_line {D : Type} (parse_b : List Char → BFix D)
    (geo : ReplayPoint D → ReplayPoint D → ReplayPoint D → ReplayPoint D → Int → ReplayPoint D)
    (st : LoadState D) (line_buf : List Char) : LoadState D :=
  if (get_igc_record st.title line_buf "HFGTYGLIDERTYPE:".toList).1 then
    { st with title := (get_igc_record st.title line_buf "HFGTYGLIDERTYPE:".toList).2 }
  else if (get_igc_record st.atc_id line_buf "HFCIDCOMPETITIONID:".toList).1 then
    { st with atc_id := (get_igc_record st.atc_id line_buf "HFCIDCOMPETITIONID:".toList).2 }
  else if (get_igc_record st.atc_id line_buf "HFGIDGLIDERID:".toList).1 then
    { st with atc_id := (get_igc_record st.atc_id line_buf "HFGIDGLIDERID:".toList).2 }
  else if (get_igc_record st.atc_id line_buf "LCU::HPGIDGLIDERID:".toList).1 then
    { st with atc_id := (get_igc_record st.atc_id line_buf "LCU::HPGIDGLIDERID:".toList).2 }
  else if (get_igc_record st.atc_id line_buf "LCU::HPCIDCOMPETITIONID:".toList).1 then
    { st with atc_id :=
        (get_igc_record st.atc_id line_buf "LCU::HPCIDCOMPETITIONID:".toList).2 }
  else if (get_igc_record st.atc_id line_buf "HFCID Competition ID    :".toList).1 then
    { st with atc_id :=
        (get_igc_record st.atc_id line_buf "HFCID Competition ID    :".toList).2 }
  else if line_buf.head? ≠ some 'B' then st
  else
    { st with p := (load_point geo (st.p, st.i) (parse_b line_buf)).1
              i := (load_point geo (st.p, st.i) (parse_b line_buf)).2 }

/-- The line loop of source `load_igc_file` (lines 2484-2593) on an opened
file: the title starts as the cleaned `ini_default_aircraft`, the ATC id as
`"XXXX"`, the counter at 0; `p` is the replay array of the actor as it was
before the load. The passes that follow the loop in the source assign only
pitch, bank, heading and speed. -/
def load_igc_file {D : Type} (parse_b : List Char → BFix D)
    (geo : ReplayPoint D → ReplayPoint D → ReplayPoint D → ReplayPoint D → Int → ReplayPoint D)
    (ini_default_aircraft : List Char) (p : Nat → ReplayPoint D) (file : List Char) :
    LoadState D :=
  (read_lines file).foldl (load_line parse_b geo)
    { title := clean_string ini_default_aircraft, atc_id := "XXXX".toList, p := p, i := 0 }

/-! ## The 'B' record parser of the loader (source lines 2511-2574) -/

/-- Size of the array `ai_info`. -/
def MAX_AI : Nat := 200

/-- Number of times to retry ai on failure. -/
def MAX_AI_RETRIES : Int := 2

/-- First request id of the object creations. -/
def REQUEST_AI_CREATE : Nat := 0x00100000

/-- First request id of the position updates. -/
def REQUEST_AI_POS : Nat := 0x00200000

/-- First request id of the object removals. -/
def REQUEST_AI_REMOVE : Nat := 0x00300000

/-- Position of an actor as the simulator reports it (`struct AIStruct`). -/
structure AIStruct (D : Type) where
  latitude : D
  longitude : D
  altitude : D
  pitch : D
  bank : D
  heading : D
  altitude_agl : D
  sim_on_ground : Int
  deriving DecidableEq

/-- Block of data to move an actor (`struct AIMoveStruct`). -/
structure AIMoveStruct (D : Type) where
  latitude : D
  longitude : D
  altitude : D
  pitch : D
  bank : D
  heading : D
  deriving DecidableEq

/-- State of one actor (`struct AIInfo`). -/
structure AIInfo (D : Type) where
  logpoint_count : Int
  next_logpoint : Nat
  id : Nat
  created : Bool
  removed : Bool
  default_tried : Bool
  title : List Char
  atc_id : List Char
  gear_up_disable_timeout : Int
  gear_up : Bool
  slew_on : Bool
  alt_offset : D
  deriving DecidableEq

/-- The client events that the replay transmits for an actor. -/
inductive AI_EVENT where
  | EVENT_SLEW_ON
  | EVENT_SLEW_OFF
  | EVENT_AXIS_SLEW_AHEAD_SET
  | EVENT_AXIS_SLEW_HEADING_SET
  | EVENT_AXIS_SLEW_ALT_SET
  | EVENT_AXIS_SLEW_BANK_SET
  | EVENT_AXIS_SLEW_PITCH_SET
  deriving DecidableEq

/-- One entry of the trace of an actor run: a SimConnect call with the
arguments that matter, or the message of `retry_ai`. For
`AICreateSimulatedObject` the trace keeps the title, the replay point
`replay[ai_index][0]` from which the source computes the initial position, and
the request id. -/
inductive SimCall (D : Type) where
  | AICreateSimulatedObject (title : List Char) (init : ReplayPoint D) (request : Nat)
  | AIRemoveObject (id : Nat) (request : Nat)
  | SetData_AI_MOVE (id : Nat) (ai_move_data : AIMoveStruct D)
  | SetData_AI_SET_DATA (id : Nat) (atc_id : List Char)
  | RequestData_AI_POS (request : Nat) (id : Nat)
  | TransmitClientEvent (id : Nat) (event : AI_EVENT) (data : Nat)
  | retrying_ai_creates (ai_count : Nat)
  deriving DecidableEq

/-- The globals of the replay: `ai_info`, `ai_count`, `ai_created_or_failed`,
`ai_retry_count`, `ai_failed`, `replay`, `zulu_clock`, and the trace of calls
made so far. -/
structure AIState (D : Type) where
  ai_info : Nat → AIInfo D
  ai_count : Nat
  ai_created_or_failed : Int
  ai_retry_count : Int
  ai_failed : Bool
  replay : Nat → Nat → ReplayPoint D
  zulu_clock : Rat
  calls : List (SimCall D)

/-- Assignment to fields of `ai_info[ai_index]`. -/
def AIState.set_info {D : Type} (s : AIState D) (ai_index : Nat) (f : AIInfo D → AIInfo D) :
    AIState D :=
  { s with ai_info := Function.update s.ai_info ai_index (f (s.ai_info ai_index)) }

/-- One more call in the trace. -/
def AIState.call {D : Type} (s : AIState D) (c : SimCall D) : AIState D :=
  { s with calls := s.calls ++ [c] }

/-- Source `remove_ai`. -/
def remove_ai {D : Type} (ai_index : Nat) (s : AIState D) : AIState D :=
  if (s.ai_info ai_index).created then
    (s.set_info ai_index fun a => { a with created := false, removed := true }).call
      (SimCall.AIRemoveObject (s.ai_info ai_index).id (REQUEST_AI_REMOVE + ai_index))
  else s

/-- Source `move_ai`: the six fields of `r` are set on the object, then the
slew command with ahead rate zero is sent. -/
def move_ai {D : Type} (ai_index : Nat) (r : ReplayPoint D) (s : AIState D) : AIState D :=
  (s.call (SimCall.SetData_AI_MOVE (s.ai_info ai_index).id
      { latitude := r.latitude, longitude := r.longitude, altitude := r.altitude,
        pitch := r.pitch, bank := r.bank, heading := r.heading })).call
    (SimCall.TransmitClientEvent (s.ai_info ai_index).id AI_EVENT.EVENT_AXIS_SLEW_AHEAD_SET 0)

/-- Source `create_ai`. -/
def create_ai {D : Type} (ai_index : Nat) (s : AIState D) : AIState D :=
  if ¬ (s.ai_info ai_index).created then
    s.call (SimCall.AICreateSimulatedObject (s.ai_info ai_index).title (s.replay ai_index 0)
      (REQUEST_AI_CREATE + ai_index))
  else s

/-- The body of the loop of source `retry_ai` for one `ai_index`. -/
def retry_ai_body {D : Type} (ini_default_aircraft : List Char) (s : AIState D)
    (ai_index : Nat) : AIState D :=
  if ¬ (s.ai_info ai_index).created ∧ ¬ (s.ai_info ai_index).removed ∧
      ¬ (s.ai_info ai_index).default_tried then
    create_ai ai_index
      ({ s with ai_created_or_failed := s.ai_created_or_failed - 1 }.set_info ai_index
        fun a => { a with title := clean_string ini_default_aircraft, default_tried := true })
  else s

/-- Source `retry_ai`: `ai_retry_count` is compared with `MAX_AI_RETRIES` and
then incremented; unless they were equal the message is given and the loop
runs over all actors. -/
def retry_ai {D : Type} (ini_default_aircraft : List Char) (s : AIState D) : AIState D :=
  if s.ai_retry_count = MAX_AI_RETRIES then
    { s with ai_retry_count := s.ai_retry_count + 1 }
  else
    (List.range s.ai_count).foldl (retry_ai_body ini_default_aircraft)
      ({ s with ai_retry_count := s.ai_retry_count + 1 }.call
        (SimCall.retrying_ai_creates s.ai_count))

/-- Source `incr_ai_created_or_failed`. -/
def incr_ai_created_or_failed {D : Type} (ini_default_aircraft : List Char) (s : AIState D) :
    AIState D :=
  if s.ai_created_or_failed + 1 = s.ai_count ∧ s.ai_failed = true then
    retry_ai ini_default_aircraft { s with ai_created_or_failed := s.ai_created_or_failed + 1 }
  else { s with ai_created_or_failed := s.ai_created_or_failed + 1 }

/-- Source `ai_set_slew`; `on_flag` is the source's parameter `on`. -/
def ai_set_slew {D : Type} (ai_index : Nat) (on_flag : Bool) (s : AIState D) : AIState D :=
  (s.set_info ai_index fun a => { a with slew_on := on_flag }).call
    (SimCall.TransmitClientEvent (s.ai_info ai_index).id
      (if on_flag then AI_EVENT.EVENT_SLEW_ON else AI_EVENT.EVENT_SLEW_OFF) 1)

/-- Source `init_ai`. -/
def init_ai {D : Type} (ai_index : Nat) (s : AIState D) : AIState D :=
  ai_set_slew ai_index true s

/-- Source `get_ai_pos_updates`. -/
def get_ai_pos_updates {D : Type} (ai_index : Nat) (s : AIState D) : AIState D :=
  s.call (SimCall.RequestData_AI_POS (REQUEST_AI_POS + ai_index) (s.ai_info ai_index).id)

/-- A notification of the simulator that concerns the creation of the actors:
`SIMCONNECT_RECV_ID_ASSIGNED_OBJECT_ID` with its request id and object id, the
exception `SIMCONNECT_EXCEPTION_CREATE_OBJECT_FAILED`, and
`EVENT_OBJECT_REMOVED` with the object id. -/
inductive Notification where
  | assigned_object_id (dwRequestID dwObjectID : Nat)
  | create_object_failed
  | object_removed (dwData : Nat)
  deriving DecidableEq

/-- The handler of `SIMCONNECT_RECV_ID_ASSIGNED_OBJECT_ID` (source lines
3878-3908). -/
def on_assigned_object_id {D : Type} (ini_default_aircraft : List Char)
    (dwRequestID dwObjectID : Nat) (s : AIState D) : AIState D :=
  if REQUEST_AI_CREATE ≤ dwRequestID ∧ dwRequestID < REQUEST_AI_CREATE + MAX_AI then
    let ai_index := dwRequestID - REQUEST_AI_CREATE
    let s1 := s.set_info ai_index fun a => { a with id := dwObjectID, created := true }
    let s2 := init_ai ai_index s1
    let s3 := s2.call
      (SimCall.SetData_AI_SET_DATA (s2.ai_info ai_index).id (s2.ai_info ai_index).atc_id)
    incr_ai_created_or_failed ini_default_aircraft (get_ai_pos_updates ai_index s3)
  else s

/-- The handler of `EVENT_OBJECT_REMOVED` (source lines 4044-4052): the first
actor with the object id, if there is one, is no longer created. -/
def on_object_removed {D : Type} (dwData : Nat) (s : AIState D) : AIState D :=
  match (List.range s.ai_count).find? fun i => decide (dwData = (s.ai_info i).id) with
  | some i => s.set_info i fun a => { a with created := false }
  | none => s

/-- The handler of `SIMCONNECT_EXCEPTION_CREATE_OBJECT_FAILED` (source lines
4070-4075). -/
def on_create_object_failed {D : Type} (ini_default_aircraft : List Char) (s : AIState D) :
    AIState D :=
  incr_ai_created_or_failed ini_default_aircraft { s with ai_failed := true }

/-- The dispatch of one notification to its handler. -/
def dispatch {D : Type} (ini_default_aircraft : List Char) (s : AIState D) :
    Notification → AIState D
  | Notification.assigned_object_id dwRequestID dwObjectID =>
    on_assigned_object_id ini_default_aircraft dwRequestID dwObjectID s
  | Notification.create_object_failed => on_create_object_failed ini_default_aircraft s
  | Notification.object_removed dwData => on_object_removed dwData s

/-- If the current AI point is this many seconds old, then MOVE not SLEW. -/
def AI_WARP_TIME : Rat := 30

/-- Predict the replay position this many seconds ahead. -/
def PREDICT_PERIOD : Rat := 4

/-- The five slew rates that a smooth-follow tick transmits. -/
structure SlewRates where
  ahead_rate : Nat
  heading_rate : Nat
  alt_rate : Nat
  bank_rate : Nat
  pitch_rate : Nat
  deriving DecidableEq

/-- The scanning loop of source `update_ai` (lines 2238-2244, and 2271-2277
with `predict_time` as the clock): from index `i`, while
`i < logpoint_count - 2`, the index moves on while the clock is past the time
of `r[i]`; the result is the index reached and the flag `found`. Each pass
that goes on increases `i`, so `logpoint_count` passes suffice. -/
def cursor_scan {D : Type} (r : Nat → ReplayPoint D) (logpoint_count : Int) (clock : Rat) :
    Nat → Nat → Nat × Bool
  | 0, i => (i, false)
  | fuel + 1, i =>
    if (i : Int) < logpoint_count - 2 then
      if clock > (r i).zulu_time then cursor_scan r logpoint_count clock fuel (i + 1)
      else (i, true)
    else (i, false)

/-- Source `update_ai`. The floating-point parts of the smooth-follow branch
are parameters: `predict` gives `predict_point` from `predict_time`, `r[j-1]`,
`r[j]`, the reported position and `alt_offset`; `rates` gives the five slew
rates from the reported position and `predict_point`. -/
def update_ai {D : Type}
    (predict : Rat → ReplayPoint D → ReplayPoint D → AIStruct D → D → ReplayPoint D)
    (rates : AIStruct D → ReplayPoint D → SlewRates)
    (ai_index : Nat) (pos : AIStruct D) (s : AIState D) : AIState D :=
  let r := s.replay ai_index
  let info := s.ai_info ai_index
  let sc := cursor_scan r info.logpoint_count s.zulu_clock info.logpoint_count.toNat 1
  let i := sc.1
  if ¬ sc.2 then remove_ai ai_index s
  else if s.zulu_clock - (r info.next_logpoint).zulu_time > AI_WARP_TIME then
    (move_ai ai_index (r i) s).set_info ai_index fun a => { a with next_logpoint := i }
  else
    let s1 := s.set_info ai_index fun a => { a with next_logpoint := i }
    let predict_time := s.zulu_clock + PREDICT_PERIOD
    let pj := cursor_scan r info.logpoint_count predict_time info.logpoint_count.toNat i
    let j := pj.1
    if pj.2 then
      let predict_point := predict predict_time (r (j - 1)) (r j) pos info.alt_offset
      let rt := rates pos predict_point
      let s2 := if ¬ info.slew_on then ai_set_slew ai_index true s1 else s1
      ((((s2.call
        (SimCall.TransmitClientEvent info.id AI_EVENT.EVENT_AXIS_SLEW_AHEAD_SET
          rt.ahead_rate)).call
        (SimCall.TransmitClientEvent info.id AI_EVENT.EVENT_AXIS_SLEW_HEADING_SET
          rt.heading_rate)).call
        (SimCall.TransmitClientEvent info.id AI_EVENT.EVENT_AXIS_SLEW_ALT_SET
          rt.alt_rate)).call
        (SimCall.TransmitClientEvent info.id AI_EVENT.EVENT_AXIS_SLEW_BANK_SET
          rt.bank_rate)).call
        (SimCall.TransmitClientEvent info.id AI_EVENT.EVENT_AXIS_SLEW_PITCH_SET
          rt.pitch_rate)
    else s1

/-! ## Attitude passes of the loader and the smooth-follow tick (source lines 2266-2317, 2416-2461, 2596-2612)

As for the geodesy, the `double` values are elements of an ordered field `K`
and the arithmetic is exact. -/

/-- The prediction of source `update_ai` (lines 2281-2298): `predict_point`
from `predict_time`, the replay points `r[j-1]` and `r[j]`, the reported
position and `alt_offset`. The source leaves `zulu_time` and `speed` of
`predict_point` unassigned and does not read them; here they are 0. -/
def predict_point {K : Type} [LinearOrderedField K] [FloorRing K] (m : CMath K)
    (predict_time : Rat) (a b : ReplayPoint K) (pos : AIStruct K) (alt_offset : K) :
    ReplayPoint K :=
  let progress : K :=
    ((predict_time : K) - (a.zulu_time : K)) / ((b.zulu_time - a.zulu_time : Int) : K)
  let progress := max progress 0
  { latitude := a.latitude + progress * (b.latitude - a.latitude)
    longitude := a.longitude + progress * (b.longitude - a.longitude)
    altitude := a.altitude + progress * (b.altitude - a.altitude) + alt_offset
    heading := bearing m a.latitude a.longitude b.latitude b.longitude
    pitch := if pos.sim_on_ground ≠ 0 then 0 else a.pitch + progress * (b.pitch - a.pitch)
    bank := if pos.sim_on_ground ≠ 0 then 0 else a.bank + progress * (b.bank - a.bank)
    zulu_time := 0
    speed := 0 }

/-- The rates of source `update_ai` (lines 2300-2317) from the reported
position and `predict_point`. -/
def slew_rates {K : Type} [LinearOrderedField K] [FloorRing K] (m : CMath K)
    (pos : AIStruct K) (predict_point : ReplayPoint K) : SlewRates :=
  let bearing_to_wp := bearing m pos.latitude pos.longitude predict_point.latitude
    predict_point.longitude
  { heading_rate := slew_turn_rate m bearing_to_wp pos.heading predict_point.heading
    ahead_rate := slew_ahead_rate m pos.latitude pos.longitude predict_point.latitude
      predict_point.longitude (PREDICT_PERIOD : K)
    bank_rate := slew_rotation_to_rate m ((predict_point.bank - pos.bank) / (PREDICT_PERIOD : K))
    pitch_rate :=
      slew_rotation_to_rate m ((predict_point.pitch - pos.pitch) / (PREDICT_PERIOD : K))
    alt_rate :=
      slew_alt_to_rate m ((pos.altitude - predict_point.altitude) / (PREDICT_PERIOD : K)) }

/-- Source `ai_update_pbhs`: pitch, speed and bank of `p[i]`, heading of
`p[i-1]` (of `p[0]` when `i` is 1). -/
def ai_update_pbhs {K : Type} [LinearOrderedField K] [FloorRing K] (m : CMath K)
    (ini : PitchIni K) (p : Nat → ReplayPoint K) (i : Nat) : Nat → ReplayPoint K :=
  let p1 : Nat → ReplayPoint K :=
    if i = 0 then Function.update p i { p i with pitch := 0, speed := 0 }
    else
      let dist := distance m (p (i - 1)).latitude (p (i - 1)).longitude (p i).latitude
        (p i).longitude
      Function.update p i
        { p i with
          pitch := desired_pitch m ini ((p i).altitude - (p (i - 1)).altitude) dist
            (((p i).zulu_time - (p (i - 1)).zulu_time : Int) : K)
          speed := dist / (((p i).zulu_time - (p (i - 1)).zulu_time : Int) : K) }
  let p2 : Nat → ReplayPoint K :=
    if i = 1 then
      Function.update p1 0
        { p1 0 with
          heading := bearing m (p1 0).latitude (p1 0).longitude (p1 1).latitude
            (p1 1).longitude }
    else if 1 < i then
      Function.update p1 (i - 1)
        { p1 (i - 1) with
          heading := target_heading m (p1 (i - 2)).latitude (p1 (i - 2)).longitude
            (p1 (i - 1)).latitude (p1 (i - 1)).longitude (p1 i).latitude (p1 i).longitude }
    else p1
  if i < 2 then Function.update p2 i { p2 i with bank := 0 }
  else
    let this_bearing := bearing m (p2 (i - 1)).latitude (p2 (i - 1)).longitude (p2 i).latitude
      (p2 i).longitude
    let prev_bearing := bearing m (p2 (i - 2)).latitude (p2 (i - 2)).longitude
      (p2 (i - 1)).latitude (p2 (i - 1)).longitude
    let bearing_delta := fmod (this_bearing + 2 * M_PI m - prev_bearing) (2 * M_PI m)
    let bearing_delta :=
      if bearing_delta > M_PI m then bearing_delta - 2 * M_PI m else bearing_delta
    let turn_radians_per_second :=
      bearing_delta / (((p2 i).zulu_time - (p2 (i - 1)).zulu_time : Int) : K)
    let bank := -turn_radians_per_second * 4
    let bank := min bank (3 / 2)
    let bank := max bank (-(3 / 2))
    Function.update p2 i { p2 i with bank := bank }

/-- The pass `for (int x=0; x<i; x++) ai_update_pbhs(p,x);` of source
`load_igc_file`. -/
def pbh_pass {K : Type} [LinearOrderedField K] [FloorRing K] (m : CMath K)
    (ini : PitchIni K) (p : Nat → ReplayPoint K) (i : Nat) : Nat → ReplayPoint K :=
  (List.range i).foldl (ai_update_pbhs m ini) p

/-- Heading is trusted above this speed (m/s). -/
def MIN_HEADING_SPEED {K : Type} [LinearOrderedField K] : K := 3

/-- The test of the low-speed pass for the fix `x`: the speed from `p[x]` to
`p[x+1]` is above `MIN_HEADING_SPEED`. -/
def heading_speed_ok {K : Type} [LinearOrderedField K] (m : CMath K)
    (p : Nat → ReplayPoint K) (x : Nat) : Bool :=
  decide
    (distance m (p x).latitude (p x).longitude (p (x + 1)).latitude (p (x + 1)).longitude /
      (((p (x + 1)).zulu_time - (p x).zulu_time : Int) : K) > MIN_HEADING_SPEED)

/-- The body of the low-speed pass of source `load_igc_file` for one `x`, on
the array and the flag `valid_heading`. -/
def low_speed_step {K : Type} [LinearOrderedField K] (m : CMath K)
    (st : (Nat → ReplayPoint K) × Bool) (x : Nat) : (Nat → ReplayPoint K) × Bool :=
  if heading_speed_ok m st.1 x then (st.1, true)
  else
    (Function.update st.1 x
      { st.1 x with
        pitch := 0
        bank := 0
        heading := if st.2 then (st.1 (x + 1)).heading else (st.1 x).heading }, st.2)

/-- The low-speed pass `for (int x=i-2;x>=0;x--)` of source `load_igc_file`. -/
def low_speed_pass {K : Type} [LinearOrderedField K] (m : CMath K)
    (p : Nat → ReplayPoint K) (i : Nat) : Nat → ReplayPoint K :=
  ((List.range (i - 1)).reverse.foldl (low_speed_step m) (p, false)).1

/-- The replay array after the two passes that follow the line loop of source
`load_igc_file`. -/
def attitude_passes {K : Type} [LinearOrderedField K] [FloorRing K] (m : CMath K)
    (ini : PitchIni K) (p : Nat → ReplayPoint K) (i : Nat) : Nat → ReplayPoint K :=
  low_speed_pass m (pbh_pass m ini p i) i

/-! ## Definitions for the claims: described behaviour, predicates, samples -/

/-- The character stream that the general checksum is described to cover: the
seven per-file tags FLT, AIR, WX, CMX, CumulusX.exe, aircraft.cfg, mission XML,
then the three status tokens chosen by whether each code is 0. -/
def general_checksum_stream (g : ChksumGlobals) : List Char :=
  g.chksum_flt ++ g.chksum_air ++ g.chksum_wx ++ g.chksum_cmx ++ g.chksum_cx ++
    g.chksum_cfg ++ g.chksum_xml ++
    (if g.cx_code = 0 then "CX UNLOCKED".toList else "CX LOCKED".toList) ++
    (if g.wx_code = 0 then "WX UNLOCKED".toList else "WX LOCKED".toList) ++
    (if g.therm_code = 0 then "THERM FILE PRESENT".toList else "NO THERM FILE".toList)

/-- Sample values of the globals of `chksum_chksum`. -/
def sample_chk (cx wx therm : Int) : ChksumGlobals :=
  { chksum_flt := "0O8DVF".toList, chksum_air := "A1B2C3".toList,
    chksum_wx := "000000".toList, chksum_cmx := "ZZZZZZ".toList,
    chksum_cx := "123456".toList, chksum_cfg := "QWERTY".toList,
    chksum_xml := "000000".toList, cx_code := cx, wx_code := wx, therm_code := therm }

/-- The state invariant of the codec: index below the modulus, six slots, each
below `CHK_CHARS`. -/
def ChksumInv (st : ChksumData) : Prop :=
  st.index < CHKSUM_MAX_INDEX ∧ st.num.length = CHKSUM_CHARS ∧ ∀ n ∈ st.num, n < CHK_CHARS

/-- A complete text line: it ends with a line feed, has no other line feed and
fits a `MAXBUF` buffer together with its terminator. -/
def is_line (l : List Char) : Bool :=
  decide (l.length < MAXBUF) && l.getLast? == some '\n' && !(l.dropLast.contains '\n')

/-- The checksum state that `chksum_igc_file` holds when its line loop ends. -/
def igc_state (s : List Char) : ChksumData :=
  (igc_scan chksum_reset [] (read_lines s)).1

/-- The text lines of a file: the pieces between line feeds, without the line
feeds. -/
def text_lines : List Char → List (List Char)
  | [] => [[]]
  | ch :: s =>
    if ch = '\n' then [] :: text_lines s
    else
      match text_lines s with
      | [] => [[ch]]
      | l :: ls => (ch :: l) :: ls

/-- The classification of a track file as the self-check is described:
`CHKSUM_NOT_FOUND` when no text line begins with 'G'; otherwise, on the first
line that does, `CHKSUM_TOO_SHORT` when fewer than six characters follow the
marker on that line, `CHKSUM_OK` when the six characters that follow equal the
tag of all lines before it, and `CHKSUM_BAD` otherwise. -/
def igc_classify_described (s : List Char) : CHKSUM_RESULT :=
  let ls := text_lines s
  let before := ls.takeWhile fun l => l.head? != some 'G'
  match ls.dropWhile fun l => l.head? != some 'G' with
  | [] => CHKSUM_NOT_FOUND
  | g :: _ =>
    if (g.drop 1).length < CHKSUM_CHARS then CHKSUM_TOO_SHORT
    else if (g.drop 1).take CHKSUM_CHARS =
        chksum_to_string (chksum_string chksum_reset before.flatten) then CHKSUM_OK
    else CHKSUM_BAD

/-- Sample track file, first part: the lines before the changed 'B' line. -/
def collision_before : List (List Char) :=
  ["HFPLTPILOTINCHARGE: xqWXiDgN\n".toList]

/-- Sample track file, second part: the 'B' line up to the changed character. -/
def collision_u : List Char :=
  "B12031547020".toList

/-- Sample track file, third part: the rest of the 'B' line and the 'G' line. -/
def collision_post : List Char :=
  "0N12215500WA0123401234027000\nGMP0B3K\n".toList

/-- The 11 performance sections as they are described: ten full section names
and the family `[flaps.*]`. -/
def described_sections : List (List Char) :=
  [ "[airplane_geometry]".toList, "[flaps.".toList, "[flight_tuning]".toList,
    "[water_ballast_system]".toList, "[weight_and_balance]".toList,
    "[generalenginedata]".toList, "[jet_engine]".toList, "[piston_engine]".toList,
    "[propeller]".toList, "[turbineenginedata]".toList, "[turboprop_engine]".toList ]

/-- A bracketed header line: `[` is its first character after leading spaces. -/
def is_header_line (l : List Char) : Bool :=
  (l.dropWhile fun ch => ch == ' ').head? == some '['

/-- A header line that names one of the described sections. -/
def is_described_header (l : List Char) : Bool :=
  described_sections.any fun n => (l.dropWhile fun ch => ch == ' ').take n.length == n

/-- The lines inside the described sections: a header line opens a described
section or closes the current one; any other line belongs to the section it
follows. -/
def described_perf_lines_from : Bool → List (List Char) → List (List Char)
  | _, [] => []
  | inside, l :: ls =>
    if is_header_line l then described_perf_lines_from (is_described_header l) ls
    else if inside then l :: described_perf_lines_from inside ls
    else described_perf_lines_from inside ls

/-- The lines of a configuration file that lie inside the described sections. -/
def described_perf_lines (s : List Char) : List (List Char) :=
  described_perf_lines_from false (text_lines s)

/-- The leading characters that `perf_match` compares: `[airp`, `[fla`, `[fli`,
`[wa`, `[we`, `[generaleng`, `[jet`, `[pis`, `[pro`, `[turbi`, `[turbo`. -/
def perf_abbreviations : List (List Char) :=
  perf_strings.map fun p => p.1.take p.2

/-- The lines that `chksum_cfg_file` takes to be inside a performance section:
a line on which `starts_bracket` finds a bracket sets the flag to the answer of
`perf_match`; any other line is kept when the flag is set. -/
def perf_lines_from : Bool → List (List Char) → List (List Char)
  | _, [] => []
  | inside, l :: ls =>
    if starts_bracket (c_str l) < 0 then
      if inside then l :: perf_lines_from inside ls else perf_lines_from inside ls
    else perf_lines_from (perf_match (c_str l)) ls

/-- The lines of a configuration file, read as `fgets` reads it, that
`chksum_cfg_file` takes to be inside a performance section. -/
def perf_lines (s : List Char) : List (List Char) :=
  perf_lines_from false (read_lines s)

/-- The number of synthetic fixes the gap filling puts into a gap of `g`
seconds: none up to `IGC_DELTA_MAX`, otherwise the least `n` with
`g - 3 n ≤ 5`, which is `ceil ((g - 5) / 3)`. -/
def gap_fill_count (g : Int) : Nat :=
  if g ≤ 5 then 0 else ((g - 3) / 3).toNat

/-- The replay array and record counter after `load_point` has stored a list of
parsed fixes, one after the other. -/
def load_points {D : Type}
    (geo : ReplayPoint D → ReplayPoint D → ReplayPoint D → ReplayPoint D → Int → ReplayPoint D)
    (st : (Nat → ReplayPoint D) × Nat) (fixes : List (BFix D)) : (Nat → ReplayPoint D) × Nat :=
  fixes.foldl (load_point geo) st

/-- The position records of a file: the lines, read as `fgets` reads them, that
start with 'B'. -/
def b_lines (file : List Char) : List (List Char) :=
  (read_lines file).filter fun l => l.head? == some 'B'

/-- Sample parser of a 'B' line: the time `3600*hours + 60*mins + secs` from the
six digits `HHMMSS`; the floating-point fields are left out. -/
def sample_parse (l : List Char) : BFix Unit :=
  let d := fun k => ((l.getD k '0').toNat : Int) - 48
  { latitude := (), longitude := (), altitude := (),
    zulu_time := 3600 * (10 * d 1 + d 2) + 60 * (10 * d 3 + d 4) + (10 * d 5 + d 6) }

/-- Sample floating-point part of `interp`: the fields of `p1` are kept. -/
def sample_geo (_p0 p1 _p2 _p3 : ReplayPoint Unit) (_step : Int) : ReplayPoint Unit := p1

/-- Sample replay array before a load: every entry at time 0. -/
def sample_array : Nat → ReplayPoint Unit := fun _ =>
  { latitude := (), longitude := (), altitude := (), pitch := (), bank := (), heading := (),
    zulu_time := 0, speed := () }

/-- Sample track file: fixes at 990 s, 1000 s, 1010 s and 1014 s after midnight. -/
def sample_track : List Char :=
  "HFGTYGLIDERTYPE: DG808S\nB001630\nB001640\nB001650\nB001654\nG000000\n".toList

/-- The fixes held in the first `i` entries of a replay array, in index order. -/
def track_fixes {D : Type} (p : Nat → ReplayPoint D) (i : Nat) : List (BFix D) :=
  (List.range i).map fun k => (p k).fix

/-- The times held in the first `i` entries of a replay array, in index order. -/
def track_times {D : Type} (p : Nat → ReplayPoint D) (i : Nat) : List Int :=
  (List.range i).map fun k => (p k).zulu_time

/-- The gap from fix `a` to fix `b` is one the gap filling leaves alone: at
most `IGC_DELTA_MAX` seconds or more than `IGC_GAP_TIME` seconds. -/
def gap_left_alone {D : Type} (a b : BFix D) : Prop :=
  b.zulu_time - a.zulu_time ≤ IGC_DELTA_MAX ∨ IGC_GAP_TIME < b.zulu_time - a.zulu_time

/-- Fix `b` is later than fix `a`. -/
def later_fix {D : Type} (a b : BFix D) : Prop := a.zulu_time < b.zulu_time

/-- The entries `0 .. i-1` of a replay array have strictly increasing times. -/
def increasing_track {D : Type} (p : Nat → ReplayPoint D) (i : Nat) : Prop :=
  ∀ j, j + 1 < i → (p j).zulu_time < (p (j + 1)).zulu_time

/-- Sample track file without a gap to fill: fixes at 990 s, 994 s, 1014 s,
1018 s and 1038 s after midnight (gaps of 4 s and of 20 s). -/
def dense_track : List Char :=
  "B001630\nB001634\nB001654\nB001658\nB001718\nG000000\n".toList

/-- Sample track file of a flight that passes midnight UTC: fixes at 23:59:58
and at 00:00:02. -/
def midnight_track : List Char := "B235958\nB000002\n".toList

/-- A position record of a track file: 12:00:00, 51 30.000 N, 000 12.000 W,
altitudes 100 m. -/
def b_line : List Char := "B1200005130000N00012000WA0010000100\n".toList

/-- A track file of `n` position records, each the record `b_line`. -/
def long_track (n : Nat) : List Char := (List.replicate n b_line).flatten

/-- The empty recorder log: no record stored, every array entry as `r0`. -/
def empty_log {D : Type} (r0 : igc_b D) : IgcLog D :=
  { igc_pos := fun _ => r0, igc_record_count := 0 }

/-- The log after `igc_log_point` has been called on each sample of a list, in
order. -/
def log_points {D : Type} (to_double : Int → D) (st : IgcLog D) (ps : List (UserStruct D)) :
    IgcLog D :=
  ps.foldl (igc_log_point to_double) st

/-- The stored records of a log: the first `igc_record_count` array entries. -/
def stored {D : Type} (st : IgcLog D) : List (igc_b D) :=
  (List.range st.igc_record_count).map st.igc_pos

/-- The record that `igc_log_point` stores for a sample. -/
def record_of {D : Type} (to_double : Int → D) (p : UserStruct D) : igc_b D :=
  { zulu_time := p.zulu_time, latitude := p.latitude, longitude := p.longitude,
    altitude := p.altitude, rpm := to_double p.rpm }

/-- The samples that the description accepts, in arrival order, when the time of
the last accepted sample is `last`: a sample whose time equals the time of the
last accepted one is dropped, any other sample is accepted. -/
def accepted_from {D : Type} : Option Int → List (UserStruct D) → List (UserStruct D)
  | _, [] => []
  | last, p :: ps =>
    if last = some p.zulu_time then accepted_from last ps
    else p :: accepted_from (some p.zulu_time) ps

/-- The samples that the description accepts from an empty log. -/
def accepted {D : Type} (ps : List (UserStruct D)) : List (UserStruct D) :=
  accepted_from none ps

/-- A sample at time `t`, floating-point fields left out. -/
def sample_at (t : Int) : UserStruct Unit :=
  { latitude := (), longitude := (), altitude := (), sim_on_ground := 0, zulu_time := t,
    rpm := 0 }

/-- The samples at times `0, 1, ..., n-1`. -/
def samples_upto (n : Nat) : List (UserStruct Unit) :=
  (List.range n).map fun k : Nat => sample_at (Int.ofNat k)

/-- The log that holds `IGC_MAX_RECORDS` records, at times `0, 1, ..., 39999`. -/
def full_log : IgcLog Unit :=
  { igc_pos := fun k => { zulu_time := k, latitude := (), longitude := (), altitude := (),
                          rpm := () }
    igc_record_count := IGC_MAX_RECORDS }

/-! ### Actor runs -/

/-- The state after a list of notifications has been dispatched, in order. -/
def run {D : Type} (ini_default_aircraft : List Char) (s : AIState D)
    (evs : List Notification) : AIState D :=
  evs.foldl (dispatch ini_default_aircraft) s

/-- The trace entry is a create request. -/
def is_create {D : Type} : SimCall D → Bool
  | SimCall.AICreateSimulatedObject _ _ _ => true
  | _ => false

/-- The trace entry is the mark of a retry pass: the message that `retry_ai`
gives before its loop. -/
def is_retry_pass {D : Type} : SimCall D → Bool
  | SimCall.retrying_ai_creates _ => true
  | _ => false

/-- The number of retry passes in a trace. -/
def retry_passes {D : Type} (calls : List (SimCall D)) : Nat :=
  calls.countP is_retry_pass

/-- The actor is one that the loop of `retry_ai` selects: not created, not
removed, default aircraft not tried. -/
def eligible {D : Type} (s : AIState D) (k : Nat) : Bool :=
  !(s.ai_info k).created && !(s.ai_info k).removed && !(s.ai_info k).default_tried

/-- The create request that a retry issues for actor `k`: the cleaned default
aircraft as title, the first replay point, the request id of the actor. -/
def retry_request {D : Type} (ini_default_aircraft : List Char) (s : AIState D) (k : Nat) :
    SimCall D :=
  SimCall.AICreateSimulatedObject (clean_string ini_default_aircraft) (s.replay k 0)
    (REQUEST_AI_CREATE + k)

/-- The notification is the report of an actor out of `n`: a creation failure,
or a creation success with the request id of one of the actors. -/
def is_report (n : Nat) : Notification → Bool
  | Notification.assigned_object_id dwRequestID _ =>
    decide (REQUEST_AI_CREATE ≤ dwRequestID ∧ dwRequestID < REQUEST_AI_CREATE + n)
  | Notification.create_object_failed => true
  | Notification.object_removed _ => false

/-- The actors that a list of notifications reports as created. -/
def successes : List Notification → List Nat
  | [] => []
  | Notification.assigned_object_id dwRequestID _ :: evs =>
    (dwRequestID - REQUEST_AI_CREATE) :: successes evs
  | _ :: evs => successes evs

/-- The state is as `reset_ai` and the loading of the tracks leave it: the
counters at zero, no failure seen, no actor created, removed or tried with the
default aircraft; the trace starts empty. -/
def fresh {D : Type} (s : AIState D) : Prop :=
  s.ai_created_or_failed = 0 ∧ s.ai_failed = false ∧ s.ai_retry_count = 0 ∧ s.calls = [] ∧
  ∀ k, k < s.ai_count →
    (s.ai_info k).created = false ∧ (s.ai_info k).removed = false ∧
      (s.ai_info k).default_tried = false

/-- The result of the first scanning loop of a tick of `update_ai` for actor
`ai_index`: the index reached and the flag `found`. -/
def tick_scan {D : Type} (s : AIState D) (ai_index : Nat) : Nat × Bool :=
  cursor_scan (s.replay ai_index) (s.ai_info ai_index).logpoint_count s.zulu_clock
    (s.ai_info ai_index).logpoint_count.toNat 1

/-- The block of data that `move_ai` sets for the replay point `r`. -/
def move_data {D : Type} (r : ReplayPoint D) : AIMoveStruct D :=
  { latitude := r.latitude, longitude := r.longitude, altitude := r.altitude,
    pitch := r.pitch, bank := r.bank, heading := r.heading }

/-- Sample replay point at time `t`, floating-point fields left out. -/
def sample_point (t : Int) : ReplayPoint Unit :=
  { latitude := (), longitude := (), altitude := (), pitch := (), bank := (), heading := (),
    zulu_time := t, speed := () }

/-- Sample actor as loaded from a track of `n` fixes, with title `title`. -/
def sample_actor (title : List Char) (n : Int) : AIInfo Unit :=
  { logpoint_count := n, next_logpoint := 0, id := 0, created := false, removed := false,
    default_tried := false, title := title, atc_id := "XXXX".toList,
    gear_up_disable_timeout := 0, gear_up := false, slew_on := false, alt_offset := () }

/-- Sample state after a reset and the loading of `n` tracks: every track has
the fixes at times 100, 105, 110, ... -/
def sample_fresh (n : Nat) : AIState Unit :=
  { ai_info := fun _ => sample_actor "Glider".toList 10
    ai_count := n
    ai_created_or_failed := 0
    ai_retry_count := 0
    ai_failed := false
    replay := fun _ k => sample_point (100 + 5 * k)
    zulu_clock := 0
    calls := [] }

/-- Sample state of a replay under way: one created actor with object id 7 on
a track of `n` fixes at times 100, 105, 110, ..., its cursor at `cursor`, the
clock at `clock`. -/
def sample_replay (n : Int) (cursor : Nat) (clock : Rat) : AIState Unit :=
  { ai_info := fun _ =>
      { sample_actor "Glider".toList n with
        id := 7, created := true, next_logpoint := cursor, slew_on := true }
    ai_count := 1
    ai_created_or_failed := 1
    ai_retry_count := 0
    ai_failed := false
    replay := fun _ k => sample_point (100 + 5 * k)
    zulu_clock := clock
    calls := [] }

/-- Sample reported position, floating-point fields left out. -/
def sample_pos : AIStruct Unit :=
  { latitude := (), longitude := (), altitude := (), pitch := (), bank := (), heading := (),
    altitude_agl := (), sim_on_ground := 0 }

/-- Sample floating-point part of the prediction: the point `r[j]`. -/
def sample_predict (_t : Rat) (_a b : ReplayPoint Unit) (_pos : AIStruct Unit) (_off : Unit) :
    ReplayPoint Unit := b

/-- Sample slew rates: all zero. -/
def sample_rates (_pos : AIStruct Unit) (_pt : ReplayPoint Unit) : SlewRates :=
  { ahead_rate := 0, heading_rate := 0, alt_rate := 0, bank_rate := 0, pitch_rate := 0 }

/-- The invariant behind the bound on the retry passes, for a run that starts
with `p0` passes in the trace and `ai_retry_count` at zero: either
`ai_retry_count` is at most 2 and counts the passes made, or it is 3, two
passes have been made and `ai_created_or_failed` is not below `ai_count`. -/
def retry_bound {D : Type} (p0 : Nat) (s : AIState D) : Prop :=
  (0 ≤ s.ai_retry_count ∧ s.ai_retry_count ≤ 2 ∧
    (retry_passes s.calls : Int) = p0 + s.ai_retry_count) ∨
  (s.ai_retry_count = 3 ∧ retry_passes s.calls = p0 + 2 ∧
    (s.ai_count : Int) ≤ s.ai_created_or_failed)

/-- The state `s` of a run from `s0` in which `m` reports have arrived and no
retry has been made: `created` are the actors reported as created, `failed`
tells whether a failure has been reported; no actor is removed or tried with
the default aircraft, and the trace holds no create request. -/
def reported {D : Type} (s0 s : AIState D) (created : List Nat) (m : Int) (failed : Bool) :
    Prop :=
  s.ai_count = s0.ai_count ∧ s.ai_created_or_failed = m ∧ s.ai_failed = failed ∧
  s.ai_retry_count = 0 ∧ s.replay = s0.replay ∧ s.calls.filter is_create = [] ∧
  ∀ k, k < s0.ai_count →
    (s.ai_info k).created = decide (k ∈ created) ∧ (s.ai_info k).removed = false ∧
      (s.ai_info k).default_tried = false

/-! ### Samples for the verification of a track file and the header scan -/

/-- Sample track file with a valid 'G' record: one header line, one position
record at 12:03:15, the 'G' record. -/
def signed_track : List Char :=
  "HFPLTPILOTINCHARGE: xqWXiDgN\nB1203154702000N12215500WA0123401234027000\nGMP0B3K\n".toList

/-- Two position records, at 12:03:19 and 12:03:23, to append to a file. -/
def appended_records : List Char :=
  "B1203194702000N12215500WA0123401234027000\nB1203234702000N12215500WA0123401234027000\n".toList

/-- The key of the glider type, which `load_igc_file` stores as title. -/
def title_key : List Char := "HFGTYGLIDERTYPE:".toList

/-- The five keys whose value `load_igc_file` stores as ATC id, in the order in
which a line is tested against them. -/
def id_keys : List (List Char) :=
  ["HFCIDCOMPETITIONID:".toList, "HFGIDGLIDERID:".toList, "LCU::HPGIDGLIDERID:".toList,
    "LCU::HPCIDCOMPETITIONID:".toList, "HFCID Competition ID    :".toList]

/-- The test of `get_igc_record`: the record begins with the key, letters
compared without regard to case. -/
def key_matches (rec key : List Char) : Bool :=
  ((c_str rec).take key.length).map c_tolower == key.map c_tolower

/-- The first of the five identity keys that a line matches, if any. -/
def first_id_key (rec : List Char) : Option (List Char) :=
  id_keys.find? (key_matches rec)

/-- The line sets the ATC id in `load_igc_file`: it does not match the title
key and matches one of the identity keys. -/
def is_id_line (rec : List Char) : Bool :=
  !key_matches rec title_key && (first_id_key rec).isSome

/-- Sample track file with two identity lines under different keys. -/
def two_ids_track : List Char :=
  "HFGIDGLIDERID:G-ABCD\nHFCIDCOMPETITIONID:XY\nB1203154702000N12215500WA0123401234027000\n".toList

/-! ### Create requests of one actor -/

/-- The trace entry is a create request with the request id of actor `k`. -/
def is_create_for {D : Type} (k : Nat) : SimCall D → Bool
  | SimCall.AICreateSimulatedObject _ _ request => request == REQUEST_AI_CREATE + k
  | _ => false

/-- The create requests for actor `k` in a trace. -/
def creates_for {D : Type} (k : Nat) (calls : List (SimCall D)) : List (SimCall D) :=
  calls.filter (is_create_for k)

/-- What happens to the actors after the loading: a notification is
dispatched, or the position of actor `ai_index` arrives with the clock at
`clock` and `update_ai` runs. -/
inductive AIStep (D : Type) where
  | notify (e : Notification)
  | tick (ai_index : Nat) (pos : AIStruct D) (clock : Rat)

/-- One step of the actors. -/
def ai_step {D : Type} (ini_default_aircraft : List Char)
    (predict : Rat → ReplayPoint D → ReplayPoint D → AIStruct D → D → ReplayPoint D)
    (rates : AIStruct D → ReplayPoint D → SlewRates) (s : AIState D) : AIStep D → AIState D
  | AIStep.notify e => dispatch ini_default_aircraft s e
  | AIStep.tick ai_index pos clock =>
    update_ai predict rates ai_index pos { s with zulu_clock := clock }

/-- The state after a list of steps, in order. -/
def ai_steps {D : Type} (ini_default_aircraft : List Char)
    (predict : Rat → ReplayPoint D → ReplayPoint D → AIStruct D → D → ReplayPoint D)
    (rates : AIStruct D → ReplayPoint D → SlewRates) (s : AIState D) (steps : List (AIStep D)) :
    AIState D :=
  steps.foldl (ai_step ini_default_aircraft predict rates) s

/-- Sample state with two actors: actor 0 is created with object id 7 on a track
without a fix, actor 1 waits for the answer to its create request. -/
def sample_empty_track : AIState Unit :=
  { ai_info := fun k =>
      if k = 0 then { sample_actor "Glider".toList 0 with id := 7, created := true }
      else sample_actor "Glider".toList 10
    ai_count := 2
    ai_created_or_failed := 1
    ai_retry_count := 0
    ai_failed := false
    replay := fun _ k => sample_point (100 + 5 * k)
    zulu_clock := 0
    calls := [] }

/-! ### The smooth-follow tick -/

/-- The result of the second scanning loop of a tick of `update_ai` for actor
`ai_index`, from the index that the first loop found, with the clock 4 s
ahead: the index `j` reached and the flag `found`. -/
def predict_scan {D : Type} (s : AIState D) (ai_index : Nat) : Nat × Bool :=
  cursor_scan (s.replay ai_index) (s.ai_info ai_index).logpoint_count
    (s.zulu_clock + PREDICT_PERIOD) (s.ai_info ai_index).logpoint_count.toNat
    (tick_scan s ai_index).1

/-- The five rate commands of a smooth-follow tick for the object `id`, in the
order in which they are sent. -/
def rate_commands {D : Type} (id : Nat) (rt : SlewRates) : List (SimCall D) :=
  [SimCall.TransmitClientEvent id AI_EVENT.EVENT_AXIS_SLEW_AHEAD_SET rt.ahead_rate,
   SimCall.TransmitClientEvent id AI_EVENT.EVENT_AXIS_SLEW_HEADING_SET rt.heading_rate,
   SimCall.TransmitClientEvent id AI_EVENT.EVENT_AXIS_SLEW_ALT_SET rt.alt_rate,
   SimCall.TransmitClientEvent id AI_EVENT.EVENT_AXIS_SLEW_BANK_SET rt.bank_rate,
   SimCall.TransmitClientEvent id AI_EVENT.EVENT_AXIS_SLEW_PITCH_SET rt.pitch_rate]

/-- The data of the altitude rate commands in a trace. -/
def alt_rates {D : Type} : List (SimCall D) → List Nat
  | [] => []
  | SimCall.TransmitClientEvent _ AI_EVENT.EVENT_AXIS_SLEW_ALT_SET data :: calls =>
    data :: alt_rates calls
  | _ :: calls => alt_rates calls

/-- Sample replay point with the given position and time, attitude zero. -/
def sample_fix_at {K : Type} [LinearOrderedField K] (lat lon alt : K) (t : Int) :
    ReplayPoint K :=
  { latitude := lat, longitude := lon, altitude := alt, pitch := 0, bank := 0, heading := 0,
    zulu_time := t, speed := 0 }

/-- Sample state of a replay under way, on the field `K`: one created actor
with object id 7 and slew on, on a track of twelve fixes at times 100, 105,
..., 155, latitudes 0, 0.001, 0.002, ... degrees, longitude 0 and altitude
104 m; the cursor at fix 3 (time 115), the clock at 118. -/
def sample_follow (K : Type) [LinearOrderedField K] : AIState K :=
  { ai_info := fun _ =>
      { logpoint_count := 12, next_logpoint := 3, id := 7, created := true, removed := false,
        default_tried := false, title := "Glider".toList, atc_id := "XXXX".toList,
        gear_up_disable_timeout := 0, gear_up := false, slew_on := true, alt_offset := 0 }
    ai_count := 1
    ai_created_or_failed := 1
    ai_retry_count := 0
    ai_failed := false
    replay := fun _ k => sample_fix_at ((k : K) / 1000) 0 104 (100 + 5 * k)
    zulu_clock := 118
    calls := [] }

/-- Sample reported position on the field `K`: at the origin, altitude 108 m,
attitude zero, in the air. -/
def sample_pos_at (K : Type) [LinearOrderedField K] : AIStruct K :=
  { latitude := 0, longitude := 0, altitude := 108, pitch := 0, bank := 0, heading := 0,
    altitude_agl := 108, sim_on_ground := 0 }

/-! ### The attitude passes -/

/-- The pitch settings at their defaults: offset 0, minimum -0.3, maximum 0.1,
zero-pitch speed 30 m/s. -/
def sample_pitch (K : Type) [LinearOrderedField K] : PitchIni K :=
  { ini_pitch_offset := 0, ini_pitch_min := -(3 / 10), ini_pitch_max := 1 / 10,
    ini_pitch_v_zero := 30 }

/-- Sample track of three fixes 4 s apart, on the field `K`: the glider moves
east along the equator from longitude 0 to longitude 0.001 degrees, about
111 m, and then stands still: the last two fixes are at the same place. -/
def sample_stop (K : Type) [LinearOrderedField K] : Nat → ReplayPoint K :=
  fun k => sample_fix_at 0 (if k = 0 then 0 else 1 / 1000) 100 (100 + 4 * k)

/-! ## Lemmas: checksum codec -/

theorem incr_chksum_of_not_mem (st : ChksumData) (c : Char) (h : c ∉ chk_source) :
    incr_chksum st c = st := by
  have hpos : chk_source.indexOf c = CHK_CHARS := by
    have := (List.indexOf_eq_length (a := c) (l := chk_source)).2 h
    simpa [CHK_CHARS, chk_source] using this
  simp [incr_chksum, hpos]

theorem incr_chksum_of_mem (st : ChksumData) (c : Char) (h : c ∈ chk_source) :
    incr_chksum st c =
      { index := (st.index + 1) % CHKSUM_MAX_INDEX
        num := (List.range CHKSUM_CHARS).map fun i =>
          chk_map.getD ((st.num.getD i 0 +
            chk_map.getD ((chk_source.indexOf c + st.index) % CHK_CHARS) 0 + i) % CHK_CHARS) 0 } := by
  have hlt : chk_source.indexOf c < chk_source.length := List.indexOf_lt_length.2 h
  have hne : chk_source.indexOf c ≠ CHK_CHARS := by
    have hlen : chk_source.length = CHK_CHARS := by decide
    omega
  simp [incr_chksum, hne]

theorem chksum_string_nil (st : ChksumData) : chksum_string st [] = st := rfl

theorem chksum_string_cons (st : ChksumData) (c : Char) (s : List Char) :
    chksum_string st (c :: s) = chksum_string (incr_chksum st c) s := rfl

theorem chksum_string_append (st : ChksumData) (s t : List Char) :
    chksum_string st (s ++ t) = chksum_string (chksum_string st s) t := by
  simp [chksum_string, List.foldl_append]

theorem chksum_binary_length (st : ChksumData) (s : List Char) :
    chksum_binary st s s.length = chksum_string st s := by
  simp [chksum_binary, chksum_string]

theorem chksum_string_chunks (st : ChksumData) (chunks : List (List Char)) :
    chunks.foldl chksum_string st = chksum_string st chunks.flatten := by
  induction chunks generalizing st with
  | nil => rfl
  | cons c cs ih => simp [List.foldl_cons, List.flatten_cons, chksum_string_append, ih]

theorem chksum_binary_loop_eq (fuel : Nat) (st : ChksumData) (s : List Char)
    (h : s.length < fuel) : chksum_binary_loop fuel st s = chksum_string st s := by
  induction fuel generalizing st s with
  | zero => omega
  | succ fuel ih =>
    simp only [chksum_binary_loop, chksum_binary_length]
    by_cases hlt : (s.take MAXBUF).length < MAXBUF
    · rw [if_pos hlt]
      have : s.take MAXBUF = s := by
        apply List.take_of_length_le
        simp only [List.length_take] at hlt
        omega
      rw [this]
    · rw [if_neg hlt]
      have hlen : MAXBUF ≤ s.length := by
        simp only [List.length_take] at hlt
        omega
      have hM : 0 < MAXBUF := by decide
      rw [ih _ _ (by simp only [List.length_drop]; omega), ← chksum_string_append,
        List.take_append_drop]

theorem chk_map_lt : ∀ k, k < 63 → chk_map.getD k 0 < 63 := by decide

theorem chksumInv_reset : ChksumInv chksum_reset := by
  refine ⟨by decide, by decide, ?_⟩
  decide

theorem chksumInv_incr (st : ChksumData) (c : Char) (h : ChksumInv st) :
    ChksumInv (incr_chksum st c) := by
  by_cases hc : c ∈ chk_source
  · rw [incr_chksum_of_mem st c hc]
    refine ⟨Nat.mod_lt _ (by decide), by simp, ?_⟩
    intro n hn
    simp only [List.mem_map] at hn
    obtain ⟨i, _, rfl⟩ := hn
    exact chk_map_lt _ (Nat.mod_lt _ (by decide))
  · rw [incr_chksum_of_not_mem st c hc]; exact h

theorem chksumInv_string (st : ChksumData) (s : List Char) (h : ChksumInv st) :
    ChksumInv (chksum_string st s) := by
  induction s generalizing st with
  | nil => exact h
  | cons c s ih => exact ih (incr_chksum st c) (chksumInv_incr st c h)

theorem chksum_to_string_length (st : ChksumData) :
    (chksum_to_string st).length = CHKSUM_CHARS := by
  simp [chksum_to_string]

theorem chk_source_tag_char : ∀ k, k < 36 →
    (chk_source.getD k '0').isDigit = true ∨ (chk_source.getD k '0').isUpper = true := by
  decide

theorem chksum_to_string_chars (st : ChksumData) :
    ∀ c ∈ chksum_to_string st, c.isDigit = true ∨ c.isUpper = true := by
  intro c hc
  simp only [chksum_to_string, List.mem_map] at hc
  obtain ⟨i, _, rfl⟩ := hc
  exact chk_source_tag_char _ (Nat.mod_lt _ (by decide))

theorem char_range (c : Char) (lo hi : UInt32) (h : (c.val ≥ lo && c.val ≤ hi) = true) :
    lo.toNat ≤ c.toNat ∧ c.toNat ≤ hi.toNat := by
  simp only [Bool.and_eq_true, decide_eq_true_eq] at h
  obtain ⟨h1, h2⟩ := h
  rw [ge_iff_le, UInt32.le_def] at h1
  rw [UInt32.le_def] at h2
  rw [BitVec.le_def] at h1 h2
  exact ⟨h1, h2⟩

theorem chk_source_classes : ∀ c ∈ chk_source,
    c.isDigit = true ∨ c.isUpper = true ∨ c = '.' ∨ c.isLower = true := by decide

theorem ofNat_mem_chk_source : ∀ n, n < 123 →
    ((48 ≤ n ∧ n ≤ 57) ∨ (65 ≤ n ∧ n ≤ 90) ∨ (97 ≤ n ∧ n ≤ 122)) →
      Char.ofNat n ∈ chk_source := by
  decide

theorem mem_chk_source_iff (c : Char) :
    c ∈ chk_source ↔ (c.isDigit = true ∨ c.isUpper = true ∨ c = '.' ∨ c.isLower = true) := by
  constructor
  · exact chk_source_classes c
  · intro h
    have hc : Char.ofNat c.toNat = c := Char.ofNat_toNat c
    rcases h with h | h | h | h
    · have h2 : 48 ≤ c.toNat ∧ c.toNat ≤ 57 := char_range c 48 57 h
      rw [← hc]
      exact ofNat_mem_chk_source _ (by omega) (Or.inl h2)
    · have h2 : 65 ≤ c.toNat ∧ c.toNat ≤ 90 := char_range c 65 90 h
      rw [← hc]
      exact ofNat_mem_chk_source _ (by omega) (Or.inr (Or.inl h2))
    · subst h; decide
    · have h2 : 97 ≤ c.toNat ∧ c.toNat ≤ 122 := char_range c 97 122 h
      rw [← hc]
      exact ofNat_mem_chk_source _ (by omega) (Or.inr (Or.inr h2))

theorem chksum_string_filter (st : ChksumData) (s : List Char) :
    chksum_string st (s.filter fun c => chk_source.contains c) = chksum_string st s := by
  induction s generalizing st with
  | nil => rfl
  | cons c s ih =>
    by_cases hc : c ∈ chk_source
    · have : chk_source.contains c = true := by simpa using hc
      rw [List.filter_cons_of_pos this, chksum_string_cons, chksum_string_cons, ih]
    · have : ¬ (chk_source.contains c = true) := by simpa using hc
      rw [List.filter_cons_of_neg this, chksum_string_cons, incr_chksum_of_not_mem st c hc, ih]

theorem chksum_chksum_stream_aux (g : ChksumGlobals) :
    chksum_chksum g =
      chksum_to_string (chksum_string chksum_reset (general_checksum_stream g)) := by
  simp only [chksum_chksum, general_checksum_stream, chksum_string_append]
  split_ifs <;> rfl

/-! ## Claims C3, C4, C5, C7 -/

/-- C3: updating a checksum state with `s` and then with `t` (through
`chksum_string` or `chksum_binary`) gives the state and the tag of one update
with `s ++ t`; any split of a stream into chunks gives the tag of the whole
stream, and `chksum_binary_file`, which reads a file in `MAXBUF` chunks,
returns the tag of the whole file. -/
theorem chksum_chunking (st : ChksumData) (s t : List Char) (chunks : List (List Char))
    (file : List Char) :
    chksum_string (chksum_string st s) t = chksum_string st (s ++ t) ∧
    chksum_binary (chksum_binary st s s.length) t t.length =
      chksum_binary st (s ++ t) (s ++ t).length ∧
    chksum_to_string (chksum_string (chksum_string st s) t) =
      chksum_to_string (chksum_string st (s ++ t)) ∧
    chksum_to_string (chunks.foldl chksum_string st) =
      chksum_to_string (chksum_string st chunks.flatten) ∧
    chksum_binary_file (some file) =
      (CHKSUM_OK, chksum_to_string (chksum_string chksum_reset file)) := by
  refine ⟨(chksum_string_append st s t).symm, ?_, ?_, ?_, ?_⟩
  · rw [chksum_binary_length, chksum_binary_length, chksum_binary_length, chksum_string_append]
  · rw [chksum_string_append]
  · rw [chksum_string_chunks]
  · simp only [chksum_binary_file]
    rw [chksum_binary_loop_eq _ _ _ (Nat.lt_succ_self _)]

/-- C4: in every state reached from `chksum_reset` by a sequence of characters
the index is below 1987, there are six slots and each is below 63, so that the
lookups `chk_map[(..) % 63]` and `chk_source[num[i] % 36]` are in range; the
tag has exactly 6 characters, each a digit or an upper-case letter. -/
theorem chksum_state_in_range (s : List Char) :
    (chksum_string chksum_reset s).index < 1987 ∧
    (chksum_string chksum_reset s).num.length = 6 ∧
    (∀ n ∈ (chksum_string chksum_reset s).num, n < 63) ∧
    chk_map.length = 63 ∧ chk_source.length = 63 ∧
    (chksum_to_string (chksum_string chksum_reset s)).length = 6 ∧
    ∀ c ∈ chksum_to_string (chksum_string chksum_reset s),
      c.isDigit = true ∨ c.isUpper = true := by
  have h := chksumInv_string chksum_reset s chksumInv_reset
  exact ⟨h.1, h.2.1, h.2.2, by decide, by decide, chksum_to_string_length _,
    chksum_to_string_chars _⟩

/-- C5: the alphabet `chk_source` is the digits, 'A'-'Z', '.' and 'a'-'z'; a
character outside it leaves the whole state (index included) unchanged, and the
state and tag of a string are those of the string with every character outside
the alphabet deleted. -/
theorem chksum_ignores_non_alphabet :
    (∀ c : Char, c ∈ chk_source ↔
      (c.isDigit = true ∨ c.isUpper = true ∨ c = '.' ∨ c.isLower = true)) ∧
    (∀ (st : ChksumData) (c : Char), c ∉ chk_source → incr_chksum st c = st) ∧
    (∀ (st : ChksumData) (s : List Char),
      chksum_string st (s.filter fun c => chk_source.contains c) = chksum_string st s ∧
      chksum_to_string (chksum_string st (s.filter fun c => chk_source.contains c)) =
        chksum_to_string (chksum_string st s)) :=
  ⟨mem_chk_source_iff, incr_chksum_of_not_mem,
    fun st s => ⟨chksum_string_filter st s, by rw [chksum_string_filter]⟩⟩

/-- Witness for C5: a space and a line feed leave the reset state unchanged. -/
theorem chksum_ignores_non_alphabet_witness :
    incr_chksum chksum_reset ' ' = chksum_reset ∧
    incr_chksum chksum_reset '\n' = chksum_reset :=
  ⟨chksum_ignores_non_alphabet.2.1 chksum_reset ' ' (by decide),
    chksum_ignores_non_alphabet.2.1 chksum_reset '\n' (by decide)⟩

/-- C7: `chksum_chksum` returns the tag of the reset state updated with the
seven per-file tags in the order FLT, AIR, WX, CMX, CumulusX.exe, aircraft.cfg,
mission XML and then the three status tokens; two sets of globals with the same
seven tags and the same answers to `cx_code == 0`, `wx_code == 0` and
`therm_code == 0` get the same tag. -/
theorem chksum_chksum_stream (g : ChksumGlobals) :
    chksum_chksum g = chksum_to_string (chksum_string chksum_reset (general_checksum_stream g)) ∧
    ∀ g2 : ChksumGlobals,
      g2.chksum_flt = g.chksum_flt → g2.chksum_air = g.chksum_air →
      g2.chksum_wx = g.chksum_wx → g2.chksum_cmx = g.chksum_cmx →
      g2.chksum_cx = g.chksum_cx → g2.chksum_cfg = g.chksum_cfg →
      g2.chksum_xml = g.chksum_xml →
      (g2.cx_code = 0 ↔ g.cx_code = 0) → (g2.wx_code = 0 ↔ g.wx_code = 0) →
      (g2.therm_code = 0 ↔ g.therm_code = 0) →
      chksum_chksum g2 = chksum_chksum g := by
  have key := chksum_chksum_stream_aux
  refine ⟨key g, ?_⟩
  intro g2 h1 h2 h3 h4 h5 h6 h7 hcx hwx hth
  rw [key g2, key g]
  have : general_checksum_stream g2 = general_checksum_stream g := by
    simp only [general_checksum_stream, h1, h2, h3, h4, h5, h6, h7]
    by_cases a : g.cx_code = 0 <;> by_cases b : g.wx_code = 0 <;>
      by_cases c : g.therm_code = 0 <;>
      simp [a, b, c, hcx.2, hwx.2, hth.2, mt hcx.1, mt hwx.1, mt hth.1]
  rw [this]

/-- Witness for C7: the codes 1 and 2 (both non-zero) give the same tag. -/
theorem chksum_chksum_stream_witness :
    chksum_chksum (sample_chk 2 0 (-1)) = chksum_chksum (sample_chk 1 0 5) :=
  (chksum_chksum_stream (sample_chk 1 0 5)).2 (sample_chk 2 0 (-1))
    rfl rfl rfl rfl rfl rfl rfl (by decide) (by decide) (by decide)

/-! ## Lemmas: reading lines -/

theorem fgets_take_append (k : Nat) (s : List Char) :
    (fgets_take k s).1 ++ (fgets_take k s).2 = s := by
  induction k generalizing s with
  | zero => simp [fgets_take]
  | succ k ih =>
    cases s with
    | nil => simp [fgets_take]
    | cons c s =>
      by_cases hc : c = '\n'
      · simp [fgets_take, hc]
      · simp [fgets_take, hc, ih]

theorem fgets_take_ne_nil (k : Nat) (s : List Char) (hs : s ≠ []) :
    (fgets_take (k + 1) s).1 ≠ [] := by
  cases s with
  | nil => exact absurd rfl hs
  | cons c s =>
    by_cases hc : c = '\n'
    · simp [fgets_take, hc]
    · simp [fgets_take, hc]

theorem fgets_take_rest_length (k : Nat) (s : List Char) (hs : s ≠ []) :
    (fgets_take (k + 1) s).2.length < s.length := by
  have h1 := congrArg List.length (fgets_take_append (k + 1) s)
  have h2 := List.length_pos.2 (fgets_take_ne_nil k s hs)
  simp only [List.length_append] at h1
  omega

theorem fgets_take_line (k : Nat) (body rest : List Char) (hn : '\n' ∉ body)
    (hk : body.length < k) :
    fgets_take k (body ++ '\n' :: rest) = (body ++ ['\n'], rest) := by
  induction body generalizing k with
  | nil =>
    cases k with
    | zero => simp at hk
    | succ k => simp [fgets_take]
  | cons c body ih =>
    cases k with
    | zero => simp at hk
    | succ k =>
      have hc : c ≠ '\n' := fun h => hn (by simp [h])
      have hb : '\n' ∉ body := fun h => hn (by simp [h])
      have hk2 : body.length < k := by simpa using hk
      simp [fgets_take, hc, ih k hb hk2]

theorem read_lines_fuel_eq (f1 f2 : Nat) (s : List Char) (h1 : s.length ≤ f1)
    (h2 : s.length ≤ f2) : read_lines_fuel f1 s = read_lines_fuel f2 s := by
  induction f1 generalizing f2 s with
  | zero =>
    have hs : s = [] := List.length_eq_zero.1 (by omega)
    subst hs
    cases f2 <;> simp [read_lines_fuel]
  | succ f1 ih =>
    by_cases hs : s = []
    · subst hs
      cases f2 <;> simp [read_lines_fuel]
    · cases f2 with
      | zero =>
        exact absurd (List.length_eq_zero.1 (by omega)) hs
      | succ f2 =>
        have hlt := fgets_take_rest_length (MAXBUF - 2) s hs
        have hM : MAXBUF - 2 + 1 = MAXBUF - 1 := by decide
        rw [hM] at hlt
        simp only [read_lines_fuel, if_neg hs]
        rw [ih f2 _ (by omega) (by omega)]

theorem read_lines_nil : read_lines [] = [] := rfl

theorem read_lines_cons (s : List Char) (hs : s ≠ []) :
    read_lines s = (fgets_take (MAXBUF - 1) s).1 :: read_lines (fgets_take (MAXBUF - 1) s).2 := by
  have hlt := fgets_take_rest_length (MAXBUF - 2) s hs
  have hM : MAXBUF - 2 + 1 = MAXBUF - 1 := by decide
  rw [hM] at hlt
  have hpos : 0 < s.length := List.length_pos.2 hs
  unfold read_lines
  obtain ⟨n, hn⟩ : ∃ n, s.length = n + 1 := ⟨s.length - 1, by omega⟩
  rw [hn]
  simp only [read_lines_fuel, if_neg hs]
  rw [read_lines_fuel_eq n _ _ (by omega) (le_refl _)]

theorem is_line_spec (l : List Char) (h : is_line l = true) :
    ∃ body, l = body ++ ['\n'] ∧ '\n' ∉ body ∧ body.length + 1 < MAXBUF := by
  simp only [is_line, Bool.and_eq_true, decide_eq_true_eq, Bool.not_eq_true',
    beq_iff_eq] at h
  obtain ⟨⟨h1, h2⟩, h3⟩ := h
  have hne : l ≠ [] := by
    intro h0
    subst h0
    simp at h2
  have hlast : l.getLast hne = '\n' := by
    rw [List.getLast?_eq_getLast _ hne] at h2
    exact Option.some.inj h2
  refine ⟨l.dropLast, ?_, ?_, ?_⟩
  · rw [← hlast, List.dropLast_append_getLast]
  · intro hmem
    have : l.dropLast.contains '\n' = true := by simpa using hmem
    rw [this] at h3
    exact Bool.noConfusion h3
  · have : l.dropLast.length + 1 = l.length := by
      rw [List.length_dropLast]
      have := List.length_pos.2 hne
      omega
    omega

theorem read_lines_line (body rest : List Char) (hn : '\n' ∉ body)
    (hk : body.length + 1 < MAXBUF) :
    read_lines (body ++ '\n' :: rest) = (body ++ ['\n']) :: read_lines rest := by
  rw [read_lines_cons _ (by simp), fgets_take_line _ body rest hn (by
    have : MAXBUF = 1000 := rfl
    omega)]

theorem read_lines_lines (ls : List (List Char)) (rest : List Char)
    (h : ∀ l ∈ ls, is_line l = true) :
    read_lines (ls.flatten ++ rest) = ls ++ read_lines rest := by
  induction ls with
  | nil => simp
  | cons l ls ih =>
    obtain ⟨body, hl, hn, hk⟩ := is_line_spec l (h l (by simp))
    have ih2 := ih (fun x hx => h x (by simp [hx]))
    rw [List.flatten_cons, List.append_assoc, hl, List.append_assoc, List.singleton_append,
      read_lines_line body _ hn hk, ih2]
    simp

/-! ## Lemmas: the scan of `chksum_igc_file` -/

theorem getLastD_cons {α : Type} (l : α) (ls : List α) (buf : α) :
    (l :: ls).getLastD buf = ls.getLastD l := by
  cases ls <;> rfl

theorem igc_scan_before (st : ChksumData) (buf : List Char) (before rest : List (List Char))
    (h : ∀ l ∈ before, l.head? ≠ some 'G') :
    igc_scan st buf (before ++ rest) =
      igc_scan (chksum_string st (before.map c_str).flatten) (before.getLastD buf) rest := by
  induction before generalizing st buf with
  | nil => simp [chksum_string_nil]
  | cons l ls ih =>
    have hl : l.head? ≠ some 'G' := h l (by simp)
    rw [List.cons_append]
    show (if l.head? = some 'G' then (st, l)
      else igc_scan (chksum_string st (c_str l)) l (ls ++ rest)) = _
    rw [if_neg hl, ih _ _ (fun x hx => h x (by simp [hx])), List.map_cons, List.flatten_cons,
      chksum_string_append, getLastD_cons]

theorem igc_scan_G (st : ChksumData) (buf g : List Char) (rest : List (List Char))
    (h : g.head? = some 'G') : igc_scan st buf (g :: rest) = (st, g) := by
  simp [igc_scan, h]

theorem igc_scan_none (st : ChksumData) (buf : List Char) (ls : List (List Char))
    (h : ∀ l ∈ ls, l.head? ≠ some 'G') :
    igc_scan st buf ls = (chksum_string st (ls.map c_str).flatten, ls.getLastD buf) := by
  have := igc_scan_before st buf ls [] h
  simpa [igc_scan] using this

/-! ## Claim C6 -/

theorem exists_first {α : Type} (P : α → Prop) (L : List α) (h : ∃ x ∈ L, P x) :
    ∃ before g after, L = before ++ g :: after ∧ (∀ x ∈ before, ¬ P x) ∧ P g := by
  induction L with
  | nil => simp at h
  | cons a L ih =>
    by_cases ha : P a
    · exact ⟨[], a, L, rfl, by simp, ha⟩
    · have h2 : ∃ x ∈ L, P x := by
        obtain ⟨x, hx, hp⟩ := h
        rcases List.mem_cons.1 hx with rfl | hx
        · exact absurd hp ha
        · exact ⟨x, hx, hp⟩
      obtain ⟨before, g, after, hL, hb, hg⟩ := ih h2
      refine ⟨a :: before, g, after, by simp [hL], ?_, hg⟩
      intro x hx
      rcases List.mem_cons.1 hx with rfl | hx
      · exact ha
      · exact hb x hx

theorem c_str_length_le (g : List Char) : (c_str g).length ≤ g.length := by
  unfold c_str
  exact (List.takeWhile_sublist _).length_le

theorem tag_compare (tag g : List Char) (ht : tag.length = 6) (hg : 7 ≤ g.length) :
    ((List.range CHKSUM_CHARS).any
      (fun i => tag.getD i '0' != g.getD (i + 1) '0') = false) ↔
      (g.drop 1).take 6 = tag := by
  rcases tag with _ | ⟨t0, _ | ⟨t1, _ | ⟨t2, _ | ⟨t3, _ | ⟨t4, _ | ⟨t5, _ | ⟨t6, tt⟩⟩⟩⟩⟩⟩⟩ <;>
    simp at ht
  rcases g with _ | ⟨g0, _ | ⟨g1, _ | ⟨g2, _ | ⟨g3, _ | ⟨g4, _ | ⟨g5, _ | ⟨g6, gt⟩⟩⟩⟩⟩⟩⟩ <;>
    simp at hg
  have hr : List.range CHKSUM_CHARS = [0, 1, 2, 3, 4, 5] := by decide
  rw [hr]
  simp only [List.any_cons, List.any_nil, List.getD_cons_zero, List.getD_cons_succ,
    Bool.or_false, Bool.or_eq_false_iff, bne_eq_false_iff_eq, List.drop_succ_cons, List.drop_zero,
    List.take_succ_cons, List.take_zero, List.cons.injEq, and_true]
  constructor
  · rintro ⟨h0, h1, h2, h3, h4, h5⟩
    exact ⟨h0.symm, h1.symm, h2.symm, h3.symm, h4.symm, h5.symm⟩
  · rintro ⟨h0, h1, h2, h3, h4, h5⟩
    exact ⟨h0.symm, h1.symm, h2.symm, h3.symm, h4.symm, h5.symm⟩

/-- The result of `chksum_igc_file` once the scan has ended on a 'G' line. -/
theorem chksum_igc_file_at_G (s : List Char) (st : ChksumData) (g : List Char)
    (hscan : igc_scan chksum_reset [] (read_lines s) = (st, g)) (hg : g.head? = some 'G') :
    chksum_igc_file (some s) =
      if (c_str g).length < 7 then CHKSUM_TOO_SHORT
      else if (g.drop 1).take 6 = chksum_to_string st then CHKSUM_OK
      else CHKSUM_BAD := by
  simp only [chksum_igc_file, hscan, hg, ne_eq, not_true_eq_false, if_false]
  have h7 : CHKSUM_CHARS + 1 = 7 := rfl
  rw [h7]
  by_cases hlen : (c_str g).length < 7
  · simp [hlen]
  · have hg7 : 7 ≤ g.length := by
      have := c_str_length_le g
      omega
    have hcmp := tag_compare (chksum_to_string st) g (chksum_to_string_length st) hg7
    rw [if_neg hlen, if_neg hlen]
    by_cases heq : (g.drop 1).take 6 = chksum_to_string st
    · rw [if_pos heq, if_neg]
      rw [hcmp.2 heq]
      exact Bool.false_ne_true
    · rw [if_neg heq, if_pos]
      by_contra hne
      exact heq (hcmp.1 (by simpa using hne))

/-- C6 (amended): with the file read as `fgets` does, in lines of at most
`MAXBUF - 1` characters that keep their line feed, each taken up to its first
NUL: `chksum_igc_file` returns `CHKSUM_NOT_FOUND` exactly when no line begins
with 'G'; otherwise, for the first line `g` that does, `CHKSUM_TOO_SHORT`
exactly when `g` (line feed included) has fewer than 7 characters,
`CHKSUM_OK` exactly when it has at least 7 and the six after the marker equal
the tag of the lines before it, and `CHKSUM_BAD` exactly when it has at least 7
and they differ. -/
theorem chksum_igc_file_classifies (s : List Char) (_hs : s ≠ []) :
    (chksum_igc_file (some s) = CHKSUM_NOT_FOUND ↔
      ∀ l ∈ read_lines s, l.head? ≠ some 'G') ∧
    ∀ (before : List (List Char)) (g : List Char) (after : List (List Char)),
      read_lines s = before ++ g :: after → (∀ l ∈ before, l.head? ≠ some 'G') →
      g.head? = some 'G' →
      (chksum_igc_file (some s) = CHKSUM_TOO_SHORT ↔ (c_str g).length < 7) ∧
      (chksum_igc_file (some s) = CHKSUM_OK ↔
        7 ≤ (c_str g).length ∧ (g.drop 1).take 6 =
          chksum_to_string (chksum_string chksum_reset (before.map c_str).flatten)) ∧
      (chksum_igc_file (some s) = CHKSUM_BAD ↔
        7 ≤ (c_str g).length ∧ (g.drop 1).take 6 ≠
          chksum_to_string (chksum_string chksum_reset (before.map c_str).flatten)) := by
  have hsplit : ∀ (before : List (List Char)) (g : List Char) (after : List (List Char)),
      read_lines s = before ++ g :: after → (∀ l ∈ before, l.head? ≠ some 'G') →
      g.head? = some 'G' →
      chksum_igc_file (some s) =
        if (c_str g).length < 7 then CHKSUM_TOO_SHORT
        else if (g.drop 1).take 6 =
            chksum_to_string (chksum_string chksum_reset (before.map c_str).flatten)
          then CHKSUM_OK
        else CHKSUM_BAD := by
    intro before g after hL hb hg
    apply chksum_igc_file_at_G s _ g _ hg
    rw [hL, igc_scan_before _ _ _ _ hb, igc_scan_G _ _ _ _ hg]
  constructor
  · constructor
    · intro hres l hl hG
      obtain ⟨before, g, after, hL, hb, hg⟩ :=
        exists_first (fun l => l.head? = some 'G') (read_lines s) ⟨l, hl, hG⟩
      rw [hsplit before g after hL hb hg] at hres
      split_ifs at hres
    · intro hnone
      have hscan := igc_scan_none chksum_reset [] (read_lines s) hnone
      have hbuf : ((read_lines s).getLastD []).head? ≠ some 'G' := by
        cases hL : read_lines s with
        | nil => simp
        | cons a L =>
          have hmem : (a :: L).getLastD [] ∈ read_lines s := by
            rw [hL]
            show (a :: L).getLast (by simp) ∈ a :: L
            exact List.getLast_mem _
          exact hnone _ hmem
      simp only [chksum_igc_file, hscan]
      rw [if_pos hbuf]
  · intro before g after hL hb hg
    rw [hsplit before g after hL hb hg]
    by_cases hlen : (c_str g).length < 7
    · have h7 : ¬ 7 ≤ (c_str g).length := by omega
      rw [if_pos hlen]
      exact ⟨⟨fun _ => hlen, fun _ => rfl⟩,
        ⟨(fun h => by cases h), fun h => absurd h.1 h7⟩,
        ⟨(fun h => by cases h), fun h => absurd h.1 h7⟩⟩
    · have h7 : 7 ≤ (c_str g).length := by omega
      rw [if_neg hlen]
      by_cases heq : (g.drop 1).take 6 =
          chksum_to_string (chksum_string chksum_reset (before.map c_str).flatten)
      · rw [if_pos heq]
        exact ⟨⟨(fun h => by cases h), fun h => absurd h hlen⟩,
          ⟨fun _ => ⟨h7, heq⟩, fun _ => rfl⟩,
          ⟨(fun h => by cases h), fun h => absurd heq h.2⟩⟩
      · rw [if_neg heq]
        exact ⟨⟨(fun h => by cases h), fun h => absurd h hlen⟩,
          ⟨(fun h => by cases h), fun h => absurd h.2 heq⟩,
          ⟨fun _ => ⟨h7, heq⟩, fun _ => rfl⟩⟩

/-- Witness for C6 (amended): a file whose 'G' line carries five characters and
a line feed is classified `CHKSUM_BAD`, not `CHKSUM_TOO_SHORT`. -/
theorem chksum_igc_file_classifies_witness :
    (chksum_igc_file (some "A\nG12345\n".toList) = CHKSUM_TOO_SHORT ↔
      (c_str "G12345\n".toList).length < 7) ∧
    (chksum_igc_file (some "A\nG12345\n".toList) = CHKSUM_OK ↔
      7 ≤ (c_str "G12345\n".toList).length ∧ ("G12345\n".toList.drop 1).take 6 =
        chksum_to_string (chksum_string chksum_reset
          (["A\n".toList].map c_str).flatten)) ∧
    (chksum_igc_file (some "A\nG12345\n".toList) = CHKSUM_BAD ↔
      7 ≤ (c_str "G12345\n".toList).length ∧ ("G12345\n".toList.drop 1).take 6 ≠
        chksum_to_string (chksum_string chksum_reset
          (["A\n".toList].map c_str).flatten)) :=
  (chksum_igc_file_classifies "A\nG12345\n".toList (by decide)).2
    ["A\n".toList] "G12345\n".toList [] (by decide) (by decide) (by decide)

/-- Counterexample to C6 as stated: in the file `A`, `G12345` only five
characters follow the marker on the 'G' line, so the described classification
is `CHKSUM_TOO_SHORT`, but `chksum_igc_file` counts the line feed and returns
`CHKSUM_BAD`; and in a file whose single text line is 999 spaces followed by
`G` no text line begins with 'G', so the described classification is
`CHKSUM_NOT_FOUND`, but `fgets` splits the line after 999 characters and
`chksum_igc_file` returns `CHKSUM_TOO_SHORT`. -/
theorem chksum_igc_file_not_as_described :
    igc_classify_described "A\nG12345\n".toList = CHKSUM_TOO_SHORT ∧
    chksum_igc_file (some "A\nG12345\n".toList) = CHKSUM_BAD ∧
    igc_classify_described (List.replicate 999 ' ' ++ "G\n".toList) = CHKSUM_NOT_FOUND ∧
    chksum_igc_file (some (List.replicate 999 ' ' ++ "G\n".toList)) = CHKSUM_TOO_SHORT := by
  refine ⟨by decide!, by decide!, by decide!, by decide!⟩

/-! ## Lemmas: plain text and the writer -/

theorem fgets_take_cons (k : Nat) (c : Char) (s : List Char) (hc : c ≠ '\n') :
    fgets_take (k + 1) (c :: s) = (c :: (fgets_take k s).1, (fgets_take k s).2) := by
  simp [fgets_take, hc]

theorem fgets_take_mid (k : Nat) (u post : List Char) (ch : Char) (hn : '\n' ∉ u)
    (hc : ch ≠ '\n') (hk : u.length < k) :
    fgets_take k (u ++ ch :: post) =
      (u ++ ch :: (fgets_take (k - u.length - 1) post).1,
        (fgets_take (k - u.length - 1) post).2) := by
  induction u generalizing k with
  | nil =>
    cases k with
    | zero => simp at hk
    | succ k => simp [fgets_take, hc]
  | cons c u ih =>
    cases k with
    | zero => simp at hk
    | succ k =>
      have hc2 : c ≠ '\n' := fun h => hn (by simp [h])
      have hu : '\n' ∉ u := fun h => hn (by simp [h])
      have hk2 : u.length < k := by simpa using hk
      have e : k + 1 - (c :: u).length - 1 = k - u.length - 1 := by
        simp only [List.length_cons]
        omega
      rw [List.cons_append, fgets_take_cons _ _ _ hc2, ih k hu hk2, e]
      rfl

theorem igc_scan_text (L : List (List Char)) (buf : List Char) :
    ∃ (T B : List Char), ∀ st, igc_scan st buf L = (chksum_string st T, B) := by
  induction L generalizing buf with
  | nil => exact ⟨[], buf, fun st => rfl⟩
  | cons l ls ih =>
    by_cases hl : l.head? = some 'G'
    · exact ⟨[], l, fun st => by simp [igc_scan, hl, chksum_string_nil]⟩
    · obtain ⟨T, B, h⟩ := ih l
      refine ⟨c_str l ++ T, B, fun st => ?_⟩
      simp only [igc_scan, if_neg hl, h, chksum_string_append]

theorem getD_map_range (f : Nat → Nat) (n i : Nat) (h : i < n) :
    ((List.range n).map f).getD i 0 = f i := by
  rw [List.getD_eq_getElem?_getD, List.getElem?_map, List.getElem?_range h]
  rfl

theorem chk_map_injective : ∀ j, j < 63 → ∀ k, k < 63 →
    chk_map.getD j 0 = chk_map.getD k 0 → j = k := by
  decide!

/-- Two checksum states at the same index whose six slots are in range and
pairwise different. -/
theorem slots_differ_incr (x y : ChksumData) (c : Char) (hidx : x.index = y.index)
    (h : ∀ i, i < 6 → x.num.getD i 0 ≠ y.num.getD i 0 ∧ x.num.getD i 0 < 63 ∧
      y.num.getD i 0 < 63) :
    (incr_chksum x c).index = (incr_chksum y c).index ∧
    ∀ i, i < 6 → (incr_chksum x c).num.getD i 0 ≠ (incr_chksum y c).num.getD i 0 ∧
      (incr_chksum x c).num.getD i 0 < 63 ∧ (incr_chksum y c).num.getD i 0 < 63 := by
  by_cases hc : c ∈ chk_source
  · rw [incr_chksum_of_mem x c hc, incr_chksum_of_mem y c hc]
    refine ⟨by simp only [hidx], ?_⟩
    intro i hi
    have h6 : CHKSUM_CHARS = 6 := rfl
    have h63 : CHK_CHARS = 63 := rfl
    simp only [h6, h63, getD_map_range _ 6 i hi, hidx]
    obtain ⟨hne, hx, hy⟩ := h i hi
    refine ⟨?_, chk_map_lt _ (Nat.mod_lt _ (by decide)), chk_map_lt _ (Nat.mod_lt _ (by decide))⟩
    intro heq
    have := chk_map_injective _ (Nat.mod_lt _ (by decide)) _ (Nat.mod_lt _ (by decide)) heq
    omega
  · rw [incr_chksum_of_not_mem x c hc, incr_chksum_of_not_mem y c hc]
    exact ⟨hidx, h⟩

theorem slots_differ_string (s : List Char) (x y : ChksumData) (hidx : x.index = y.index)
    (h : ∀ i, i < 6 → x.num.getD i 0 ≠ y.num.getD i 0 ∧ x.num.getD i 0 < 63 ∧
      y.num.getD i 0 < 63) :
    ∀ i, i < 6 → (chksum_string x s).num.getD i 0 ≠ (chksum_string y s).num.getD i 0 := by
  induction s generalizing x y with
  | nil => exact fun i hi => (h i hi).1
  | cons c s ih =>
    have := slots_differ_incr x y c hidx h
    exact ih _ _ this.1 this.2

theorem indexOf_injective (a b : Char) (ha : a ∈ chk_source)
    (h : chk_source.indexOf a = chk_source.indexOf b) : a = b := by
  have hlt : chk_source.indexOf a < chk_source.length := List.indexOf_lt_length.2 ha
  have hlt2 : chk_source.indexOf b < chk_source.length := by rw [← h]; exact hlt
  have e1 := List.indexOf_get hlt
  have e2 := List.indexOf_get hlt2
  rw [← e1, ← e2]
  congr 1
  exact Fin.ext h

theorem slots_differ_first (x : ChksumData) (a b : Char) (ha : a ∈ chk_source)
    (hb : b ∈ chk_source) (hab : a ≠ b) :
    (incr_chksum x a).index = (incr_chksum x b).index ∧
    ∀ i, i < 6 → (incr_chksum x a).num.getD i 0 ≠ (incr_chksum x b).num.getD i 0 ∧
      (incr_chksum x a).num.getD i 0 < 63 ∧ (incr_chksum x b).num.getD i 0 < 63 := by
  rw [incr_chksum_of_mem x a ha, incr_chksum_of_mem x b hb]
  refine ⟨rfl, ?_⟩
  intro i hi
  have h6 : CHKSUM_CHARS = 6 := rfl
  have h63 : CHK_CHARS = 63 := rfl
  simp only [h6, h63, getD_map_range _ 6 i hi]
  have hpa : chk_source.indexOf a < 63 := List.indexOf_lt_length.2 ha
  have hpb : chk_source.indexOf b < 63 := List.indexOf_lt_length.2 hb
  have hpne : chk_source.indexOf a ≠ chk_source.indexOf b :=
    fun e => hab (indexOf_injective a b ha e)
  have hma := chk_map_lt ((chk_source.indexOf a + x.index) % 63) (Nat.mod_lt _ (by decide))
  have hmb := chk_map_lt ((chk_source.indexOf b + x.index) % 63) (Nat.mod_lt _ (by decide))
  have hmne : chk_map.getD ((chk_source.indexOf a + x.index) % 63) 0 ≠
      chk_map.getD ((chk_source.indexOf b + x.index) % 63) 0 := by
    intro heq
    have := chk_map_injective _ (Nat.mod_lt _ (by decide)) _ (Nat.mod_lt _ (by decide)) heq
    omega
  refine ⟨?_, chk_map_lt _ (Nat.mod_lt _ (by decide)), chk_map_lt _ (Nat.mod_lt _ (by decide))⟩
  intro heq
  have := chk_map_injective _ (Nat.mod_lt _ (by decide)) _ (Nat.mod_lt _ (by decide)) heq
  omega

theorem c_str_append_cons (u w : List Char) (ch : Char) (hu : ∀ x ∈ u, x ≠ '\x00')
    (hc : ch ≠ '\x00') : c_str (u ++ ch :: w) = u ++ ch :: c_str w := by
  induction u with
  | nil => simp [c_str, List.takeWhile_cons, hc]
  | cons x u ih =>
    have hx : x ≠ '\x00' := hu x (by simp)
    have ih2 := ih (fun y hy => hu y (by simp [hy]))
    simp only [c_str] at ih2 ⊢
    simp [List.takeWhile_cons, hx, ih2]

theorem mem_chk_source_ne (c : Char) (h : c ∈ chk_source) : c ≠ '\n' ∧ c ≠ '\x00' := by
  constructor <;> (rintro rfl; revert h; decide)

/-- The scan of the two files of a single-character change. -/
theorem igc_scan_change (before : List (List Char)) (u post : List Char) (c : Char)
    (hbefore : ∀ l ∈ before, is_line l = true ∧ l.head? ≠ some 'G')
    (hu1 : u ≠ []) (hu2 : u.head? ≠ some 'G')
    (hu3 : ∀ x ∈ u, x ≠ '\n' ∧ x ≠ '\x00') (hu4 : u.length + 1 < MAXBUF)
    (hc : c ∈ chk_source) :
    igc_scan chksum_reset [] (read_lines (before.flatten ++ (u ++ c :: post))) =
      igc_scan
        (chksum_string (incr_chksum (chksum_string
          (chksum_string chksum_reset (before.map c_str).flatten) u) c)
          (c_str (fgets_take (MAXBUF - 1 - u.length - 1) post).1))
        (u ++ c :: (fgets_take (MAXBUF - 1 - u.length - 1) post).1)
        (read_lines (fgets_take (MAXBUF - 1 - u.length - 1) post).2) := by
  have hcn := mem_chk_source_ne c hc
  have hM : MAXBUF = 1000 := rfl
  rw [read_lines_lines before _ (fun l hl => (hbefore l hl).1),
    read_lines_cons (u ++ c :: post) (by simp),
    fgets_take_mid _ u post c (fun h => (hu3 _ h).1 rfl) hcn.1 (by omega),
    igc_scan_before _ _ _ _ (fun l hl => (hbefore l hl).2)]
  have hhead : (u ++ c :: (fgets_take (MAXBUF - 1 - u.length - 1) post).1).head? ≠ some 'G' := by
    cases u with
    | nil => exact absurd rfl hu1
    | cons x u => simpa using hu2
  simp only [igc_scan, if_neg hhead]
  rw [c_str_append_cons u _ c (fun x hx => (hu3 x hx).2) hcn.2, chksum_string_append,
    chksum_string_cons]


/-- C2 (amended): in a file on which `chksum_igc_file` returns `CHKSUM_OK`, let
an alphabet character `a` be replaced by a different alphabet character `b`,
where `a` is not the first character of its line, stands among the first
`MAXBUF - 1` characters of the line after no NUL, and the lines before it are
complete lines that do not begin with 'G'. Then each of the six slots of the
checksum state that `chksum_igc_file` computes changes, and the result on the
changed file is `CHKSUM_BAD` exactly when the two states give different tags
and `CHKSUM_OK` exactly when they give the same tag. -/
theorem chksum_igc_file_single_change (before : List (List Char)) (u post : List Char)
    (a b : Char) (hbefore : ∀ l ∈ before, is_line l = true ∧ l.head? ≠ some 'G')
    (hu1 : u ≠ []) (hu2 : u.head? ≠ some 'G')
    (hu3 : ∀ x ∈ u, x ≠ '\n' ∧ x ≠ '\x00') (hu4 : u.length + 1 < MAXBUF)
    (ha : a ∈ chk_source) (hb : b ∈ chk_source) (hab : a ≠ b)
    (hok : chksum_igc_file (some (before.flatten ++ (u ++ a :: post))) = CHKSUM_OK) :
    (∀ i, i < 6 →
      (igc_state (before.flatten ++ (u ++ b :: post))).num.getD i 0 ≠
        (igc_state (before.flatten ++ (u ++ a :: post))).num.getD i 0) ∧
    (chksum_igc_file (some (before.flatten ++ (u ++ b :: post))) = CHKSUM_BAD ↔
      chksum_to_string (igc_state (before.flatten ++ (u ++ b :: post))) ≠
        chksum_to_string (igc_state (before.flatten ++ (u ++ a :: post)))) ∧
    (chksum_igc_file (some (before.flatten ++ (u ++ b :: post))) = CHKSUM_OK ↔
      chksum_to_string (igc_state (before.flatten ++ (u ++ b :: post))) =
        chksum_to_string (igc_state (before.flatten ++ (u ++ a :: post)))) := by
  have hsa := igc_scan_change before u post a hbefore hu1 hu2 hu3 hu4 ha
  have hsb := igc_scan_change before u post b hbefore hu1 hu2 hu3 hu4 hb
  generalize chksum_string (chksum_string chksum_reset (before.map c_str).flatten) u = X
    at hsa hsb
  generalize (fgets_take (MAXBUF - 1 - u.length - 1) post).1 = w at hsa hsb
  generalize read_lines (fgets_take (MAXBUF - 1 - u.length - 1) post).2 = L at hsa hsb
  have hheadA : (u ++ a :: w).head? ≠ some 'G' := by
    cases u with
    | nil => exact absurd rfl hu1
    | cons x u => simpa using hu2
  by_cases hG : ∃ l ∈ L, l.head? = some 'G'
  · obtain ⟨bef, g, aft, hL, hbef, hg⟩ := exists_first (fun l => l.head? = some 'G') L hG
    rw [hL, igc_scan_before _ _ _ _ hbef, igc_scan_G _ _ g _ hg, ← chksum_string_append]
      at hsa hsb
    have hstA : igc_state (before.flatten ++ (u ++ a :: post)) =
        chksum_string (incr_chksum X a) (c_str w ++ (bef.map c_str).flatten) := by
      simp only [igc_state, hsa]
    have hstB : igc_state (before.flatten ++ (u ++ b :: post)) =
        chksum_string (incr_chksum X b) (c_str w ++ (bef.map c_str).flatten) := by
      simp only [igc_state, hsb]
    have hresA := chksum_igc_file_at_G _ _ _ hsa hg
    have hresB := chksum_igc_file_at_G _ _ _ hsb hg
    rw [← hstA] at hresA
    rw [← hstB] at hresB
    have hfirst := slots_differ_first X b a hb ha (fun e => hab e.symm)
    have hdiff := slots_differ_string (c_str w ++ (bef.map c_str).flatten) _ _
      hfirst.1 hfirst.2
    rw [← hstA, ← hstB] at hdiff
    refine ⟨hdiff, ?_⟩
    rw [hok] at hresA
    by_cases hlen : (c_str g).length < 7
    · rw [if_pos hlen] at hresA
      cases hresA
    · rw [if_neg hlen] at hresA hresB
      by_cases heqA : (g.drop 1).take 6 =
          chksum_to_string (igc_state (before.flatten ++ (u ++ a :: post)))
      · rw [hresB, ← heqA]
        by_cases heqB : (g.drop 1).take 6 =
            chksum_to_string (igc_state (before.flatten ++ (u ++ b :: post)))
        · rw [if_pos heqB]
          exact ⟨⟨(fun h => by cases h), fun h => absurd heqB.symm h⟩,
            ⟨fun _ => heqB.symm, fun _ => rfl⟩⟩
        · rw [if_neg heqB]
          exact ⟨⟨fun _ => fun e => heqB e.symm, fun _ => rfl⟩,
            ⟨(fun h => by cases h), fun h => absurd h.symm heqB⟩⟩
      · rw [if_neg heqA] at hresA
        cases hresA
  · have hnone : ∀ l ∈ L, l.head? ≠ some 'G' := fun l hl e => hG ⟨l, hl, e⟩
    rw [igc_scan_none _ _ _ hnone] at hsa
    have hbuf : (L.getLastD (u ++ a :: w)).head? ≠ some 'G' := by
      cases hL : L with
      | nil => exact hheadA
      | cons x L2 =>
        have hmem : (x :: L2).getLastD (u ++ a :: w) ∈ L := by
          rw [hL]
          show (x :: L2).getLast (by simp) ∈ x :: L2
          exact List.getLast_mem _
        exact hnone _ hmem
    have : chksum_igc_file (some (before.flatten ++ (u ++ a :: post))) = CHKSUM_NOT_FOUND := by
      simp only [chksum_igc_file, hsa]
      rw [if_pos hbuf]
    rw [hok] at this
    cases this

/-- Witness for C2 (amended): in the sample file the digit `0` of the latitude
minutes `02.000` is replaced by `1`; all six slots change, and here the two
states give the same tag. -/
theorem chksum_igc_file_single_change_witness :
    chksum_igc_file (some (collision_before.flatten ++
      (collision_u ++ '0' :: collision_post))) = CHKSUM_OK ∧
    (∀ i, i < 6 →
      (igc_state (collision_before.flatten ++ (collision_u ++ '1' :: collision_post))).num.getD
          i 0 ≠
        (igc_state (collision_before.flatten ++ (collision_u ++ '0' :: collision_post))).num.getD
          i 0) ∧
    (chksum_igc_file (some (collision_before.flatten ++
        (collision_u ++ '1' :: collision_post))) = CHKSUM_OK ↔
      chksum_to_string (igc_state (collision_before.flatten ++
          (collision_u ++ '1' :: collision_post))) =
        chksum_to_string (igc_state (collision_before.flatten ++
          (collision_u ++ '0' :: collision_post)))) :=
  ⟨by decide!,
    (chksum_igc_file_single_change collision_before collision_u collision_post '0' '1'
      (by decide!) (by decide!) (by decide!) (by decide!) (by decide!) (by decide!) (by decide!)
      (by decide!) (by decide!)).1,
    (chksum_igc_file_single_change collision_before collision_u collision_post '0' '1'
      (by decide!) (by decide!) (by decide!) (by decide!) (by decide!) (by decide!) (by decide!)
      (by decide!) (by decide!)).2.2⟩

/-! ## Claim C2: counterexample -/

/-- Counterexample to C2 as stated: two files on which `chksum_igc_file`
returns `CHKSUM_OK`, each with one character of a 'B' line replaced and the
result still `CHKSUM_OK`. In the first the latitude `4702.000N` becomes
`4702.010N` (a digit for a digit: the six slots change, each by 36, and the tag
is the same); in the second the sign `-` of the altitude becomes a space (both
outside the alphabet, so the state does not change). -/
theorem chksum_igc_file_change_undetected :
    chksum_igc_file (some
      "HFPLTPILOTINCHARGE: xqWXiDgN\nB1203154702000N12215500WA0123401234027000\nGMP0B3K\n".toList)
      = CHKSUM_OK ∧
    chksum_igc_file (some
      "HFPLTPILOTINCHARGE: xqWXiDgN\nB1203154702010N12215500WA0123401234027000\nGMP0B3K\n".toList)
      = CHKSUM_OK ∧
    chksum_igc_file (some
      "AXXX sim_logger v2.31\nB1203154702000N12215500WA-00005-00005027000\nGT32AKZ\n".toList)
      = CHKSUM_OK ∧
    chksum_igc_file (some
      "AXXX sim_logger v2.31\nB1203154702000N12215500WA 00005-00005027000\nGT32AKZ\n".toList)
      = CHKSUM_OK := by
  refine ⟨by decide!, by decide!, by decide!, by decide!⟩

/-! ## Claim C8 -/

theorem perf_abbreviations_eq : perf_abbreviations =
    [ "[airp".toList, "[fla".toList, "[fli".toList, "[wa".toList, "[we".toList,
      "[generaleng".toList, "[jet".toList, "[pis".toList, "[pro".toList, "[turbi".toList,
      "[turbo".toList ] := by decide

theorem perf_match_of_no_bracket (l : List Char) (h : starts_bracket l < 0) :
    perf_match l = false := by
  simp [perf_match, h]

theorem cfg_fold (ls : List (List Char)) (inside : Bool) (st : ChksumData) :
    (ls.foldl cfg_step (inside, st)).2 =
      chksum_string st ((perf_lines_from inside ls).map c_str).flatten := by
  induction ls generalizing inside st with
  | nil => rfl
  | cons l ls ih =>
    rw [List.foldl_cons]
    by_cases hb : starts_bracket (c_str l) < 0
    · cases inside with
      | false =>
        have : cfg_step (false, st) l = (false, st) := by
          simp [cfg_step, perf_match_of_no_bracket _ hb]
        rw [this, ih]
        simp [perf_lines_from, hb]
      | true =>
        have : cfg_step (true, st) l = (true, chksum_string st (c_str l)) := by
          simp [cfg_step, hb]
        rw [this, ih]
        simp [perf_lines_from, hb, chksum_string_append]
    · have : cfg_step (inside, st) l = (perf_match (c_str l), st) := by
        cases inside <;> simp [cfg_step, hb]
      rw [this, ih]
      simp [perf_lines_from, hb]

theorem perf_strings_take_length : ∀ p ∈ perf_strings, (p.1.take p.2).length = p.2 := by
  decide

theorem perf_match_iff (l : List Char) :
    perf_match l = true ↔ 0 ≤ starts_bracket l ∧
      ∃ p ∈ perf_abbreviations, (l.drop (starts_bracket l).toNat).take p.length = p := by
  unfold perf_match
  by_cases hb : starts_bracket l < 0
  · simp only [hb, if_true]
    constructor
    · intro h; cases h
    · intro h; omega
  · simp only [hb, if_false]
    have h0 : 0 ≤ starts_bracket l := by omega
    simp only [h0, true_and, List.any_eq_true, perf_abbreviations, List.mem_map]
    constructor
    · rintro ⟨p, hp, he⟩
      refine ⟨p.1.take p.2, ⟨p, hp, rfl⟩, ?_⟩
      have hlen : (p.1.take p.2).length = p.2 := perf_strings_take_length p hp
      rw [hlen]
      simpa [strncmp_eq] using he
    · rintro ⟨q, ⟨p, hp, rfl⟩, he⟩
      refine ⟨p, hp, ?_⟩
      have hlen : (p.1.take p.2).length = p.2 := perf_strings_take_length p hp
      rw [hlen] at he
      simpa [strncmp_eq] using he

/-- C8 (amended): the tag of `chksum_cfg_file` is the tag of the lines that the
code takes to be inside a performance section (`perf_lines`: lines without a
leading bracket that follow a header accepted by `perf_match`), each taken up
to its first NUL; `perf_match` accepts a header exactly when, from its bracket
on, it begins with one of the eleven abbreviations; so two configuration files
with the same `perf_lines` get the same result, whatever else they contain. -/
theorem chksum_cfg_file_perf_lines (s : List Char) :
    chksum_cfg_file (some s) =
      (CHKSUM_OK, chksum_to_string
        (chksum_string chksum_reset ((perf_lines s).map c_str).flatten)) ∧
    (∀ l : List Char, perf_match l = true ↔ 0 ≤ starts_bracket l ∧
      ∃ p ∈ perf_abbreviations, (l.drop (starts_bracket l).toNat).take p.length = p) ∧
    perf_abbreviations =
      [ "[airp".toList, "[fla".toList, "[fli".toList, "[wa".toList, "[we".toList,
        "[generaleng".toList, "[jet".toList, "[pis".toList, "[pro".toList, "[turbi".toList,
        "[turbo".toList ] ∧
    ∀ s2 : List Char, perf_lines s2 = perf_lines s →
      chksum_cfg_file (some s2) = chksum_cfg_file (some s) := by
  have key : ∀ t : List Char, chksum_cfg_file (some t) =
      (CHKSUM_OK, chksum_to_string
        (chksum_string chksum_reset ((perf_lines t).map c_str).flatten)) := by
    intro t
    simp only [chksum_cfg_file, perf_lines, cfg_fold]
  refine ⟨key s, perf_match_iff, perf_abbreviations_eq, ?_⟩
  intro s2 h
  rw [key s2, key s, h]

/-- Witness for C8 (amended): two configuration files that differ outside the
performance sections. -/
theorem chksum_cfg_file_perf_lines_witness :
    chksum_cfg_file (some
      "[General]\ntitle=B\n[flight_tuning]\nx=1\n[Views]\neye=0\n".toList) =
    chksum_cfg_file (some "[General]\ntitle=A\n[flight_tuning]\nx=1\n".toList) :=
  (chksum_cfg_file_perf_lines "[General]\ntitle=A\n[flight_tuning]\nx=1\n".toList).2.2.2
    "[General]\ntitle=B\n[flight_tuning]\nx=1\n[Views]\neye=0\n".toList (by decide!)

/-- Counterexample to C8 as stated: two configuration files with the same lines
inside the described sections (the line `p=1` of `[flight_tuning]`) that differ
only inside the section `[weather]`, which is none of the eleven but begins with
`[we`; their tags differ. -/
theorem chksum_cfg_file_other_section :
    described_perf_lines "[flight_tuning]\np=1\n[weather]\nx=1\n".toList =
      described_perf_lines "[flight_tuning]\np=1\n[weather]\nx=2\n".toList ∧
    described_perf_lines "[flight_tuning]\np=1\n[weather]\nx=1\n".toList = ["p=1".toList] ∧
    (chksum_cfg_file (some "[flight_tuning]\np=1\n[weather]\nx=1\n".toList)).2 ≠
      (chksum_cfg_file (some "[flight_tuning]\np=1\n[weather]\nx=2\n".toList)).2 := by
  refine ⟨by decide!, by decide!, by decide!⟩

/-! ## Claim C10: gap filling -/

theorem gap_fill_count_step (g : Int) (h : 5 < g) :
    gap_fill_count g = gap_fill_count (g - 3) + 1 := by
  unfold gap_fill_count
  split_ifs <;> omega

theorem gap_fill_count_le (g : Int) (h : g ≤ 5) : gap_fill_count g = 0 := by
  simp [gap_fill_count, h]

theorem gap_fill_loop_spec {D : Type}
    (geo : ReplayPoint D → ReplayPoint D → ReplayPoint D → ReplayPoint D → Int → ReplayPoint D)
    (fuel : Nat) (p : Nat → ReplayPoint D) (i : Nat) (hi : 3 ≤ i)
    (hf : (p (i - 1)).zulu_time - (p (i - 2)).zulu_time ≤ fuel) :
    (gap_fill_loop geo fuel (p, i)).2 =
      i + gap_fill_count ((p (i - 1)).zulu_time - (p (i - 2)).zulu_time) ∧
    (∀ j, j + 1 < i → (gap_fill_loop geo fuel (p, i)).1 j = p j) ∧
    (∀ k, k ≤ gap_fill_count ((p (i - 1)).zulu_time - (p (i - 2)).zulu_time) →
      ((gap_fill_loop geo fuel (p, i)).1 (i - 2 + k)).zulu_time =
        (p (i - 2)).zulu_time + 3 * k) ∧
    (gap_fill_loop geo fuel (p, i)).1
      (i - 1 + gap_fill_count ((p (i - 1)).zulu_time - (p (i - 2)).zulu_time)) = p (i - 1) ∧
    (gap_fill_loop geo fuel (p, i)).1
      (i + gap_fill_count ((p (i - 1)).zulu_time - (p (i - 2)).zulu_time)) = p i ∧
    ((gap_fill_loop geo fuel (p, i)).1
      (i - 1 + gap_fill_count ((p (i - 1)).zulu_time - (p (i - 2)).zulu_time))).zulu_time -
      ((gap_fill_loop geo fuel (p, i)).1
        (i - 2 + gap_fill_count ((p (i - 1)).zulu_time - (p (i - 2)).zulu_time))).zulu_time
      ≤ 5 := by
  induction fuel generalizing p i with
  | zero =>
    have hg : (p (i - 1)).zulu_time - (p (i - 2)).zulu_time ≤ 5 := by
      simp only [Nat.cast_zero] at hf
      omega
    simp only [gap_fill_loop, gap_fill_count_le _ hg, Nat.add_zero]
    refine ⟨trivial, fun _ _ => trivial, ?_, trivial, trivial, hg⟩
    intro k hk
    have : k = 0 := by omega
    subst this
    simp
  | succ fuel ih =>
    by_cases hg : (p (i - 1)).zulu_time - (p (i - 2)).zulu_time ≤ 5
    · have hc : ¬ (p (i - 1)).zulu_time - (p (i - 2)).zulu_time > IGC_DELTA_MAX := by
        simp only [IGC_DELTA_MAX]
        omega
      simp only [gap_fill_loop, if_neg hc, gap_fill_count_le _ hg, Nat.add_zero]
      refine ⟨trivial, fun _ _ => trivial, ?_, trivial, trivial, hg⟩
      intro k hk
      have : k = 0 := by omega
      subst this
      simp
    · have hc : (p (i - 1)).zulu_time - (p (i - 2)).zulu_time > IGC_DELTA_MAX := by
        simp only [IGC_DELTA_MAX]
        omega
      have hg5 : 5 < (p (i - 1)).zulu_time - (p (i - 2)).zulu_time := by omega
      simp only [gap_fill_loop, if_pos hc]
      set q : Nat → ReplayPoint D :=
        Function.update
          (Function.update (Function.update p (i + 1) (p i)) i
            (Function.update p (i + 1) (p i) (i - 1)))
          (i - 1) (interp geo (p (i - 3)) (p (i - 2)) (p (i - 1)) (p i) IGC_INTERP_TIMESTEP)
        with hq
      have q1 : q (i + 1) = p i := by
        simp only [hq]
        rw [Function.update_noteq (by omega), Function.update_noteq (by omega),
          Function.update_same]
      have q2 : q i = p (i - 1) := by
        simp only [hq]
        rw [Function.update_noteq (by omega), Function.update_same,
          Function.update_noteq (by omega)]
      have q3 : (q (i - 1)).zulu_time = (p (i - 2)).zulu_time + 3 := by
        simp only [hq]
        rw [Function.update_same]
        rfl
      have q4 : ∀ j, j + 1 < i → q j = p j := by
        intro j hj
        simp only [hq]
        rw [Function.update_noteq (by omega), Function.update_noteq (by omega),
          Function.update_noteq (by omega)]
      have e1 : i + 1 - 1 = i := by omega
      have e2 : i + 1 - 2 = i - 1 := by omega
      have hgap : (q (i + 1 - 1)).zulu_time - (q (i + 1 - 2)).zulu_time =
          (p (i - 1)).zulu_time - (p (i - 2)).zulu_time - 3 := by
        rw [e1, e2, q2, q3]
        omega
      have hf2 : (q (i + 1 - 1)).zulu_time - (q (i + 1 - 2)).zulu_time ≤ fuel := by
        rw [hgap]
        push_cast at hf
        omega
      obtain ⟨r1, r2, r3, r4, r5, r6⟩ := ih q (i + 1) (by omega) hf2
      rw [hgap] at r1 r3 r4 r5 r6
      rw [gap_fill_count_step _ hg5]
      generalize gap_fill_count ((p (i - 1)).zulu_time - (p (i - 2)).zulu_time - 3) = n
        at r1 r3 r4 r5 r6 ⊢
      generalize gap_fill_loop geo fuel (q, i + 1) = r at r1 r2 r3 r4 r5 r6 ⊢
      have a1 : i + 1 - 1 + n = i - 1 + (n + 1) := by omega
      have a2 : i + 1 + n = i + (n + 1) := by omega
      have a3 : i + 1 - 2 + n = i - 2 + (n + 1) := by omega
      rw [a1] at r4 r6
      rw [a2] at r5
      rw [a3] at r6
      refine ⟨by omega, ?_, ?_, ?_, ?_, r6⟩
      · intro j hj
        rw [r2 j (by omega), q4 j hj]
      · intro k hk
        rcases Nat.eq_zero_or_pos k with h0 | hpos
        · subst h0
          rw [Nat.add_zero, r2 _ (by omega), q4 _ (by omega)]
          simp
        · have a4 : i - 2 + k = i + 1 - 2 + (k - 1) := by omega
          rw [a4, r3 (k - 1) (by omega), e2, q3]
          have : ((k - 1 : Nat) : Int) = (k : Int) - 1 := by omega
          rw [this]
          ring
      · rw [r4, e1, q2]
      · rw [r5, q1]


theorem load_point_spec {D : Type}
    (geo : ReplayPoint D → ReplayPoint D → ReplayPoint D → ReplayPoint D → Int → ReplayPoint D)
    (p : Nat → ReplayPoint D) (i : Nat) (b : BFix D) :
    i + 1 ≤ (load_point geo (p, i) b).2 ∧
    (∀ j, j + 1 < i → (load_point geo (p, i) b).1 j = p j) ∧
    ((load_point geo (p, i) b).1 ((load_point geo (p, i) b).2 - 1)).fix = b ∧
    (1 ≤ i → (load_point geo (p, i) b).1 ((load_point geo (p, i) b).2 - 2) = p (i - 1)) := by
  unfold load_point
  simp only []
  set q : Nat → ReplayPoint D := Function.update p i
    { p i with latitude := b.latitude, longitude := b.longitude,
               altitude := b.altitude, zulu_time := b.zulu_time } with hq
  have qi : (q i).fix = b := by
    simp only [hq, Function.update_same, ReplayPoint.fix]
  have qj : ∀ j, j ≠ i → q j = p j := by
    intro j hj
    simp only [hq]
    rw [Function.update_noteq hj]
  by_cases hc : 2 < i ∧ (q (i - 1)).zulu_time - (q (i - 2)).zulu_time ≤ IGC_GAP_TIME
  · rw [if_pos hc]
    obtain ⟨r1, r2, _, r4, r5, _⟩ := gap_fill_loop_spec geo
      ((q (i - 1)).zulu_time - (q (i - 2)).zulu_time).toNat q i (by omega)
      (Int.self_le_toNat _)
    generalize gap_fill_count ((q (i - 1)).zulu_time - (q (i - 2)).zulu_time) = n
      at r1 r4 r5
    generalize gap_fill_loop geo ((q (i - 1)).zulu_time - (q (i - 2)).zulu_time).toNat (q, i)
      = r at r1 r2 r4 r5
    refine ⟨by omega, ?_, ?_, ?_⟩
    · intro j hj
      rw [r2 j hj, qj j (by omega)]
    · have : r.2 + 1 - 1 = i + n := by omega
      rw [this, r5, qi]
    · intro h1
      have : r.2 + 1 - 2 = i - 1 + n := by omega
      rw [this, r4, qj _ (by omega)]
  · rw [if_neg hc]
    refine ⟨le_refl _, ?_, ?_, ?_⟩
    · intro j hj
      exact qj j (by omega)
    · have : i + 1 - 1 = i := by omega
      simp only [this, qi]
    · intro h1
      have : i + 1 - 2 = i - 1 := by omega
      simp only [this]
      exact qj _ (by omega)

theorem load_point_gap {D : Type}
    (geo : ReplayPoint D → ReplayPoint D → ReplayPoint D → ReplayPoint D → Int → ReplayPoint D)
    (p : Nat → ReplayPoint D) (i : Nat) (b : BFix D) (hi : 3 ≤ i)
    (hg : (p (i - 1)).zulu_time - (p (i - 2)).zulu_time ≤ 12) :
    (load_point geo (p, i) b).2 =
      i + gap_fill_count ((p (i - 1)).zulu_time - (p (i - 2)).zulu_time) + 1 ∧
    (∀ k, k ≤ gap_fill_count ((p (i - 1)).zulu_time - (p (i - 2)).zulu_time) →
      ((load_point geo (p, i) b).1 (i - 2 + k)).zulu_time = (p (i - 2)).zulu_time + 3 * k) ∧
    (load_point geo (p, i) b).1
      (i - 1 + gap_fill_count ((p (i - 1)).zulu_time - (p (i - 2)).zulu_time)) = p (i - 1) ∧
    ((load_point geo (p, i) b).1
      (i - 1 + gap_fill_count ((p (i - 1)).zulu_time - (p (i - 2)).zulu_time))).zulu_time -
      ((load_point geo (p, i) b).1
        (i - 2 + gap_fill_count ((p (i - 1)).zulu_time - (p (i - 2)).zulu_time))).zulu_time
      ≤ 5 := by
  unfold load_point
  simp only []
  set q : Nat → ReplayPoint D := Function.update p i
    { p i with latitude := b.latitude, longitude := b.longitude,
               altitude := b.altitude, zulu_time := b.zulu_time } with hq
  have qj : ∀ j, j ≠ i → q j = p j := by
    intro j hj
    simp only [hq]
    rw [Function.update_noteq hj]
  have e1 : q (i - 1) = p (i - 1) := qj _ (by omega)
  have e2 : q (i - 2) = p (i - 2) := qj _ (by omega)
  have hc : 2 < i ∧ (q (i - 1)).zulu_time - (q (i - 2)).zulu_time ≤ IGC_GAP_TIME := by
    rw [e1, e2]
    exact ⟨by omega, hg⟩
  rw [if_pos hc]
  obtain ⟨r1, _, r3, r4, _, r6⟩ := gap_fill_loop_spec geo
    ((q (i - 1)).zulu_time - (q (i - 2)).zulu_time).toNat q i hi (Int.self_le_toNat _)
  rw [e1, e2] at r1 r3 r4 r6 ⊢
  exact ⟨by rw [r1], r3, r4, r6⟩

theorem load_points_frame {D : Type}
    (geo : ReplayPoint D → ReplayPoint D → ReplayPoint D → ReplayPoint D → Int → ReplayPoint D)
    (fixes : List (BFix D)) (p : Nat → ReplayPoint D) (i : Nat) :
    i + fixes.length ≤ (load_points geo (p, i) fixes).2 ∧
    ∀ j, j + 1 < i → (load_points geo (p, i) fixes).1 j = p j := by
  induction fixes generalizing p i with
  | nil => exact ⟨le_refl _, fun _ _ => rfl⟩
  | cons b fixes ih =>
    obtain ⟨s1, s2, _, _⟩ := load_point_spec geo p i b
    have ih2 := ih (load_point geo (p, i) b).1 (load_point geo (p, i) b).2
    rw [Prod.mk.eta] at ih2
    simp only [load_points, List.foldl_cons, List.length_cons] at ih2 ⊢
    refine ⟨by omega, ?_⟩
    intro j hj
    rw [ih2.2 j (by omega), s2 j hj]

theorem get_igc_record_other (out_s rec key : List Char) (r0 k0 : Char)
    (hr : rec.head? = some r0) (hr0 : r0 ≠ '\x00') (hk : key.head? = some k0)
    (hne : c_tolower r0 ≠ c_tolower k0) : get_igc_record out_s rec key = (false, out_s) := by
  cases rec with
  | nil => simp at hr
  | cons x rec =>
    cases key with
    | nil => simp at hk
    | cons y key =>
      simp only [List.head?_cons, Option.some.injEq] at hr hk
      subst hr
      subst hk
      have hx : (x != '\x00') = true := by simpa using hr0
      simp only [get_igc_record, c_str, List.takeWhile_cons, hx, if_true, List.length_cons,
        List.take_succ_cons, List.map_cons, List.cons.injEq, hne, false_and, if_false]

theorem load_line_B {D : Type} (parse_b : List Char → BFix D)
    (geo : ReplayPoint D → ReplayPoint D → ReplayPoint D → ReplayPoint D → Int → ReplayPoint D)
    (st : LoadState D) (l : List Char) (hl : l.head? = some 'B') :
    ((load_line parse_b geo st l).p, (load_line parse_b geo st l).i) =
      load_point geo (st.p, st.i) (parse_b l) := by
  have hB : ('B' : Char) ≠ '\x00' := by decide
  have g1 := fun out => get_igc_record_other out l "HFGTYGLIDERTYPE:".toList 'B' 'H' hl hB rfl
    (by decide)
  have g2 := fun out => get_igc_record_other out l "HFCIDCOMPETITIONID:".toList 'B' 'H' hl hB rfl
    (by decide)
  have g3 := fun out => get_igc_record_other out l "HFGIDGLIDERID:".toList 'B' 'H' hl hB rfl
    (by decide)
  have g4 := fun out => get_igc_record_other out l "LCU::HPGIDGLIDERID:".toList 'B' 'L' hl hB rfl
    (by decide)
  have g5 := fun out => get_igc_record_other out l "LCU::HPCIDCOMPETITIONID:".toList 'B' 'L'
    hl hB rfl (by decide)
  have g6 := fun out => get_igc_record_other out l "HFCID Competition ID    :".toList 'B' 'H'
    hl hB rfl (by decide)
  simp only [load_line, g1, g2, g3, g4, g5, g6, hl, ne_eq, not_true_eq_false, if_false,
    Bool.false_eq_true]

theorem load_line_other {D : Type} (parse_b : List Char → BFix D)
    (geo : ReplayPoint D → ReplayPoint D → ReplayPoint D → ReplayPoint D → Int → ReplayPoint D)
    (st : LoadState D) (l : List Char) (hl : l.head? ≠ some 'B') :
    ((load_line parse_b geo st l).p, (load_line parse_b geo st l).i) = (st.p, st.i) := by
  unfold load_line
  split_ifs <;> rfl

theorem load_lines_eq {D : Type} (parse_b : List Char → BFix D)
    (geo : ReplayPoint D → ReplayPoint D → ReplayPoint D → ReplayPoint D → Int → ReplayPoint D)
    (lines : List (List Char)) (st : LoadState D) :
    ((lines.foldl (load_line parse_b geo) st).p, (lines.foldl (load_line parse_b geo) st).i) =
      load_points geo (st.p, st.i)
        ((lines.filter fun l => l.head? == some 'B').map parse_b) := by
  induction lines generalizing st with
  | nil => rfl
  | cons l lines ih =>
    rw [List.foldl_cons, ih]
    by_cases hl : l.head? = some 'B'
    · have hf : (l.head? == some 'B') = true := by simpa using hl
      rw [List.filter_cons_of_pos (p := fun x : List Char => x.head? == some 'B') hf, List.map_cons,
        load_line_B parse_b geo st l hl]
      rfl
    · have hf : ¬ ((l.head? == some 'B') = true) := by simpa using hl
      rw [List.filter_cons_of_neg (p := fun x : List Char => x.head? == some 'B') hf,
        load_line_other parse_b geo st l hl]

theorem load_igc_file_eq {D : Type} (parse_b : List Char → BFix D)
    (geo : ReplayPoint D → ReplayPoint D → ReplayPoint D → ReplayPoint D → Int → ReplayPoint D)
    (ini : List Char) (p : Nat → ReplayPoint D) (file : List Char) :
    ((load_igc_file parse_b geo ini p file).p, (load_igc_file parse_b geo ini p file).i) =
      load_points geo (p, 0) ((b_lines file).map parse_b) := by
  unfold load_igc_file b_lines
  rw [load_lines_eq]


theorem load_points_fills_gap {D : Type}
    (geo : ReplayPoint D → ReplayPoint D → ReplayPoint D → ReplayPoint D → Int → ReplayPoint D)
    (st0 : (Nat → ReplayPoint D) × Nat) (pre post : List (BFix D)) (p0 p1 p2 p3 : BFix D)
    (h12 : p2.zulu_time - p1.zulu_time ≤ 12) :
    ∃ j,
      ((load_points geo st0 (pre ++ p0 :: p1 :: p2 :: p3 :: post)).1 j).fix = p1 ∧
      (∀ k, k ≤ gap_fill_count (p2.zulu_time - p1.zulu_time) →
        ((load_points geo st0 (pre ++ p0 :: p1 :: p2 :: p3 :: post)).1 (j + k)).zulu_time =
          p1.zulu_time + 3 * k) ∧
      ((load_points geo st0 (pre ++ p0 :: p1 :: p2 :: p3 :: post)).1
        (j + gap_fill_count (p2.zulu_time - p1.zulu_time) + 1)).fix = p2 ∧
      p2.zulu_time -
        ((load_points geo st0 (pre ++ p0 :: p1 :: p2 :: p3 :: post)).1
          (j + gap_fill_count (p2.zulu_time - p1.zulu_time))).zulu_time ≤ 5 ∧
      j + gap_fill_count (p2.zulu_time - p1.zulu_time) + 2 <
        (load_points geo st0 (pre ++ p0 :: p1 :: p2 :: p3 :: post)).2 := by
  have hsplit : load_points geo st0 (pre ++ p0 :: p1 :: p2 :: p3 :: post) =
      load_points geo (load_point geo (load_point geo (load_point geo
        (load_points geo st0 (pre ++ [p0])) p1) p2) p3) post := by
    simp [load_points, List.foldl_append]
  rw [hsplit]
  have hA := (load_points_frame geo (pre ++ [p0]) st0.1 st0.2).1
  have hst0 : (st0.1, st0.2) = st0 := rfl
  rw [hst0] at hA
  generalize load_points geo st0 (pre ++ [p0]) = Sa at hA ⊢
  obtain ⟨Pa, ia⟩ := Sa
  have hia : 1 ≤ ia := by
    simp only [List.length_append, List.length_singleton] at hA
    omega
  obtain ⟨b1, _, b3, _⟩ := load_point_spec geo Pa ia p1
  generalize load_point geo (Pa, ia) p1 = Sb at b1 b3 ⊢
  obtain ⟨Pb, ib⟩ := Sb
  simp only at b1 b3
  obtain ⟨c1, _, c3, c4⟩ := load_point_spec geo Pb ib p2
  generalize load_point geo (Pb, ib) p2 = Sc at c1 c3 c4 ⊢
  obtain ⟨Pc, ic⟩ := Sc
  simp only at c1 c3 c4
  have c5 : (Pc (ic - 2)).fix = p1 := by rw [c4 (by omega), b3]
  have t1 : (Pc (ic - 2)).zulu_time = p1.zulu_time := congrArg BFix.zulu_time c5
  have t2 : (Pc (ic - 1)).zulu_time = p2.zulu_time := congrArg BFix.zulu_time c3
  have hg : (Pc (ic - 1)).zulu_time - (Pc (ic - 2)).zulu_time ≤ 12 := by rw [t1, t2]; exact h12
  obtain ⟨d1, d2, d3, d4⟩ := load_point_gap geo Pc ic p3 (by omega) hg
  obtain ⟨_, d6, _, _⟩ := load_point_spec geo Pc ic p3
  rw [t1, t2] at d1 d2 d3 d4
  generalize gap_fill_count (p2.zulu_time - p1.zulu_time) = n at d1 d2 d3 d4 ⊢
  generalize load_point geo (Pc, ic) p3 = Sd at d1 d2 d3 d4 d6 ⊢
  obtain ⟨Pd, id⟩ := Sd
  simp only at d1 d2 d3 d4 d6
  obtain ⟨e1, e2⟩ := load_points_frame geo post Pd id
  generalize load_points geo (Pd, id) post = R at e1 e2 ⊢
  refine ⟨ic - 2, ?_, ?_, ?_, ?_, by omega⟩
  · rw [e2 _ (by omega), d6 _ (by omega), c5]
  · intro k hk
    rw [e2 _ (by omega), d2 k hk]
  · have : ic - 2 + n + 1 = ic - 1 + n := by omega
    rw [this, e2 _ (by omega), d3, c3]
  · rw [e2 _ (by omega)]
    have h := d4
    rw [d3, t2] at h
    exact h


theorem gap_fill_count_ceil (g : Int) (h5 : 5 < g) :
    1 ≤ gap_fill_count g ∧ g - 3 * (gap_fill_count g : Int) ≤ 5 ∧
      5 < g - 3 * ((gap_fill_count g : Int) - 1) := by
  unfold gap_fill_count
  rw [if_neg (by omega)]
  omega

/-! ### The claim -/

/-- C10: for four consecutive position records `p0`, `p1`, `p2`, `p3` of a
loaded file with gap `g = p2.time - p1.time`, `5 < g ≤ 12`, the replay array
that `load_igc_file` builds holds `p1` at some index `j`, then exactly `n`
synthetic fixes at times `p1.time + 3`, `p1.time + 6`, ..., `p1.time + 3 n`,
then `p2` at index `j + n + 1`, where `n` is the least number with
`g - 3 n ≤ 5` (that is `ceil ((g - 5) / 3)`); the gap left before `p2` is at
most 5 s. -/
theorem load_igc_file_fills_gap {D : Type} (parse_b : List Char → BFix D)
    (geo : ReplayPoint D → ReplayPoint D → ReplayPoint D → ReplayPoint D → Int → ReplayPoint D)
    (ini_default_aircraft : List Char) (p : Nat → ReplayPoint D) (file : List Char)
    (pre post : List (BFix D)) (p0 p1 p2 p3 : BFix D)
    (hfile : (b_lines file).map parse_b = pre ++ p0 :: p1 :: p2 :: p3 :: post)
    (h5 : 5 < p2.zulu_time - p1.zulu_time) (h12 : p2.zulu_time - p1.zulu_time ≤ 12) :
    1 ≤ gap_fill_count (p2.zulu_time - p1.zulu_time) ∧
    (p2.zulu_time - p1.zulu_time) - 3 * (gap_fill_count (p2.zulu_time - p1.zulu_time) : Int)
      ≤ 5 ∧
    5 < (p2.zulu_time - p1.zulu_time) -
      3 * ((gap_fill_count (p2.zulu_time - p1.zulu_time) : Int) - 1) ∧
    ∃ j,
      ((load_igc_file parse_b geo ini_default_aircraft p file).p j).fix = p1 ∧
      (∀ k, 1 ≤ k → k ≤ gap_fill_count (p2.zulu_time - p1.zulu_time) →
        ((load_igc_file parse_b geo ini_default_aircraft p file).p (j + k)).zulu_time =
          p1.zulu_time + 3 * k) ∧
      ((load_igc_file parse_b geo ini_default_aircraft p file).p
        (j + gap_fill_count (p2.zulu_time - p1.zulu_time) + 1)).fix = p2 ∧
      p2.zulu_time -
        ((load_igc_file parse_b geo ini_default_aircraft p file).p
          (j + gap_fill_count (p2.zulu_time - p1.zulu_time))).zulu_time ≤ 5 ∧
      j + gap_fill_count (p2.zulu_time - p1.zulu_time) + 2 <
        (load_igc_file parse_b geo ini_default_aircraft p file).i := by
  obtain ⟨c1, c2, c3⟩ := gap_fill_count_ceil _ h5
  refine ⟨c1, c2, c3, ?_⟩
  have heq := load_igc_file_eq parse_b geo ini_default_aircraft p file
  rw [hfile] at heq
  have hp := congrArg Prod.fst heq
  have hi := congrArg Prod.snd heq
  simp only at hp hi
  obtain ⟨j, j1, j2, j3, j4, j5⟩ := load_points_fills_gap geo (p, 0) pre post p0 p1 p2 p3 h12
  rw [← hp] at j1 j2 j3 j4
  rw [← hi] at j5
  exact ⟨j, j1, fun k _ hk => j2 k hk, j3, j4, j5⟩

/-- Witness for C10: the sample track holds fixes at 990 s, 1000 s, 1010 s and
1014 s; between the fixes at 1000 s and 1010 s exactly two fixes are inserted,
at 1003 s and 1006 s, and the gap left is 4 s; the loaded track has the times
990, 1000, 1003, 1006, 1010, 1014. -/
theorem load_igc_file_fills_gap_witness :
    gap_fill_count (1010 - 1000) = 2 ∧
    (List.range (load_igc_file sample_parse sample_geo [] sample_array sample_track).i).map
      (fun k => ((load_igc_file sample_parse sample_geo [] sample_array sample_track).p k).zulu_time)
      = [990, 1000, 1003, 1006, 1010, 1014] ∧
    ∃ j,
      ((load_igc_file sample_parse sample_geo [] sample_array sample_track).p j).zulu_time
        = 1000 ∧
      ((load_igc_file sample_parse sample_geo [] sample_array sample_track).p (j + 1)).zulu_time
        = 1003 ∧
      ((load_igc_file sample_parse sample_geo [] sample_array sample_track).p (j + 2)).zulu_time
        = 1006 ∧
      ((load_igc_file sample_parse sample_geo [] sample_array sample_track).p (j + 3)).zulu_time
        = 1010 ∧
      1010 -
        ((load_igc_file sample_parse sample_geo [] sample_array sample_track).p (j + 2)).zulu_time
        = 4 := by
  have hn : gap_fill_count (1010 - 1000) = 2 := by decide
  refine ⟨hn, by decide!, ?_⟩
  obtain ⟨_, _, _, j, j1, j2, j3, _, _⟩ :=
    load_igc_file_fills_gap sample_parse sample_geo [] sample_array sample_track []
      [] ⟨(), (), (), 990⟩ ⟨(), (), (), 1000⟩ ⟨(), (), (), 1010⟩ ⟨(), (), (), 1014⟩
      (by decide!) (by decide) (by decide)
  have hn2 : gap_fill_count ((1010 : Int) - 1000) = 2 := hn
  simp only [hn2] at j2 j3
  have k1 := j2 1 (by omega) (by omega)
  have k2 := j2 2 (by omega) (by omega)
  have t1 := congrArg BFix.zulu_time j1
  have t3 := congrArg BFix.zulu_time j3
  simp only [ReplayPoint.fix] at t1 t3
  refine ⟨j, t1, ?_, ?_, t3, ?_⟩
  · rw [k1]; norm_num
  · rw [k2]; norm_num
  · rw [k2]; norm_num

/-! ## Claims C11, C12: tracks without a gap to fill, order of the loaded track -/

theorem gap_fill_loop_of_le {D : Type}
    (geo : ReplayPoint D → ReplayPoint D → ReplayPoint D → ReplayPoint D → Int → ReplayPoint D)
    (fuel : Nat) (p : Nat → ReplayPoint D) (i : Nat)
    (h : (p (i - 1)).zulu_time - (p (i - 2)).zulu_time ≤ 5) :
    gap_fill_loop geo fuel (p, i) = (p, i) := by
  cases fuel with
  | zero => rfl
  | succ n =>
    have hc : ¬ ((p (i - 1)).zulu_time - (p (i - 2)).zulu_time > IGC_DELTA_MAX) := by
      have : IGC_DELTA_MAX = 5 := rfl
      omega
    simp only [gap_fill_loop, if_neg hc]

theorem track_fixes_succ {D : Type} (p : Nat → ReplayPoint D) (i : Nat) :
    track_fixes p (i + 1) = track_fixes p i ++ [(p i).fix] := by
  simp [track_fixes, List.range_succ]

theorem track_fixes_congr {D : Type} (p q : Nat → ReplayPoint D) (i : Nat)
    (h : ∀ k, k < i → q k = p k) : track_fixes q i = track_fixes p i := by
  unfold track_fixes
  apply List.map_congr_left
  intro k hk
  rw [h k (List.mem_range.mp hk)]

theorem track_fixes_length {D : Type} (p : Nat → ReplayPoint D) (i : Nat) :
    (track_fixes p i).length = i := by
  simp [track_fixes]

theorem track_fixes_chain {D : Type} (R : BFix D → BFix D → Prop) (p : Nat → ReplayPoint D)
    (i : Nat) (h : List.Chain' R (track_fixes p i)) (k : Nat) (hk : k + 1 < i) :
    R (p k).fix (p (k + 1)).fix := by
  have h2 := (List.chain'_iff_get.mp h) k (by rw [track_fixes_length]; omega)
  simpa [track_fixes] using h2

theorem load_point_dense {D : Type}
    (geo : ReplayPoint D → ReplayPoint D → ReplayPoint D → ReplayPoint D → Int → ReplayPoint D)
    (p : Nat → ReplayPoint D) (i : Nat) (b : BFix D)
    (h : List.Chain' gap_left_alone (track_fixes p i)) :
    (load_point geo (p, i) b).2 = i + 1 ∧
    track_fixes (load_point geo (p, i) b).1 (i + 1) = track_fixes p i ++ [b] := by
  unfold load_point
  simp only []
  set q : Nat → ReplayPoint D := Function.update p i
    { p i with latitude := b.latitude, longitude := b.longitude,
               altitude := b.altitude, zulu_time := b.zulu_time } with hq
  have qi : (q i).fix = b := by
    simp only [hq, Function.update_same, ReplayPoint.fix]
  have qj : ∀ j, j < i → q j = p j := by
    intro j hj
    simp only [hq]
    rw [Function.update_noteq (by omega)]
  have hres : track_fixes q (i + 1) = track_fixes p i ++ [b] := by
    rw [track_fixes_succ, track_fixes_congr p q i qj, qi]
  by_cases hc : 2 < i ∧ (q (i - 1)).zulu_time - (q (i - 2)).zulu_time ≤ IGC_GAP_TIME
  · rw [if_pos hc]
    have hgap := track_fixes_chain gap_left_alone p i h (i - 2) (by omega)
    have e1 : i - 2 + 1 = i - 1 := by omega
    rw [e1] at hgap
    have h5 : (q (i - 1)).zulu_time - (q (i - 2)).zulu_time ≤ 5 := by
      have h12 := hc.2
      rw [qj _ (by omega), qj _ (by omega)] at h12 ⊢
      unfold gap_left_alone at hgap
      have a1 : IGC_DELTA_MAX = 5 := rfl
      have a2 : IGC_GAP_TIME = 12 := rfl
      simp only [ReplayPoint.fix] at hgap
      omega
    rw [gap_fill_loop_of_le geo _ q i h5]
    exact ⟨rfl, hres⟩
  · rw [if_neg hc]
    exact ⟨rfl, hres⟩

theorem load_points_dense {D : Type}
    (geo : ReplayPoint D → ReplayPoint D → ReplayPoint D → ReplayPoint D → Int → ReplayPoint D)
    (fixes : List (BFix D)) (p : Nat → ReplayPoint D) (i : Nat)
    (h : List.Chain' gap_left_alone (track_fixes p i ++ fixes)) :
    (load_points geo (p, i) fixes).2 = i + fixes.length ∧
    track_fixes (load_points geo (p, i) fixes).1 (load_points geo (p, i) fixes).2 =
      track_fixes p i ++ fixes := by
  induction fixes generalizing p i with
  | nil => simp [load_points]
  | cons b fixes ih =>
    obtain ⟨s1, s2⟩ := load_point_dense geo p i b (List.Chain'.left_of_append h)
    have ih2 := ih (load_point geo (p, i) b).1 (load_point geo (p, i) b).2 (by
      rw [s1, s2, List.append_assoc]
      exact h)
    rw [Prod.mk.eta] at ih2
    simp only [load_points, List.foldl_cons, List.length_cons] at ih2 ⊢
    refine ⟨by omega, ?_⟩
    rw [ih2.2, s1, s2, List.append_assoc]
    rfl

/-- C11: if every gap between consecutive position records of a file is at
most 5 s or more than 12 s, `load_igc_file` inserts no synthetic fix: the
record counter is the number of position records and the loaded track holds
exactly the parsed records (time, latitude, longitude, altitude), in file
order. -/
theorem load_igc_file_dense {D : Type} (parse_b : List Char → BFix D)
    (geo : ReplayPoint D → ReplayPoint D → ReplayPoint D → ReplayPoint D → Int → ReplayPoint D)
    (ini_default_aircraft : List Char) (p : Nat → ReplayPoint D) (file : List Char)
    (hgaps : List.Chain' gap_left_alone ((b_lines file).map parse_b)) :
    (load_igc_file parse_b geo ini_default_aircraft p file).i = (b_lines file).length ∧
    track_fixes (load_igc_file parse_b geo ini_default_aircraft p file).p
      (load_igc_file parse_b geo ini_default_aircraft p file).i =
        (b_lines file).map parse_b := by
  have heq := load_igc_file_eq parse_b geo ini_default_aircraft p file
  have hp := congrArg Prod.fst heq
  have hi := congrArg Prod.snd heq
  simp only at hp hi
  obtain ⟨d1, d2⟩ := load_points_dense geo ((b_lines file).map parse_b) p 0 (by
    simpa [track_fixes] using hgaps)
  rw [hp, hi]
  refine ⟨by simpa using d1, ?_⟩
  rw [d2]
  simp [track_fixes]

/-- Witness for C11: the sample track has the gaps 4 s, 20 s, 4 s and 20 s;
the loaded track holds its five fixes and nothing else. -/
theorem load_igc_file_dense_witness :
    (b_lines dense_track).map (fun l => (sample_parse l).zulu_time) =
      [990, 994, 1014, 1018, 1038] ∧
    (load_igc_file sample_parse sample_geo [] sample_array dense_track).i = 5 ∧
    track_times (load_igc_file sample_parse sample_geo [] sample_array dense_track).p
      (load_igc_file sample_parse sample_geo [] sample_array dense_track).i =
        [990, 994, 1014, 1018, 1038] ∧
    ((load_igc_file sample_parse sample_geo [] sample_array dense_track).i =
        (b_lines dense_track).length ∧
      track_fixes (load_igc_file sample_parse sample_geo [] sample_array dense_track).p
        (load_igc_file sample_parse sample_geo [] sample_array dense_track).i =
          (b_lines dense_track).map sample_parse) :=
  ⟨by decide!, by decide!, by decide!,
    load_igc_file_dense sample_parse sample_geo [] sample_array dense_track (by
      have e : (b_lines dense_track).map sample_parse =
          [⟨(), (), (), 990⟩, ⟨(), (), (), 994⟩, ⟨(), (), (), 1014⟩, ⟨(), (), (), 1018⟩,
            ⟨(), (), (), 1038⟩] := by decide!
      rw [e]
      simp [gap_left_alone, IGC_DELTA_MAX, IGC_GAP_TIME])⟩

theorem load_point_increasing {D : Type}
    (geo : ReplayPoint D → ReplayPoint D → ReplayPoint D → ReplayPoint D → Int → ReplayPoint D)
    (p : Nat → ReplayPoint D) (i : Nat) (b : BFix D)
    (hinc : increasing_track p i)
    (hb : 1 ≤ i → (p (i - 1)).zulu_time < b.zulu_time) :
    increasing_track (load_point geo (p, i) b).1 (load_point geo (p, i) b).2 := by
  unfold load_point
  simp only []
  set q : Nat → ReplayPoint D := Function.update p i
    { p i with latitude := b.latitude, longitude := b.longitude,
               altitude := b.altitude, zulu_time := b.zulu_time } with hq
  have qi : (q i).zulu_time = b.zulu_time := by
    simp only [hq, Function.update_same]
  have qj : ∀ j, j < i → q j = p j := by
    intro j hj
    simp only [hq]
    rw [Function.update_noteq (by omega)]
  have hplain : increasing_track q (i + 1) := by
    intro j hj
    by_cases hji : j + 1 < i
    · rw [qj _ (by omega), qj _ hji]
      exact hinc j hji
    · have e : j + 1 = i := by omega
      rw [e, qi, qj _ (by omega)]
      have := hb (by omega)
      have e2 : i - 1 = j := by omega
      rw [e2] at this
      exact this
  by_cases hc : 2 < i ∧ (q (i - 1)).zulu_time - (q (i - 2)).zulu_time ≤ IGC_GAP_TIME
  · rw [if_pos hc]
    obtain ⟨r1, r2, r3, r4, r5, _⟩ := gap_fill_loop_spec geo
      ((q (i - 1)).zulu_time - (q (i - 2)).zulu_time).toNat q i (by omega)
      (Int.self_le_toNat _)
    set g := (q (i - 1)).zulu_time - (q (i - 2)).zulu_time with hg
    set r := gap_fill_loop geo g.toNat (q, i) with hr
    have hpos : 0 < g := by
      have := hplain (i - 2) (by omega)
      have e : i - 2 + 1 = i - 1 := by omega
      rw [e] at this
      omega
    have hres : (gap_fill_count g : Int) * 3 < g := by
      by_cases h5 : 5 < g
      · have := (gap_fill_count_ceil g h5).2.2
        omega
      · rw [gap_fill_count_le g (by omega)]
        simpa using hpos
    simp only [r1]
    intro j hj
    by_cases c1 : j + 2 < i
    · rw [r2 j (by omega), r2 (j + 1) (by omega)]
      exact hplain j (by omega)
    · by_cases c2 : j < i - 2 + gap_fill_count g
      · have ej : j = i - 2 + (j - (i - 2)) := by omega
        have ej1 : j + 1 = i - 2 + (j - (i - 2) + 1) := by omega
        have t1 := r3 (j - (i - 2)) (by omega)
        have t2 := r3 (j - (i - 2) + 1) (by omega)
        rw [← ej] at t1
        rw [← ej1] at t2
        rw [t1, t2]
        push_cast
        omega
      · by_cases c3 : j = i - 2 + gap_fill_count g
        · have t1 := r3 (gap_fill_count g) (le_refl _)
          have e1 : j + 1 = i - 1 + gap_fill_count g := by omega
          rw [e1, r4, c3, t1]
          omega
        · have e0 : j = i - 1 + gap_fill_count g := by omega
          have e1 : j + 1 = i + gap_fill_count g := by omega
          rw [e1, r5, e0, r4]
          have := hplain (i - 1) (by omega)
          have e : i - 1 + 1 = i := by omega
          rw [e] at this
          exact this
  · rw [if_neg hc]
    exact hplain

theorem load_points_increasing {D : Type}
    (geo : ReplayPoint D → ReplayPoint D → ReplayPoint D → ReplayPoint D → Int → ReplayPoint D)
    (fixes : List (BFix D)) (p : Nat → ReplayPoint D) (i : Nat)
    (hinc : increasing_track p i)
    (hb : ∀ b, fixes.head? = some b → 1 ≤ i → (p (i - 1)).zulu_time < b.zulu_time)
    (hfix : List.Chain' later_fix fixes) :
    increasing_track (load_points geo (p, i) fixes).1 (load_points geo (p, i) fixes).2 := by
  induction fixes generalizing p i with
  | nil => exact hinc
  | cons b fixes ih =>
    have s := load_point_increasing geo p i b hinc (hb b rfl)
    obtain ⟨_, _, s3, _⟩ := load_point_spec geo p i b
    have ih2 := ih (load_point geo (p, i) b).1 (load_point geo (p, i) b).2 s (by
      intro c hc _
      have hbc : later_fix b c := by
        cases fixes with
        | nil => cases hc
        | cons c2 fixes2 =>
          simp only [List.head?_cons, Option.some.injEq] at hc
          subst hc
          exact (List.chain'_cons.mp hfix).1
      have e := congrArg BFix.zulu_time s3
      simp only [ReplayPoint.fix] at e
      rw [e]
      exact hbc) (List.Chain'.tail hfix)
    rw [Prod.mk.eta] at ih2
    simpa only [load_points, List.foldl_cons] using ih2

/-- C12, amended: for every input file whose position records have strictly
increasing times, the track that `load_igc_file` produces (after gap filling)
has strictly increasing time between every pair of consecutive fixes. -/
theorem load_igc_file_increasing {D : Type} (parse_b : List Char → BFix D)
    (geo : ReplayPoint D → ReplayPoint D → ReplayPoint D → ReplayPoint D → Int → ReplayPoint D)
    (ini_default_aircraft : List Char) (p : Nat → ReplayPoint D) (file : List Char)
    (hfile : List.Chain' later_fix ((b_lines file).map parse_b)) :
    increasing_track (load_igc_file parse_b geo ini_default_aircraft p file).p
      (load_igc_file parse_b geo ini_default_aircraft p file).i := by
  have heq := load_igc_file_eq parse_b geo ini_default_aircraft p file
  have hp := congrArg Prod.fst heq
  have hi := congrArg Prod.snd heq
  simp only at hp hi
  rw [hp, hi]
  exact load_points_increasing geo _ p 0 (fun j hj => by omega) (fun _ _ h => by omega) hfile

/-- Witness for C12 as amended: the sample track has the record times 990,
1000, 1010, 1014; the loaded track has the times 990, 1000, 1003, 1006, 1010,
1014, strictly increasing. -/
theorem load_igc_file_increasing_witness :
    track_times (load_igc_file sample_parse sample_geo [] sample_array sample_track).p
      (load_igc_file sample_parse sample_geo [] sample_array sample_track).i =
        [990, 1000, 1003, 1006, 1010, 1014] ∧
    increasing_track (load_igc_file sample_parse sample_geo [] sample_array sample_track).p
      (load_igc_file sample_parse sample_geo [] sample_array sample_track).i :=
  ⟨by decide!,
    load_igc_file_increasing sample_parse sample_geo [] sample_array sample_track (by
      have e : (b_lines sample_track).map sample_parse =
          [⟨(), (), (), 990⟩, ⟨(), (), (), 1000⟩, ⟨(), (), (), 1010⟩, ⟨(), (), (), 1014⟩] := by
        decide!
      rw [e]
      simp [later_fix])⟩

/-- Counterexample to C12 as stated: a track file of a flight that passes
midnight UTC, with position records at 23:59:58 and 00:00:02, is loaded as the
two fixes at 86398 s and 2 s; the time decreases from the first fix to the
second. -/
theorem load_igc_file_not_increasing :
    track_times (load_igc_file sample_parse sample_geo [] sample_array midnight_track).p
      (load_igc_file sample_parse sample_geo [] sample_array midnight_track).i = [86398, 2] ∧
    ¬ increasing_track (load_igc_file sample_parse sample_geo [] sample_array midnight_track).p
      (load_igc_file sample_parse sample_geo [] sample_array midnight_track).i := by
  refine ⟨by decide!, ?_⟩
  intro h
  have h0 := h 0 (by decide!)
  revert h0
  decide!

/-! ## Claims C13, C14: the recorder's log, capacity of the tracks -/

theorem igc_log_point_count_le {D : Type} (to_double : Int → D) (st : IgcLog D)
    (p : UserStruct D) (h : st.igc_record_count ≤ IGC_MAX_RECORDS) :
    (igc_log_point to_double st p).igc_record_count ≤ IGC_MAX_RECORDS := by
  unfold igc_log_point
  split_ifs with h1 h2
  · exact h1
  · exact h
  · exact h

theorem log_points_count_le {D : Type} (to_double : Int → D) (ps : List (UserStruct D))
    (st : IgcLog D) (h : st.igc_record_count ≤ IGC_MAX_RECORDS) :
    (log_points to_double st ps).igc_record_count ≤ IGC_MAX_RECORDS := by
  induction ps generalizing st with
  | nil => exact h
  | cons p ps ih => exact ih _ (igc_log_point_count_le to_double st p h)

theorem stored_length {D : Type} (st : IgcLog D) :
    (stored st).length = st.igc_record_count := by
  simp [stored]

theorem stored_getLast {D : Type} (st : IgcLog D) (h : st.igc_record_count ≠ 0) :
    (stored st).getLast? = some (st.igc_pos (st.igc_record_count - 1)) := by
  obtain ⟨n, hn⟩ := Nat.exists_eq_succ_of_ne_zero h
  simp [stored, hn, List.range_succ]

theorem stored_append {D : Type} (st : IgcLog D) (r : igc_b D) :
    stored { igc_pos := Function.update st.igc_pos st.igc_record_count r
             igc_record_count := st.igc_record_count + 1 } = stored st ++ [r] := by
  simp only [stored, List.range_succ, List.map_append, List.map_cons, List.map_nil,
    Function.update_same]
  congr 1
  apply List.map_congr_left
  intro k hk
  rw [Function.update_noteq (by
    have := List.mem_range.mp hk
    omega)]

theorem log_points_stored {D : Type} (to_double : Int → D) (ps : List (UserStruct D))
    (st : IgcLog D) (done : List (UserStruct D))
    (hs : stored st = done.map (record_of to_double))
    (hle : done.length ≤ IGC_MAX_RECORDS) :
    stored (log_points to_double st ps) =
      ((done ++ accepted_from (done.getLast?.map fun a => a.zulu_time) ps).take
        IGC_MAX_RECORDS).map (record_of to_double) := by
  have hc : st.igc_record_count = done.length := by
    have := congrArg List.length hs
    rwa [stored_length, List.length_map] at this
  induction ps generalizing st done with
  | nil =>
    simp only [log_points, List.foldl_nil, accepted_from, List.append_nil]
    rw [List.take_of_length_le hle, hs]
  | cons p ps ih =>
    simp only [log_points, List.foldl_cons] at ih ⊢
    by_cases h1 : st.igc_record_count < IGC_MAX_RECORDS
    · by_cases h2 : st.igc_record_count = 0 ∨
          p.zulu_time ≠ (st.igc_pos (st.igc_record_count - 1)).zulu_time
      · have hne : (done.getLast?.map fun a => a.zulu_time) ≠ some p.zulu_time := by
          by_cases h0 : st.igc_record_count = 0
          · have : done = [] := List.length_eq_zero.mp (by omega)
            subst this
            simp
          · have hl := stored_getLast st h0
            rw [hs, List.getLast?_map] at hl
            have h3 := h2.resolve_left h0
            intro he
            cases hd : done.getLast? with
            | none => rw [hd] at he; cases he
            | some a =>
              rw [hd] at he hl
              simp only [Option.map_some', Option.some.injEq] at he hl
              apply h3
              rw [← hl, ← he]
              rfl
        have hstep : igc_log_point to_double st p =
            { igc_pos := Function.update st.igc_pos st.igc_record_count (record_of to_double p)
              igc_record_count := st.igc_record_count + 1 } := by
          unfold igc_log_point
          rw [if_pos h1, if_pos h2]
          rfl
        rw [hstep]
        have := ih _ (done ++ [p]) (by
          rw [stored_append st (record_of to_double p), hs]
          simp) (by
          simp only [List.length_append, List.length_singleton]
          omega) (by simp [hc])
        rw [this]
        have hlast : (done ++ [p]).getLast? = some p := by simp
        rw [hlast]
        simp only [accepted_from, if_neg hne, Option.map_some', List.append_assoc,
          List.singleton_append]
      · have hstep : igc_log_point to_double st p = st := by
          unfold igc_log_point
          rw [if_pos h1, if_neg h2]
        have heq : (done.getLast?.map fun a => a.zulu_time) = some p.zulu_time := by
          have h0 : st.igc_record_count ≠ 0 := fun h => h2 (Or.inl h)
          have h3 : p.zulu_time = (st.igc_pos (st.igc_record_count - 1)).zulu_time := by
            by_contra hh
            exact h2 (Or.inr hh)
          have hl := stored_getLast st h0
          rw [hs, List.getLast?_map] at hl
          cases hd : done.getLast? with
          | none => rw [hd] at hl; cases hl
          | some a =>
            rw [hd] at hl
            simp only [Option.map_some', Option.some.injEq] at hl ⊢
            rw [h3, ← hl]
            rfl
        rw [hstep, ih st done hs hle hc]
        simp only [accepted_from, if_pos heq]
    · have hstep : igc_log_point to_double st p = st := by
        unfold igc_log_point
        rw [if_neg h1]
      have hfull : IGC_MAX_RECORDS ≤ done.length := by omega
      rw [hstep, ih st done hs hle hc, List.take_append_of_le_length hfull,
        List.take_append_of_le_length hfull]

theorem accepted_from_chain {D : Type} (ps : List (UserStruct D)) (last : Option Int) :
    List.Chain' (fun a b : UserStruct D => a.zulu_time ≠ b.zulu_time) (accepted_from last ps) ∧
    ∀ a, (accepted_from last ps).head? = some a → last ≠ some a.zulu_time := by
  induction ps generalizing last with
  | nil => exact ⟨List.chain'_nil, fun a h => by cases h⟩
  | cons p ps ih =>
    by_cases h : last = some p.zulu_time
    · simp only [accepted_from, if_pos h]
      exact ih last
    · simp only [accepted_from, if_neg h]
      obtain ⟨i1, i2⟩ := ih (some p.zulu_time)
      refine ⟨?_, ?_⟩
      · rw [List.chain'_cons']
        refine ⟨?_, i1⟩
        intro y hy
        have := i2 y (by simpa using hy)
        intro he
        exact this (by rw [he])
      · intro a ha
        simp only [List.head?_cons, Option.some.injEq] at ha
        subst ha
        exact h

theorem accepted_from_of_chain {D : Type} (ps : List (UserStruct D)) (last : Option Int)
    (hch : List.Chain' (fun a b : UserStruct D => a.zulu_time ≠ b.zulu_time) ps)
    (hh : ∀ a, ps.head? = some a → last ≠ some a.zulu_time) :
    accepted_from last ps = ps := by
  induction ps generalizing last with
  | nil => rfl
  | cons p ps ih =>
    simp only [accepted_from, if_neg (hh p rfl)]
    rw [ih (some p.zulu_time) (List.Chain'.tail hch)]
    intro a ha he
    rw [List.chain'_cons'] at hch
    have := hch.1 a (by simpa using ha)
    simp only [Option.some.injEq] at he
    exact this he

theorem samples_upto_accepted (n : Nat) : accepted (samples_upto n) = samples_upto n := by
  apply accepted_from_of_chain
  · unfold samples_upto
    rw [List.chain'_map]
    cases n with
    | zero => simp
    | succ m =>
      rw [List.chain'_range_succ]
      intro k _
      simp only [sample_at, Int.ofNat_eq_coe, ne_eq]
      omega
  · intro a _ h
    cases h

/-- C13, amended: while the log holds fewer than `IGC_MAX_RECORDS` records,
`igc_log_point` drops a sample whose time equals the time of the last stored
record (log and count unchanged) and otherwise appends it; once the log holds
`IGC_MAX_RECORDS` records it drops every sample. After any sequence of calls
from an empty log no two consecutive stored records have the same time, and
the stored records are the first `IGC_MAX_RECORDS` accepted samples in arrival
order. -/
theorem igc_log_point_dedup {D : Type} (to_double : Int → D) (r0 : igc_b D)
    (st : IgcLog D) (p : UserStruct D) (ps : List (UserStruct D)) :
    (st.igc_record_count < IGC_MAX_RECORDS → st.igc_record_count ≠ 0 →
      p.zulu_time = (st.igc_pos (st.igc_record_count - 1)).zulu_time →
        igc_log_point to_double st p = st) ∧
    (st.igc_record_count < IGC_MAX_RECORDS →
      (st.igc_record_count = 0 ∨
        p.zulu_time ≠ (st.igc_pos (st.igc_record_count - 1)).zulu_time) →
        (igc_log_point to_double st p).igc_record_count = st.igc_record_count + 1 ∧
        stored (igc_log_point to_double st p) = stored st ++ [record_of to_double p]) ∧
    (IGC_MAX_RECORDS ≤ st.igc_record_count → igc_log_point to_double st p = st) ∧
    stored (log_points to_double (empty_log r0) ps) =
      ((accepted ps).take IGC_MAX_RECORDS).map (record_of to_double) ∧
    List.Chain' (fun a b : igc_b D => a.zulu_time ≠ b.zulu_time)
      (stored (log_points to_double (empty_log r0) ps)) := by
  have hseq : stored (log_points to_double (empty_log r0) ps) =
      ((accepted ps).take IGC_MAX_RECORDS).map (record_of to_double) := by
    have := log_points_stored to_double ps (empty_log r0) [] (by simp [stored, empty_log])
      (Nat.zero_le _)
    simpa [accepted] using this
  refine ⟨?_, ?_, ?_, hseq, ?_⟩
  · intro h1 h0 ht
    unfold igc_log_point
    rw [if_pos h1, if_neg (by
      intro h
      rcases h with h | h
      · exact h0 h
      · exact h ht)]
  · intro h1 h2
    have hstep : igc_log_point to_double st p =
        { igc_pos := Function.update st.igc_pos st.igc_record_count (record_of to_double p)
          igc_record_count := st.igc_record_count + 1 } := by
      unfold igc_log_point
      rw [if_pos h1, if_pos h2]
      rfl
    rw [hstep]
    exact ⟨rfl, stored_append st (record_of to_double p)⟩
  · intro h1
    unfold igc_log_point
    rw [if_neg (by omega)]
  · rw [hseq, List.chain'_map]
    have := (accepted_from_chain ps none).1
    exact List.Chain'.take (l := accepted ps) this IGC_MAX_RECORDS

/-- Witness for C13 as amended: of the samples at times 5, 5, 7, 7, 7, 9, 5 the
records at 5, 7, 9, 5 are stored. -/
theorem igc_log_point_dedup_witness :
    (stored (log_points (fun _ => ()) (empty_log ⟨0, (), (), (), ()⟩)
      [sample_at 5, sample_at 5, sample_at 7, sample_at 7, sample_at 7, sample_at 9,
        sample_at 5])).map (fun r => r.zulu_time) = [5, 7, 9, 5] ∧
    stored (log_points (fun _ => ()) (empty_log ⟨0, (), (), (), ()⟩)
      [sample_at 5, sample_at 5, sample_at 7, sample_at 7, sample_at 7, sample_at 9,
        sample_at 5]) =
      ((accepted [sample_at 5, sample_at 5, sample_at 7, sample_at 7, sample_at 7, sample_at 9,
        sample_at 5]).take IGC_MAX_RECORDS).map (record_of fun _ => ()) :=
  ⟨by decide!,
    (igc_log_point_dedup (fun _ => ()) ⟨0, (), (), (), ()⟩ (empty_log ⟨0, (), (), (), ()⟩)
      (sample_at 5) [sample_at 5, sample_at 5, sample_at 7, sample_at 7, sample_at 7,
        sample_at 9, sample_at 5]).2.2.2.1⟩

/-- Counterexample to C13 as stated: the log that holds 40000 records, the
last at time 39999, is left unchanged by a sample at time 40000, which differs
from the time of the last stored record; and of the 40001 samples at times
0, 1, ..., 40000, all accepted by the description, only 40000 are stored. -/
theorem igc_log_point_full_log :
    full_log.igc_record_count = 40000 ∧
    (full_log.igc_pos (full_log.igc_record_count - 1)).zulu_time = 39999 ∧
    (sample_at 40000).zulu_time = 40000 ∧
    igc_log_point (fun _ => ()) full_log (sample_at 40000) = full_log ∧
    (accepted (samples_upto 40001)).length = 40001 ∧
    (stored (log_points (fun _ => ()) (empty_log ⟨0, (), (), (), ()⟩)
      (samples_upto 40001))).length = 40000 := by
  refine ⟨rfl, rfl, rfl, ?_, ?_, ?_⟩
  · unfold igc_log_point
    rw [if_neg (by
      show ¬ (IGC_MAX_RECORDS < IGC_MAX_RECORDS)
      omega)]
  · rw [samples_upto_accepted]
    simp [samples_upto]
  · have := log_points_stored (fun _ => ()) (samples_upto 40001)
      (empty_log ⟨0, (), (), (), ()⟩) [] (by simp [stored, empty_log]) (Nat.zero_le _)
    rw [this]
    have e : accepted_from none (samples_upto 40001) = samples_upto 40001 :=
      samples_upto_accepted 40001
    simp only [List.nil_append, List.getLast?_nil, Option.map_none', e, List.length_map,
      List.length_take]
    simp [samples_upto, IGC_MAX_RECORDS]

theorem b_lines_long_track (n : Nat) :
    b_lines (long_track n) = List.replicate n b_line := by
  unfold b_lines long_track
  have h := read_lines_lines (List.replicate n b_line) [] (by
    intro l hl
    rw [List.eq_of_mem_replicate hl]
    decide!)
  rw [List.append_nil, read_lines_nil, List.append_nil] at h
  rw [h, List.filter_eq_self]
  intro l hl
  rw [List.eq_of_mem_replicate hl]
  decide!

theorem chain_replicate {α : Type} (R : α → α → Prop) (a : α) (h : R a a) (n : Nat) :
    List.Chain' R (List.replicate n a) := by
  induction n with
  | zero => exact List.chain'_nil
  | succ m ih =>
    rw [List.replicate_succ, List.chain'_cons']
    refine ⟨?_, ih⟩
    intro y hy
    have hm : y ∈ List.replicate m a := List.mem_of_mem_head? hy
    rw [List.eq_of_mem_replicate hm]
    exact h

/-- C14, at the failing input: the recorder never holds more than
`IGC_MAX_RECORDS` records, but for the track file of 40001 position records
`load_igc_file` ends with the record counter at 40001 and has stored the last
fix at index 40000, outside `replay[ai_index][0 .. IGC_MAX_RECORDS - 1]`. -/
theorem load_igc_file_exceeds_capacity {D : Type} (to_double : Int → D) (r0 : igc_b D)
    (ps : List (UserStruct D)) (parse_b : List Char → BFix D)
    (geo : ReplayPoint D → ReplayPoint D → ReplayPoint D → ReplayPoint D → Int → ReplayPoint D)
    (ini_default_aircraft : List Char) (p : Nat → ReplayPoint D) :
    (log_points to_double (empty_log r0) ps).igc_record_count ≤ IGC_MAX_RECORDS ∧
    (b_lines (long_track 40001)).length = 40001 ∧
    (load_igc_file parse_b geo ini_default_aircraft p (long_track 40001)).i = 40001 ∧
    IGC_MAX_RECORDS <
      (load_igc_file parse_b geo ini_default_aircraft p (long_track 40001)).i ∧
    ((load_igc_file parse_b geo ini_default_aircraft p (long_track 40001)).p
      IGC_MAX_RECORDS).fix = parse_b b_line := by
  have hb : (b_lines (long_track 40001)).length = 40001 := by
    rw [b_lines_long_track, List.length_replicate]
  obtain ⟨d1, d2⟩ := load_igc_file_dense parse_b geo ini_default_aircraft p (long_track 40001)
    (by
      rw [b_lines_long_track, List.map_replicate]
      apply chain_replicate
      left
      rw [sub_self]
      decide)
  rw [hb] at d1
  refine ⟨log_points_count_le to_double ps _ (Nat.zero_le _), hb, d1, ?_, ?_⟩
  · rw [d1]
    decide
  · rw [d1, b_lines_long_track, List.map_replicate] at d2
    have h := congrArg (fun l => l[40000]?) d2
    simp only [track_fixes, List.getElem?_map, List.getElem?_replicate] at h
    rw [List.getElem?_range (by omega), if_pos (by omega)] at h
    rw [Option.map_some'] at h
    have e : IGC_MAX_RECORDS = 40000 := rfl
    rw [e]
    exact Option.some.inj h

/-! ## Rounding to a floating-point format -/

theorem round_even_bounds (y : Rat) :
    Int.floor y ≤ round_even y ∧ round_even y ≤ Int.floor y + 1 := by
  unfold round_even
  split_ifs <;> constructor <;> omega

theorem round_even_intCast (n : Int) : round_even (n : Rat) = n := by
  unfold round_even
  simp

theorem round_even_mono {y1 y2 : Rat} (h : y1 ≤ y2) : round_even y1 ≤ round_even y2 := by
  have hf : Int.floor y1 ≤ Int.floor y2 := Int.floor_mono h
  rcases lt_or_eq_of_le hf with hlt | heq
  · have a := (round_even_bounds y1).2
    have b := (round_even_bounds y2).1
    omega
  · unfold round_even
    rw [heq]
    have hfr : y1 - Int.floor y2 ≤ y2 - Int.floor y2 := by linarith
    split_ifs <;> first | omega | (exfalso; linarith)

theorem round_even_err (y : Rat) : |(round_even y : Rat) - y| ≤ 1 / 2 := by
  have h1 : (Int.floor y : Rat) ≤ y := Int.floor_le y
  have h2 : y < Int.floor y + 1 := Int.lt_floor_add_one y
  unfold round_even
  rw [abs_le]
  split_ifs <;> push_cast <;> constructor <;> linarith

theorem two_zpow_pos (k : Int) : (0 : Rat) < 2 ^ k := zpow_pos (by norm_num) k

theorem two_zpow_le {a b : Int} (h : a ≤ b) : (2 : Rat) ^ a ≤ 2 ^ b :=
  zpow_le_zpow_right₀ (by norm_num) h

theorem log_two_spec {x : Rat} (hx : 0 < x) :
    (2 : Rat) ^ Int.log 2 x ≤ x ∧ x < 2 ^ (Int.log 2 x + 1) := by
  have h1 := Int.zpow_log_le_self (b := 2) (by norm_num) hx
  have h2 := Int.lt_zpow_succ_log_self (b := 2) (by norm_num) x
  simp only [Nat.cast_ofNat] at h1 h2
  exact ⟨h1, h2⟩

theorem log_two_lt {x : Rat} (hx : 0 < x) {k : Int} (h : x < 2 ^ k) : Int.log 2 x < k := by
  have := (Int.lt_zpow_iff_log_lt (b := 2) (by norm_num) hx (x := k)).mp (by simpa using h)
  exact this

theorem log_two_le {x : Rat} (hx : 0 < x) {k : Int} (h : 2 ^ k ≤ x) : k ≤ Int.log 2 x := by
  have := (Int.zpow_le_iff_le_log (b := 2) (by norm_num) hx (x := k)).mp (by simpa using h)
  exact this

theorem ulp_exp_neg (p : Nat) (emin : Int) (x : Rat) : ulp_exp p emin (-x) = ulp_exp p emin x := by
  unfold ulp_exp
  rw [abs_neg]

theorem ulp_exp_mono (p : Nat) (emin : Int) {x y : Rat} (hx : 0 < x) (h : x ≤ y) :
    ulp_exp p emin x ≤ ulp_exp p emin y := by
  unfold ulp_exp
  rw [abs_of_pos hx, abs_of_pos (lt_of_lt_of_le hx h)]
  have := Int.log_mono_right (b := 2) hx h
  exact max_le_max (by omega) le_rfl

theorem round_fp_neg (p : Nat) (emin : Int) (x : Rat) :
    round_fp p emin (-x) = -round_fp p emin x := by
  unfold round_fp
  rw [ulp_exp_neg]
  rcases lt_trichotomy x 0 with h | h | h
  · rw [if_pos (by linarith), if_neg (by linarith)]
    simp
  · subst h
    simp [round_even]
  · rw [if_neg (by linarith), if_pos (by linarith)]
    simp

theorem round_fp_zero (p : Nat) (emin : Int) : round_fp p emin 0 = 0 := by
  unfold round_fp
  simp [round_even]

theorem round_fp_of_nonneg (p : Nat) (emin : Int) {x : Rat} (hx : 0 ≤ x) :
    round_fp p emin x =
      round_even (x / 2 ^ ulp_exp p emin x) * 2 ^ ulp_exp p emin x := by
  unfold round_fp
  rw [if_pos hx]

theorem round_fp_nonneg (p : Nat) (emin : Int) {x : Rat} (hx : 0 ≤ x) :
    0 ≤ round_fp p emin x := by
  rw [round_fp_of_nonneg p emin hx]
  apply mul_nonneg _ (two_zpow_pos _).le
  have h1 := (round_even_bounds (x / 2 ^ ulp_exp p emin x)).1
  have h2 : 0 ≤ Int.floor (x / 2 ^ ulp_exp p emin x) :=
    Int.floor_nonneg.mpr (div_nonneg hx (two_zpow_pos _).le)
  exact_mod_cast le_trans h2 h1

/-- A multiple `n * 2^k` of a power of two not below the unit in the last
place is a value of the format. -/
theorem round_fp_exact (p : Nat) (emin : Int) (n k : Int)
    (hk : ulp_exp p emin (n * 2 ^ k) ≤ k) :
    round_fp p emin (n * 2 ^ k) = n * 2 ^ k := by
  have key : ∀ m : Int, 0 ≤ m → ulp_exp p emin (m * 2 ^ k) ≤ k →
      round_fp p emin (m * 2 ^ k) = m * 2 ^ k := by
    intro m hm hq
    have hx : (0 : Rat) ≤ m * 2 ^ k := mul_nonneg (by exact_mod_cast hm) (two_zpow_pos _).le
    rw [round_fp_of_nonneg p emin hx]
    generalize ulp_exp p emin (m * 2 ^ k) = q at hq
    obtain ⟨d, hd⟩ : ∃ d : Nat, k = q + d := ⟨(k - q).toNat, by omega⟩
    have e : (m : Rat) * 2 ^ k / 2 ^ q = ((m * 2 ^ d : Int) : Rat) := by
      rw [hd, zpow_add₀ (by norm_num : (2 : Rat) ≠ 0), zpow_natCast]
      push_cast
      field_simp
      ring
    rw [e, round_even_intCast, hd, zpow_add₀ (by norm_num : (2 : Rat) ≠ 0), zpow_natCast]
    push_cast
    ring
  rcases le_or_lt 0 n with hn | hn
  · exact key n hn hk
  · have h := key (-n) (by omega) (by
      have e : ((-n : Int) : Rat) * 2 ^ k = -(n * 2 ^ k) := by push_cast; ring
      rw [e, ulp_exp_neg]
      exact hk)
    have e : ((-n : Int) : Rat) * 2 ^ k = -(n * 2 ^ k) := by push_cast; ring
    rw [e, round_fp_neg] at h
    linarith

theorem round_fp_err (p : Nat) (emin : Int) (x : Rat) :
    |round_fp p emin x - x| ≤ 2 ^ ulp_exp p emin x / 2 := by
  have key : ∀ y : Rat, 0 ≤ y → |round_fp p emin y - y| ≤ 2 ^ ulp_exp p emin y / 2 := by
    intro y hy
    rw [round_fp_of_nonneg p emin hy]
    have hq := two_zpow_pos (ulp_exp p emin y)
    have h := round_even_err (y / 2 ^ ulp_exp p emin y)
    have e : (round_even (y / 2 ^ ulp_exp p emin y) : Rat) * 2 ^ ulp_exp p emin y - y =
        ((round_even (y / 2 ^ ulp_exp p emin y) : Rat) - y / 2 ^ ulp_exp p emin y) *
          2 ^ ulp_exp p emin y := by
      field_simp
    rw [e, abs_mul, abs_of_pos hq]
    calc _ ≤ 1 / 2 * 2 ^ ulp_exp p emin y := mul_le_mul_of_nonneg_right h hq.le
      _ = 2 ^ ulp_exp p emin y / 2 := by ring
  rcases le_or_lt 0 x with hx | hx
  · exact key x hx
  · have h := key (-x) (by linarith)
    rw [round_fp_neg, ulp_exp_neg] at h
    have e : -round_fp p emin x - -x = -(round_fp p emin x - x) := by ring
    rw [e, abs_neg] at h
    exact h

theorem round_fp_le_pow (p : Nat) (emin : Int) {x : Rat} (hx : 0 ≤ x) (k : Int)
    (hk : ulp_exp p emin x ≤ k) (h : x ≤ 2 ^ k) : round_fp p emin x ≤ 2 ^ k := by
  rw [round_fp_of_nonneg p emin hx]
  generalize ulp_exp p emin x = q at hk
  obtain ⟨d, hd⟩ : ∃ d : Nat, k = q + d := ⟨(k - q).toNat, by omega⟩
  have hq := two_zpow_pos q
  have e : (2 : Rat) ^ k = ((2 ^ d : Int) : Rat) * 2 ^ q := by
    rw [hd, zpow_add₀ (by norm_num : (2 : Rat) ≠ 0), zpow_natCast]
    push_cast
    ring
  rw [e] at h ⊢
  have h1 : x / 2 ^ q ≤ ((2 ^ d : Int) : Rat) := by
    rw [div_le_iff₀ hq]
    exact h
  have h2 := round_even_mono h1
  rw [round_even_intCast] at h2
  exact mul_le_mul_of_nonneg_right (by exact_mod_cast h2) hq.le

theorem round_fp_ge_pow (p : Nat) (emin : Int) {x : Rat} (hx : 0 ≤ x) (k : Int)
    (hk : ulp_exp p emin x ≤ k) (h : 2 ^ k ≤ x) : 2 ^ k ≤ round_fp p emin x := by
  rw [round_fp_of_nonneg p emin hx]
  generalize ulp_exp p emin x = q at hk
  obtain ⟨d, hd⟩ : ∃ d : Nat, k = q + d := ⟨(k - q).toNat, by omega⟩
  have hq := two_zpow_pos q
  have e : (2 : Rat) ^ k = ((2 ^ d : Int) : Rat) * 2 ^ q := by
    rw [hd, zpow_add₀ (by norm_num : (2 : Rat) ≠ 0), zpow_natCast]
    push_cast
    ring
  rw [e] at h ⊢
  have h1 : ((2 ^ d : Int) : Rat) ≤ x / 2 ^ q := by
    rw [le_div_iff₀ hq]
    exact h
  have h2 := round_even_mono h1
  rw [round_even_intCast] at h2
  exact mul_le_mul_of_nonneg_right (by exact_mod_cast h2) hq.le

theorem round_fp_mono_pos (p : Nat) (hp : 1 ≤ p) (emin : Int) {x y : Rat} (hx : 0 < x)
    (h : x ≤ y) : round_fp p emin x ≤ round_fp p emin y := by
  have hy : 0 < y := lt_of_lt_of_le hx h
  have hq := ulp_exp_mono p emin hx h
  rcases lt_or_eq_of_le hq with hlt | heq
  · obtain ⟨x1, x2⟩ := log_two_spec hx
    obtain ⟨y1, y2⟩ := log_two_spec hy
    have ex : ulp_exp p emin x = max (Int.log 2 x - (p - 1)) emin := by
      unfold ulp_exp
      rw [abs_of_pos hx]
    have ey : ulp_exp p emin y = max (Int.log 2 y - (p - 1)) emin := by
      unfold ulp_exp
      rw [abs_of_pos hy]
    have a1 : Int.log 2 x - (p - 1) ≤ ulp_exp p emin x := by
      rw [ex]
      exact le_max_left _ _
    have a2 : emin ≤ ulp_exp p emin x := by
      rw [ex]
      exact le_max_right _ _
    have a3 : ulp_exp p emin y = Int.log 2 y - (p - 1) := by
      rw [ey]
      apply max_eq_left
      rw [ey] at hlt
      rcases le_total (Int.log 2 y - (p - 1)) emin with c | c
      · rw [max_eq_right c] at hlt
        omega
      · exact c
    have hp1 : (1 : Int) ≤ p := by exact_mod_cast hp
    have b1 : round_fp p emin x ≤ 2 ^ Int.log 2 y := by
      apply round_fp_le_pow p emin hx.le _ (by omega)
      exact le_trans x2.le (two_zpow_le (by omega))
    have b2 : (2 : Rat) ^ Int.log 2 y ≤ round_fp p emin y :=
      round_fp_ge_pow p emin hy.le _ (by omega) y1
    exact le_trans b1 b2
  · rw [round_fp_of_nonneg p emin hx.le, round_fp_of_nonneg p emin hy.le, heq]
    have hq2 := two_zpow_pos (ulp_exp p emin y)
    have h1 : x / 2 ^ ulp_exp p emin y ≤ y / 2 ^ ulp_exp p emin y :=
      div_le_div_of_nonneg_right h hq2.le
    have h2 := round_even_mono h1
    exact mul_le_mul_of_nonneg_right (by exact_mod_cast h2) hq2.le

/-- Rounding to a floating-point format is monotone. -/
theorem round_fp_mono (p : Nat) (hp : 1 ≤ p) (emin : Int) {x y : Rat} (h : x ≤ y) :
    round_fp p emin x ≤ round_fp p emin y := by
  rcases lt_trichotomy x 0 with hx | hx | hx
  · rcases lt_trichotomy y 0 with hy | hy | hy
    · have := round_fp_mono_pos p hp emin (x := -y) (y := -x) (by linarith) (by linarith)
      rw [round_fp_neg, round_fp_neg] at this
      linarith
    · subst hy
      have := round_fp_nonneg p emin (x := -x) (by linarith)
      rw [round_fp_neg] at this
      rw [round_fp_zero]
      linarith
    · have a := round_fp_nonneg p emin (x := -x) (by linarith)
      rw [round_fp_neg] at a
      have b := round_fp_nonneg p emin hy.le
      linarith
  · subst hx
    rw [round_fp_zero]
    exact round_fp_nonneg p emin h
  · exact round_fp_mono_pos p hp emin hx h

theorem dbl_mono {x y : Rat} (h : x ≤ y) : dbl x ≤ dbl y :=
  round_fp_mono 53 (by norm_num) _ h

theorem flt_mono {x y : Rat} (h : x ≤ y) : flt x ≤ flt y :=
  round_fp_mono 24 (by norm_num) _ h

theorem dbl_neg (x : Rat) : dbl (-x) = -dbl x := round_fp_neg _ _ x

theorem flt_neg (x : Rat) : flt (-x) = -flt x := round_fp_neg _ _ x

theorem ulp_exp_le (p : Nat) (emin : Int) (x : Rat) (k : Int) (hx : x ≠ 0) (hk : emin ≤ k)
    (h : |x| < 2 ^ (k + p)) : ulp_exp p emin x ≤ k := by
  unfold ulp_exp
  apply max_le _ hk
  have := log_two_lt (abs_pos.mpr hx) h
  omega

theorem ulp_exp_eq (p : Nat) (emin : Int) (x : Rat) (k : Int) (hk : emin ≤ k)
    (hlo : 2 ^ (k + p - 1) ≤ |x|) (hhi : |x| < 2 ^ (k + p)) : ulp_exp p emin x = k := by
  have hx : 0 < |x| := lt_of_lt_of_le (two_zpow_pos _) hlo
  have h1 := log_two_lt hx hhi
  have h2 := log_two_le hx hlo
  unfold ulp_exp
  rw [max_eq_left (by omega)]
  omega

theorem round_even_eq (y : Rat) (m : Int) (h : |y - m| < 1 / 2) : round_even y = m := by
  rw [abs_lt] at h
  rcases le_or_lt (m : Rat) y with c | c
  · have hf : Int.floor y = m := by
      rw [Int.floor_eq_iff]
      constructor <;> linarith
    unfold round_even
    rw [hf, if_pos (by linarith)]
  · have hf : Int.floor y = m - 1 := by
      rw [Int.floor_eq_iff]
      push_cast
      constructor <;> linarith
    unfold round_even
    rw [hf]
    push_cast
    rw [if_neg (by linarith), if_pos (by linarith)]
    ring

/-- Evaluation of a rounding: a positive `x` in the binade of the unit `2^k`
whose quotient by `2^k` is less than a half away from the integer `m` rounds to
`m * 2^k`. -/
theorem round_fp_eval (p : Nat) (emin : Int) (x : Rat) (k m : Int) (hx : 0 ≤ x)
    (hk : emin ≤ k) (hlo : 2 ^ (k + p - 1) ≤ |x|) (hhi : |x| < 2 ^ (k + p))
    (hm : |x / 2 ^ k - m| < 1 / 2) : round_fp p emin x = m * 2 ^ k := by
  rw [round_fp_of_nonneg p emin hx, ulp_exp_eq p emin x k hk hlo hhi, round_even_eq _ m hm]

theorem round_even_tie_odd (f : Int) (hf : f % 2 = 1) :
    round_even ((f : Rat) + 1 / 2) = f + 1 := by
  have h : Int.floor ((f : Rat) + 1 / 2) = f := by
    rw [Int.floor_eq_iff]
    constructor <;> linarith
  unfold round_even
  rw [h]
  rw [if_neg (by norm_num), if_neg (by norm_num), if_neg (by omega)]

/-- Evaluation of a rounding at a tie: a positive `x` in the binade of the unit
`2^k` whose quotient by `2^k` is the odd integer `f` and a half rounds to
`(f + 1) * 2^k`. -/
theorem round_fp_eval_tie (p : Nat) (emin : Int) (x : Rat) (k f : Int) (hx : 0 ≤ x)
    (hk : emin ≤ k) (hlo : 2 ^ (k + p - 1) ≤ |x|) (hhi : |x| < 2 ^ (k + p))
    (hm : x / 2 ^ k = f + 1 / 2) (hf : f % 2 = 1) :
    round_fp p emin x = ((f + 1 : Int) : Rat) * 2 ^ k := by
  rw [round_fp_of_nonneg p emin hx, ulp_exp_eq p emin x k hk hlo hhi, hm,
    round_even_tie_odd f hf]

theorem round_fp_exact_of_lt (p : Nat) (emin : Int) (n k : Int) (hk : emin ≤ k)
    (hn : |n| < 2 ^ p) : round_fp p emin (n * 2 ^ k) = n * 2 ^ k := by
  rcases eq_or_ne n 0 with h0 | h0
  · rw [h0]
    simp [round_fp_zero]
  · apply round_fp_exact
    apply ulp_exp_le p emin _ k _ hk
    · rw [abs_mul, abs_of_pos (two_zpow_pos k), zpow_add₀ (by norm_num : (2 : Rat) ≠ 0),
        mul_comm]
      apply mul_lt_mul_of_pos_left _ (two_zpow_pos k)
      rw [zpow_natCast]
      exact_mod_cast hn
    · exact mul_ne_zero (by exact_mod_cast h0) (two_zpow_pos k).ne'

theorem round_fp_err_of_lt (p : Nat) (emin : Int) (x : Rat) (k : Int) (hk : emin ≤ k)
    (h : |x| < 2 ^ (k + p)) : |round_fp p emin x - x| ≤ 2 ^ k / 2 := by
  rcases eq_or_ne x 0 with h0 | h0
  · rw [h0, round_fp_zero]
    simp
    exact div_nonneg (two_zpow_pos k).le (by norm_num)
  · have h1 := round_fp_err p emin x
    have h2 := two_zpow_le (ulp_exp_le p emin x k h0 hk h)
    linarith

theorem dbl_exact (n k : Int) (hk : -1074 ≤ k) (hn : |n| < 2 ^ 53) :
    dbl (n * 2 ^ k) = n * 2 ^ k :=
  round_fp_exact_of_lt 53 _ n k hk hn

theorem dbl_err (x : Rat) (k : Int) (hk : -1074 ≤ k) (h : |x| < 2 ^ (k + 53)) :
    |dbl x - x| ≤ 2 ^ k / 2 :=
  round_fp_err_of_lt 53 _ x k hk (by exact_mod_cast h)

theorem flt_err (x : Rat) (k : Int) (hk : -149 ≤ k) (h : |x| < 2 ^ (k + 24)) :
    |flt x - x| ≤ 2 ^ k / 2 :=
  round_fp_err_of_lt 24 _ x k hk (by exact_mod_cast h)

theorem dbl_nonneg {x : Rat} (hx : 0 ≤ x) : 0 ≤ dbl x := round_fp_nonneg _ _ hx

theorem fmod_of_nonneg {K : Type} [LinearOrderedField K] [FloorRing K] (x y : K)
    (hx : 0 ≤ x) (hy : 0 < y) : 0 ≤ fmod x y ∧ fmod x y < y := by
  unfold fmod
  rw [if_pos (div_nonneg hx hy.le)]
  have h1 : (Int.floor (x / y) : K) ≤ x / y := Int.floor_le _
  have h2 : x / y < (Int.floor (x / y) : K) + 1 := Int.lt_floor_add_one _
  rw [le_div_iff₀ hy] at h1
  rw [div_lt_iff₀ hy] at h2
  constructor
  · linarith
  · linarith

theorem fmod_add_mul {K : Type} [LinearOrderedField K] [FloorRing K] (r y : K) (n : Nat)
    (hr0 : 0 ≤ r) (hry : r < y) : fmod (r + n * y) y = r := by
  have hy : 0 < y := lt_of_le_of_lt hr0 hry
  have e : (r + n * y) / y = r / y + (n : Int) := by
    field_simp
  unfold fmod
  rw [e, if_pos (add_nonneg (div_nonneg hr0 hy.le) (by positivity)), Int.floor_add_int]
  have hf : Int.floor (r / y) = 0 := by
    rw [Int.floor_eq_iff]
    constructor
    · simpa using div_nonneg hr0 hy.le
    · simpa using (div_lt_one hy).mpr hry
  rw [hf]
  push_cast
  ring

/-! ## Claims C15, C16: heading difference on `double` -/

theorem M_PI_double_exact : dbl M_PI_double = M_PI_double := by
  have e : M_PI_double = ((884279719003555 : Int) : Rat) * 2 ^ (-48 : Int) := by
    norm_num [M_PI_double]
  rw [e]
  exact dbl_exact _ _ (by norm_num) (by norm_num)

theorem two_M_PI_double_exact : dbl (2 * M_PI_double) = 2 * M_PI_double := by
  have e : 2 * M_PI_double = ((884279719003555 : Int) : Rat) * 2 ^ (-47 : Int) := by
    norm_num [M_PI_double]
  rw [e]
  exact dbl_exact _ _ (by norm_num) (by norm_num)

theorem heading_delta_double_eq (desired current : Rat) :
    heading_delta_double desired current = heading_wrap (dbl (desired - current)) := rfl

theorem M_PI_double_bounds : (3 : Rat) < M_PI_double ∧ M_PI_double < 4 := by
  constructor <;> norm_num [M_PI_double]

theorem heading_wrap_range (d : Rat) (hd : -(2 * M_PI_double) ≤ d) :
    -M_PI_double ≤ heading_wrap d ∧ heading_wrap d ≤ M_PI_double := by
  obtain ⟨p3, p4⟩ := M_PI_double_bounds
  have hx : 0 ≤ dbl (d + 2 * M_PI_double) := dbl_nonneg (by linarith)
  obtain ⟨f1, f2⟩ := fmod_of_nonneg (dbl (d + 2 * M_PI_double)) (2 * M_PI_double) hx
    (by linarith)
  unfold heading_wrap
  simp only [two_M_PI_double_exact]
  split_ifs with hc
  · constructor
    · have h := dbl_mono (x := -M_PI_double)
        (y := fmod (dbl (d + 2 * M_PI_double)) (2 * M_PI_double) - 2 * M_PI_double)
        (by linarith)
      rw [dbl_neg, M_PI_double_exact] at h
      exact h
    · have h := dbl_mono
        (x := fmod (dbl (d + 2 * M_PI_double)) (2 * M_PI_double) - 2 * M_PI_double) (y := 0)
        (by linarith)
      have h0 : dbl 0 = 0 := round_fp_zero _ _
      rw [h0] at h
      linarith
  · constructor
    · linarith
    · exact not_lt.mp hc

theorem dbl_diff_bounds (a : Rat) (h1 : -(2 * M_PI_double) ≤ a) (h2 : a ≤ 2 * M_PI_double) :
    -(2 * M_PI_double) ≤ dbl a ∧ dbl a ≤ 2 * M_PI_double ∧
    |dbl a - a| ≤ 2 ^ (-51 : Int) := by
  obtain ⟨p3, p4⟩ := M_PI_double_bounds
  refine ⟨?_, ?_, ?_⟩
  · have h := dbl_mono h1
    rw [dbl_neg, two_M_PI_double_exact] at h
    exact h
  · have h := dbl_mono h2
    rw [two_M_PI_double_exact] at h
    exact h
  · have h := dbl_err a (-50) (by norm_num) (by
      rw [abs_lt]
      norm_num
      constructor <;> linarith)
    have e : (2 : Rat) ^ (-50 : Int) / 2 = 2 ^ (-51 : Int) := by norm_num
    rw [e] at h
    exact h

theorem heading_wrap_congr (d : Rat) (h1 : -(2 * M_PI_double) ≤ d)
    (h2 : d ≤ 2 * M_PI_double) :
    ∃ k : Int, |heading_wrap d - (d + k * (2 * M_PI_double))| ≤
      2 ^ (-50 : Int) + 2 ^ (-52 : Int) := by
  obtain ⟨p3, p4⟩ := M_PI_double_bounds
  have hx : 0 ≤ dbl (d + 2 * M_PI_double) := dbl_nonneg (by linarith)
  obtain ⟨f1, f2⟩ := fmod_of_nonneg (dbl (d + 2 * M_PI_double)) (2 * M_PI_double) hx
    (by linarith)
  have herr := dbl_err (d + 2 * M_PI_double) (-49) (by norm_num) (by
    rw [abs_lt]
    norm_num
    constructor <;> linarith)
  obtain ⟨n, hn⟩ : ∃ n : Int, fmod (dbl (d + 2 * M_PI_double)) (2 * M_PI_double) =
      dbl (d + 2 * M_PI_double) - n * (2 * M_PI_double) := ⟨_, rfl⟩
  have e50 : (2 : Rat) ^ (-49 : Int) / 2 = 2 ^ (-50 : Int) := by norm_num
  rw [e50] at herr
  have q52 : (0 : Rat) < 2 ^ (-52 : Int) := two_zpow_pos _
  rw [abs_le] at herr
  unfold heading_wrap
  simp only [two_M_PI_double_exact]
  split_ifs with hc
  · have herr2 := dbl_err
      (fmod (dbl (d + 2 * M_PI_double)) (2 * M_PI_double) - 2 * M_PI_double) (-51)
      (by norm_num) (by
        rw [abs_lt]
        norm_num
        constructor <;> linarith)
    have e52 : (2 : Rat) ^ (-51 : Int) / 2 = 2 ^ (-52 : Int) := by norm_num
    rw [e52, abs_le] at herr2
    refine ⟨-n, ?_⟩
    rw [abs_le]
    push_cast
    rw [hn] at herr2 ⊢
    constructor <;> linarith
  · refine ⟨1 - n, ?_⟩
    rw [abs_le, hn]
    push_cast
    constructor <;> linarith

theorem fmod_of_abs_lt {K : Type} [LinearOrderedField K] [FloorRing K] (x y : K)
    (h : |x| < y) : fmod x y = x := by
  have hy : 0 < y := lt_of_le_of_lt (abs_nonneg x) h
  rw [abs_lt] at h
  unfold fmod
  have h1 : -1 < x / y := by
    rw [lt_div_iff₀ hy]
    linarith
  have h2 : x / y < 1 := by
    rw [div_lt_iff₀ hy]
    linarith
  split_ifs with hc
  · have : Int.floor (x / y) = 0 := by
      rw [Int.floor_eq_iff]
      constructor
      · simpa using hc
      · simpa using h2
    rw [this]
    simp
  · have : Int.ceil (x / y) = 0 := by
      rw [Int.ceil_eq_iff]
      constructor
      · simpa using h1
      · simpa using (not_le.mp hc).le
    rw [this]
    simp

theorem heading_delta_double_3_02 :
    dbl double_0_2 = double_0_2 ∧
    heading_delta_double 3 double_0_2 = 788129934789837 / 281474976710656 ∧
    heading_delta_double double_0_2 3 = -(3152519739159347 / 1125899906842624) := by
  have hc : dbl double_0_2 = double_0_2 := by
    have e : double_0_2 = ((3602879701896397 : Int) : Rat) * 2 ^ (-54 : Int) := by
      norm_num [double_0_2]
    rw [e]
    exact dbl_exact _ _ (by norm_num) (by norm_num)
  have hd : dbl (3 - double_0_2) = 3152519739159347 / 1125899906842624 := by
    have h := round_fp_eval 53 (-1074) (3 - double_0_2) (-51) 6305039478318694
      (by norm_num [double_0_2]) (by norm_num)
      (by norm_num [double_0_2, abs_of_pos])
      (by norm_num [double_0_2, abs_of_pos])
      (by
        rw [abs_lt]
        norm_num [double_0_2])
    unfold dbl
    rw [h]
    norm_num
  have hd2 : dbl (double_0_2 - 3) = -(3152519739159347 / 1125899906842624) := by
    have e : double_0_2 - 3 = -(3 - double_0_2) := by ring
    rw [e, dbl_neg, hd]
  have hx : dbl (3152519739159347 / 1125899906842624 + 2 * M_PI_double) =
      2556689372796947 / 281474976710656 := by
    have h := round_fp_eval_tie 53 (-1074)
      (3152519739159347 / 1125899906842624 + 2 * M_PI_double) (-49) 5113378745593893
      (by norm_num [M_PI_double]) (by norm_num)
      (by norm_num [M_PI_double, abs_of_pos])
      (by norm_num [M_PI_double, abs_of_pos])
      (by norm_num [M_PI_double]) (by norm_num)
    unfold dbl
    rw [h]
    norm_num
  have hx2 : dbl (-(3152519739159347 / 1125899906842624) + 2 * M_PI_double) =
      3921718012869093 / 1125899906842624 := by
    have e : -(3152519739159347 / 1125899906842624) + 2 * M_PI_double =
        ((3921718012869093 : Int) : Rat) * 2 ^ (-50 : Int) := by
      norm_num [M_PI_double]
    rw [e, dbl_exact _ _ (by norm_num) (by norm_num)]
    norm_num
  have hr : dbl (3921718012869093 / 1125899906842624 - 2 * M_PI_double) =
      -(3152519739159347 / 1125899906842624) := by
    have e : (3921718012869093 / 1125899906842624 - 2 * M_PI_double : Rat) =
        ((-3152519739159347 : Int) : Rat) * 2 ^ (-50 : Int) := by
      norm_num [M_PI_double]
    rw [e, dbl_exact _ _ (by norm_num) (by norm_num)]
    norm_num
  have hf1 : fmod (2556689372796947 / 281474976710656 : Rat) (2 * M_PI_double) =
      788129934789837 / 281474976710656 := by
    have h := fmod_add_mul (788129934789837 / 281474976710656 : Rat) (2 * M_PI_double) 1
      (by norm_num) (by norm_num [M_PI_double])
    have e : (788129934789837 / 281474976710656 : Rat) + ((1 : Nat) : Rat) * (2 * M_PI_double) =
        2556689372796947 / 281474976710656 := by
      norm_num [M_PI_double]
    rw [e] at h
    exact h
  have hf2 : fmod (3921718012869093 / 1125899906842624 : Rat) (2 * M_PI_double) =
      3921718012869093 / 1125899906842624 :=
    fmod_of_abs_lt _ _ (by
      rw [abs_lt]
      norm_num [M_PI_double])
  refine ⟨hc, ?_, ?_⟩
  · rw [heading_delta_double_eq, hd]
    unfold heading_wrap
    simp only [two_M_PI_double_exact]
    rw [hx, hf1, if_neg (by norm_num [M_PI_double])]
  · rw [heading_delta_double_eq, hd2]
    unfold heading_wrap
    simp only [two_M_PI_double_exact]
    rw [hx2, hf2, if_pos (by norm_num [M_PI_double]), hr]

theorem heading_wrap_near (d : Rat) (h1 : -M_PI_double + 2 ^ (-49 : Int) ≤ d)
    (h2 : d ≤ M_PI_double - 2 ^ (-49 : Int)) :
    |heading_wrap d - d| ≤ 2 ^ (-50 : Int) + 2 ^ (-52 : Int) := by
  obtain ⟨p3, p4⟩ := M_PI_double_bounds
  have e49 : (2 : Rat) ^ (-49 : Int) = 1 / 562949953421312 := by norm_num
  have e50 : (2 : Rat) ^ (-50 : Int) = 1 / 1125899906842624 := by norm_num
  have e52 : (2 : Rat) ^ (-52 : Int) = 1 / 4503599627370496 := by norm_num
  rw [e49] at h1 h2
  obtain ⟨r1, r2⟩ := heading_wrap_range d (by linarith)
  obtain ⟨k, hk⟩ := heading_wrap_congr d (by linarith) (by linarith)
  rw [e50, e52, abs_le] at hk
  have hk0 : k = 0 := by
    have a1 : (k : Rat) < 1 := by
      by_contra hh
      have : (1 : Rat) ≤ k := not_lt.mp hh
      nlinarith
    have a2 : (-1 : Rat) < k := by
      by_contra hh
      have : (k : Rat) ≤ -1 := not_lt.mp hh
      nlinarith
    have b1 : k < 1 := by exact_mod_cast a1
    have b2 : -1 < k := by exact_mod_cast a2
    omega
  rw [hk0] at hk
  rw [e50, e52, abs_le]
  push_cast at hk
  constructor <;> linarith

theorem heading_wrap_high (d : Rat) (h1 : M_PI_double + 2 ^ (-49 : Int) ≤ d)
    (h2 : d ≤ 2 * M_PI_double) :
    |heading_wrap d - (d - 2 * M_PI_double)| ≤ 2 ^ (-50 : Int) + 2 ^ (-52 : Int) := by
  obtain ⟨p3, p4⟩ := M_PI_double_bounds
  have e49 : (2 : Rat) ^ (-49 : Int) = 1 / 562949953421312 := by norm_num
  have e50 : (2 : Rat) ^ (-50 : Int) = 1 / 1125899906842624 := by norm_num
  have e52 : (2 : Rat) ^ (-52 : Int) = 1 / 4503599627370496 := by norm_num
  rw [e49] at h1
  obtain ⟨r1, r2⟩ := heading_wrap_range d (by linarith)
  obtain ⟨k, hk⟩ := heading_wrap_congr d (by linarith) (by linarith)
  rw [e50, e52, abs_le] at hk
  have hk0 : k = -1 := by
    have a1 : (k : Rat) < 0 := by
      by_contra hh
      have : (0 : Rat) ≤ k := not_lt.mp hh
      nlinarith
    have a2 : (-2 : Rat) < k := by
      by_contra hh
      have : (k : Rat) ≤ -2 := not_lt.mp hh
      nlinarith
    have b1 : k < 0 := by exact_mod_cast a1
    have b2 : -2 < k := by exact_mod_cast a2
    omega
  rw [hk0] at hk
  rw [e50, e52, abs_le]
  push_cast at hk
  constructor <;> linarith

theorem heading_wrap_low (d : Rat) (h1 : -(2 * M_PI_double) ≤ d)
    (h2 : d ≤ -M_PI_double - 2 ^ (-49 : Int)) :
    |heading_wrap d - (d + 2 * M_PI_double)| ≤ 2 ^ (-50 : Int) + 2 ^ (-52 : Int) := by
  obtain ⟨p3, p4⟩ := M_PI_double_bounds
  have e49 : (2 : Rat) ^ (-49 : Int) = 1 / 562949953421312 := by norm_num
  have e50 : (2 : Rat) ^ (-50 : Int) = 1 / 1125899906842624 := by norm_num
  have e52 : (2 : Rat) ^ (-52 : Int) = 1 / 4503599627370496 := by norm_num
  rw [e49] at h2
  obtain ⟨r1, r2⟩ := heading_wrap_range d (by linarith)
  obtain ⟨k, hk⟩ := heading_wrap_congr d (by linarith) (by linarith)
  rw [e50, e52, abs_le] at hk
  have hk0 : k = 1 := by
    have a1 : (k : Rat) < 2 := by
      by_contra hh
      have : (2 : Rat) ≤ k := not_lt.mp hh
      nlinarith
    have a2 : (0 : Rat) < k := by
      by_contra hh
      have : (k : Rat) ≤ 0 := not_lt.mp hh
      nlinarith
    have b1 : k < 2 := by exact_mod_cast a1
    have b2 : 0 < k := by exact_mod_cast a2
    omega
  rw [hk0] at hk
  rw [e50, e52, abs_le]
  push_cast at hk
  constructor <;> linarith

theorem heading_wrap_antisymm_nonneg (d : Rat) (h0 : 0 ≤ d) (h2 : d ≤ 2 * M_PI_double)
    (h3 : 2 ^ (-49 : Int) ≤ |d - M_PI_double|) :
    |heading_wrap d + heading_wrap (-d)| ≤ 2 ^ (-48 : Int) := by
  obtain ⟨p3, p4⟩ := M_PI_double_bounds
  have e48 : (2 : Rat) ^ (-48 : Int) = 1 / 281474976710656 := by norm_num
  have e49 : (2 : Rat) ^ (-49 : Int) = 1 / 562949953421312 := by norm_num
  have e50 : (2 : Rat) ^ (-50 : Int) = 1 / 1125899906842624 := by norm_num
  have e52 : (2 : Rat) ^ (-52 : Int) = 1 / 4503599627370496 := by norm_num
  rcases le_or_lt d M_PI_double with hc | hc
  · rw [abs_of_nonpos (by linarith)] at h3
    have a := heading_wrap_near d (by rw [e49]; linarith) (by linarith)
    have b := heading_wrap_near (-d) (by linarith) (by rw [e49]; linarith)
    rw [e50, e52, abs_le] at a b
    rw [e48, abs_le]
    constructor <;> linarith
  · rw [abs_of_pos (by linarith)] at h3
    have a := heading_wrap_high d (by linarith) h2
    have b := heading_wrap_low (-d) (by linarith) (by linarith)
    rw [e50, e52, abs_le] at a b
    rw [e48, abs_le]
    constructor <;> linarith

/-- C16, as amended, on the `double` arithmetic of the source: for all
headings `a` and `b` with `-2*M_PI ≤ a - b ≤ 2*M_PI` that are not opposite up
to rounding (`|a - b|` is at least `2^-48` away from `M_PI`),
`heading_delta(a, b)` is `-heading_delta(b, a)` up to a rounding error of at
most `2^-48`. -/
theorem heading_delta_antisymm (a b : Rat) (h1 : -(2 * M_PI_double) ≤ a - b)
    (h2 : a - b ≤ 2 * M_PI_double) (h3 : 2 ^ (-48 : Int) ≤ |(|a - b| - M_PI_double)|) :
    |heading_delta_double a b + heading_delta_double b a| ≤ 2 ^ (-48 : Int) := by
  obtain ⟨b1, b2, b3⟩ := dbl_diff_bounds (a - b) h1 h2
  have e48 : (2 : Rat) ^ (-48 : Int) = 1 / 281474976710656 := by norm_num
  have e49 : (2 : Rat) ^ (-49 : Int) = 1 / 562949953421312 := by norm_num
  have e51 : (2 : Rat) ^ (-51 : Int) = 1 / 2251799813685248 := by norm_num
  have hba : dbl (b - a) = -dbl (a - b) := by
    have e : b - a = -(a - b) := by ring
    rw [e, dbl_neg]
  rw [heading_delta_double_eq, heading_delta_double_eq, hba]
  have hm : 2 ^ (-49 : Int) ≤ |(|dbl (a - b)| - M_PI_double)| := by
    have t1 : |(|dbl (a - b)| - |a - b|)| ≤ |dbl (a - b) - (a - b)| :=
      abs_abs_sub_abs_le_abs_sub _ _
    have t2 : |(|a - b| - M_PI_double)| ≤
        |(|dbl (a - b)| - M_PI_double)| + |(|dbl (a - b)| - |a - b|)| := by
      have e : |a - b| - M_PI_double =
          (|dbl (a - b)| - M_PI_double) - (|dbl (a - b)| - |a - b|) := by ring
      rw [e]
      exact abs_sub _ _
    rw [e48] at h3
    rw [e51] at b3
    rw [e49]
    linarith
  rcases le_or_lt 0 (dbl (a - b)) with hs | hs
  · rw [abs_of_nonneg hs] at hm
    exact heading_wrap_antisymm_nonneg _ hs b2 hm
  · rw [abs_of_neg hs] at hm
    have h := heading_wrap_antisymm_nonneg (-dbl (a - b)) (by linarith) (by linarith) hm
    rw [neg_neg, add_comm] at h
    exact h

/-- Witness for C16 as amended: the headings 1 and 0. -/
theorem heading_delta_antisymm_witness :
    (-(2 * M_PI_double) ≤ (1 : Rat) - 0 ∧ (1 : Rat) - 0 ≤ 2 * M_PI_double ∧
      2 ^ (-48 : Int) ≤ |(|(1 : Rat) - 0| - M_PI_double)|) ∧
    |heading_delta_double 1 0 + heading_delta_double 0 1| ≤ 2 ^ (-48 : Int) := by
  have h1 : -(2 * M_PI_double) ≤ (1 : Rat) - 0 := by norm_num [M_PI_double]
  have h2 : (1 : Rat) - 0 ≤ 2 * M_PI_double := by norm_num [M_PI_double]
  have h3 : 2 ^ (-48 : Int) ≤ |(|(1 : Rat) - 0| - M_PI_double)| := by
    have e : |(1 : Rat) - 0| - M_PI_double = -(M_PI_double - 1) := by norm_num
    rw [e, abs_neg, abs_of_pos (by norm_num [M_PI_double])]
    norm_num [M_PI_double]
  exact ⟨⟨h1, h2, h3⟩, heading_delta_antisymm 1 0 h1 h2 h3⟩

/-- Counterexample to C16 as stated, on the `double` arithmetic of the source.
For the opposite headings `M_PI` and 0 both `heading_delta(M_PI, 0)` and
`heading_delta(0, M_PI)` are `M_PI`. For the headings 3 and the `double` 0.2,
`heading_delta(3, 0.2)` is 2.8000000000000007 and `heading_delta(0.2, 3)` is
-2.8 (`-3152519739159347 / 2^50`): their sum is `2^-50`, not 0. -/
theorem heading_delta_opposite :
    heading_delta_double M_PI_double 0 = M_PI_double ∧
    heading_delta_double 0 M_PI_double = M_PI_double ∧
    heading_delta_double M_PI_double 0 ≠ -heading_delta_double 0 M_PI_double ∧
    heading_delta_double 3 double_0_2 = 788129934789837 / 281474976710656 ∧
    heading_delta_double double_0_2 3 = -(3152519739159347 / 1125899906842624) ∧
    heading_delta_double 3 double_0_2 + heading_delta_double double_0_2 3 =
      1 / 1125899906842624 ∧
    heading_delta_double 3 double_0_2 ≠ -heading_delta_double double_0_2 3 := by
  obtain ⟨_, hv1, hv2⟩ := heading_delta_double_3_02
  obtain ⟨p3, p4⟩ := M_PI_double_bounds
  have h3P : dbl (M_PI_double + 2 * M_PI_double) = 3 * M_PI_double := by
    have e : M_PI_double + 2 * M_PI_double = ((2652839157010665 : Int) : Rat) * 2 ^ (-48 : Int) := by
      norm_num [M_PI_double]
    rw [e, dbl_exact _ _ (by norm_num) (by norm_num)]
    norm_num [M_PI_double]
  have hf1 : fmod (3 * M_PI_double) (2 * M_PI_double) = M_PI_double := by
    have h := fmod_add_mul M_PI_double (2 * M_PI_double) 1 (by linarith) (by linarith)
    have e : M_PI_double + ((1 : Nat) : Rat) * (2 * M_PI_double) = 3 * M_PI_double := by
      push_cast
      ring
    rw [e] at h
    exact h
  have hf2 : fmod M_PI_double (2 * M_PI_double) = M_PI_double :=
    fmod_of_abs_lt _ _ (by
      rw [abs_of_pos (by linarith)]
      linarith)
  have a1 : heading_delta_double M_PI_double 0 = M_PI_double := by
    rw [heading_delta_double_eq, sub_zero, M_PI_double_exact]
    unfold heading_wrap
    simp only [two_M_PI_double_exact]
    rw [h3P, hf1, if_neg (lt_irrefl _)]
  have a2 : heading_delta_double 0 M_PI_double = M_PI_double := by
    rw [heading_delta_double_eq, zero_sub, dbl_neg, M_PI_double_exact]
    unfold heading_wrap
    simp only [two_M_PI_double_exact]
    have e : -M_PI_double + 2 * M_PI_double = M_PI_double := by ring
    rw [e, M_PI_double_exact, hf2, if_neg (lt_irrefl _)]
  have hs : heading_delta_double 3 double_0_2 + heading_delta_double double_0_2 3 =
      1 / 1125899906842624 := by
    rw [hv1, hv2]
    norm_num
  refine ⟨a1, a2, ?_, hv1, hv2, hs, ?_⟩
  · rw [a1, a2]
    intro h
    linarith
  · intro h
    rw [h] at hs
    norm_num at hs

/-! ## Claims C19, C20: the tick of `update_ai` -/

/-- C19: in a tick of `update_ai` whose scan finds a fix (the actor is not
removed), if the clock is more than `AI_WARP_TIME` = 30 s past the time of the
fix at the actor's cursor as it stood before the tick, the tick makes exactly
two calls: the absolute reposition to the fix at the index found, then the
forward-rate command with rate 0; it makes none of the heading, altitude, bank
and pitch rate commands, it stores the index found as the new cursor, and the
actor stays as it was, created and not removed. -/
theorem update_ai_warp {D : Type}
    (predict : Rat → ReplayPoint D → ReplayPoint D → AIStruct D → D → ReplayPoint D)
    (rates : AIStruct D → ReplayPoint D → SlewRates)
    (ai_index : Nat) (pos : AIStruct D) (s : AIState D)
    (hfound : (tick_scan s ai_index).2 = true)
    (hwarp : s.zulu_clock -
      (s.replay ai_index (s.ai_info ai_index).next_logpoint).zulu_time > 30) :
    (update_ai predict rates ai_index pos s).calls = s.calls ++
      [SimCall.SetData_AI_MOVE (s.ai_info ai_index).id
        (move_data (s.replay ai_index (tick_scan s ai_index).1)),
       SimCall.TransmitClientEvent (s.ai_info ai_index).id
         AI_EVENT.EVENT_AXIS_SLEW_AHEAD_SET 0] ∧
    ((update_ai predict rates ai_index pos s).ai_info ai_index).next_logpoint =
      (tick_scan s ai_index).1 ∧
    ((update_ai predict rates ai_index pos s).ai_info ai_index).created =
      (s.ai_info ai_index).created ∧
    ((update_ai predict rates ai_index pos s).ai_info ai_index).removed =
      (s.ai_info ai_index).removed := by
  have hw : s.zulu_clock -
      (s.replay ai_index (s.ai_info ai_index).next_logpoint).zulu_time > AI_WARP_TIME := hwarp
  unfold tick_scan at hfound
  unfold update_ai tick_scan move_data
  simp only [hfound, not_true_eq_false, if_false, if_pos hw]
  simp [move_ai, AIState.call, AIState.set_info]

/-- Witness for C19: a track of twelve fixes at times 100, 105, ..., 155, the
cursor at fix 1 (time 105), the clock at 140, which is 35 s past the cursor
fix; the tick repositions the actor to fix 8 (time 140), sends forward rate 0
and nothing else, and stores 8 as the cursor. -/
theorem update_ai_warp_witness :
    tick_scan (sample_replay 12 1 140) 0 = (8, true) ∧
    ((sample_replay 12 1 140).replay 0 1).zulu_time = 105 ∧
    (140 : Rat) - 105 = 35 ∧
    (update_ai sample_predict sample_rates 0 sample_pos (sample_replay 12 1 140)).calls =
      [SimCall.SetData_AI_MOVE 7 (move_data (sample_point 140)),
       SimCall.TransmitClientEvent 7 AI_EVENT.EVENT_AXIS_SLEW_AHEAD_SET 0] ∧
    ((update_ai sample_predict sample_rates 0 sample_pos (sample_replay 12 1 140)).ai_info
      0).next_logpoint = 8 := by
  have h := update_ai_warp sample_predict sample_rates 0 sample_pos (sample_replay 12 1 140)
    (by decide!) (by decide!)
  have hs : tick_scan (sample_replay 12 1 140) 0 = (8, true) := by decide!
  refine ⟨hs, by decide!, by norm_num, ?_, ?_⟩
  · rw [h.1, hs]
    rfl
  · rw [h.2.1, hs]

/-- C20, at the failing inputs. On the track of five fixes at times 100, 105,
110, 115, 120 with the clock at 118, the fix at index 4 (time 120) is at or
after the clock and the clock is not past the last fix, yet the tick of
`update_ai` finds no fix and removes the actor: the scan stops at index
`logpoint_count - 2`. On the track of twelve fixes at times 100, 105, ..., 155
with the clock at 50, the first fix at or after the clock is fix 0, yet the
tick sets the cursor to 1: the scan starts at index 1. -/
theorem update_ai_scan_bounds :
    ((sample_replay 5 3 118).replay 0 4).zulu_time = 120 ∧
    tick_scan (sample_replay 5 3 118) 0 = (3, false) ∧
    (update_ai sample_predict sample_rates 0 sample_pos (sample_replay 5 3 118)).calls =
      [SimCall.AIRemoveObject 7 (REQUEST_AI_REMOVE + 0)] ∧
    ((update_ai sample_predict sample_rates 0 sample_pos (sample_replay 5 3 118)).ai_info
      0).created = false ∧
    ((update_ai sample_predict sample_rates 0 sample_pos (sample_replay 5 3 118)).ai_info
      0).removed = true ∧
    ((sample_replay 12 0 50).replay 0 0).zulu_time = 100 ∧
    tick_scan (sample_replay 12 0 50) 0 = (1, true) ∧
    ((update_ai sample_predict sample_rates 0 sample_pos (sample_replay 12 0 50)).ai_info
      0).next_logpoint = 1 := by
  refine ⟨by decide!, by decide!, by decide!, by decide!, by decide!, by decide!, by decide!,
    by decide!⟩

/-! ## Claims C17, C18: the retry of failed creations -/

theorem retry_ai_body_eligible {D : Type} (ini : List Char) (s : AIState D) (k : Nat)
    (h : eligible s k = true) :
    retry_ai_body ini s k =
      { s with
        ai_created_or_failed := s.ai_created_or_failed - 1
        ai_info := Function.update s.ai_info k
          { s.ai_info k with title := clean_string ini, default_tried := true }
        calls := s.calls ++ [retry_request ini s k] } := by
  simp only [eligible, Bool.and_eq_true, Bool.not_eq_true', ] at h
  obtain ⟨⟨h1, h2⟩, h3⟩ := h
  simp [retry_ai_body, create_ai, AIState.call, AIState.set_info, h1, h2, h3, retry_request]

theorem retry_ai_body_not_eligible {D : Type} (ini : List Char) (s : AIState D) (k : Nat)
    (h : eligible s k = false) : retry_ai_body ini s k = s := by
  unfold retry_ai_body
  rw [if_neg]
  intro hc
  have : eligible s k = true := by
    simp only [eligible, Bool.and_eq_true, Bool.not_eq_true']
    simpa [and_assoc] using hc
  rw [h] at this
  cases this

theorem retry_loop_spec {D : Type} (ini : List Char) (l : List Nat) (hl : l.Nodup)
    (s : AIState D) :
    (l.foldl (retry_ai_body ini) s).calls =
      s.calls ++ (l.filter (eligible s)).map (retry_request ini s) ∧
    (l.foldl (retry_ai_body ini) s).ai_retry_count = s.ai_retry_count ∧
    (l.foldl (retry_ai_body ini) s).ai_count = s.ai_count ∧
    (l.foldl (retry_ai_body ini) s).replay = s.replay ∧
    (l.foldl (retry_ai_body ini) s).ai_failed = s.ai_failed ∧
    (l.foldl (retry_ai_body ini) s).ai_created_or_failed =
      s.ai_created_or_failed - ((l.filter (eligible s)).length : Int) ∧
    ∀ j, (l.foldl (retry_ai_body ini) s).ai_info j =
      if j ∈ l ∧ eligible s j = true then
        { s.ai_info j with title := clean_string ini, default_tried := true }
      else s.ai_info j := by
  induction l generalizing s with
  | nil => simp
  | cons k l ih =>
    have hk : k ∉ l := (List.nodup_cons.mp hl).1
    obtain ⟨i1, i2, i3, i4, i5, i6, i7⟩ := ih (List.nodup_cons.mp hl).2 (retry_ai_body ini s k)
    simp only [List.foldl_cons]
    by_cases he : eligible s k = true
    · have hs := retry_ai_body_eligible ini s k he
      have hel : ∀ j ∈ l, eligible (retry_ai_body ini s k) j = eligible s j := by
        intro j hj
        have hjk : j ≠ k := fun h => hk (h ▸ hj)
        rw [hs]
        simp only [eligible]
        rw [Function.update_noteq hjk]
      have hf : l.filter (eligible (retry_ai_body ini s k)) = l.filter (eligible s) :=
        List.filter_congr hel
      have hrq : ∀ j, retry_request ini (retry_ai_body ini s k) j = retry_request ini s j := by
        intro j
        rw [hs]
        rfl
      rw [i1, i2, i3, i4, i5, i6, hf, List.filter_cons_of_pos he]
      refine ⟨?_, ?_, ?_, ?_, ?_, ?_, ?_⟩
      · rw [hs]
        simp only [List.map_cons, List.append_assoc, List.singleton_append]
        congr 2
      · rw [hs]
      · rw [hs]
      · rw [hs]
      · rw [hs]
      · rw [hs]
        simp only [List.length_cons]
        push_cast
        ring
      · intro j
        rw [i7 j]
        by_cases hjk : j = k
        · subst hjk
          rw [if_neg (fun h => hk h.1), if_pos ⟨List.mem_cons_self _ _, he⟩, hs]
          simp only [Function.update_same]
        · have e1 : (retry_ai_body ini s k).ai_info j = s.ai_info j := by
            rw [hs]
            simp only []
            rw [Function.update_noteq hjk]
          have e2 : eligible (retry_ai_body ini s k) j = eligible s j := by
            simp only [eligible, e1]
          rw [e1, e2]
          simp only [List.mem_cons, hjk, false_or]
    · have he2 : eligible s k = false := by simpa using he
      have hs := retry_ai_body_not_eligible ini s k he2
      rw [hs] at i1 i2 i3 i4 i5 i6 i7
      rw [hs, i1, i2, i3, i4, i5, i6, List.filter_cons_of_neg he]
      refine ⟨rfl, rfl, rfl, rfl, rfl, rfl, ?_⟩
      intro j
      rw [i7 j]
      by_cases hjk : j = k
      · subst hjk
        rw [if_neg (fun h => hk h.1), if_neg (fun h => he h.2)]
      · simp only [List.mem_cons, hjk, false_or]

theorem retry_passes_requests {D : Type} (ini : List Char) (s : AIState D) (l : List Nat) :
    retry_passes (l.map (retry_request ini s)) = 0 := by
  unfold retry_passes
  rw [List.countP_eq_zero]
  intro c hc
  obtain ⟨k, _, rfl⟩ := List.mem_map.mp hc
  simp [retry_request, is_retry_pass]

theorem retry_passes_append {D : Type} (a b : List (SimCall D)) :
    retry_passes (a ++ b) = retry_passes a + retry_passes b := by
  simp [retry_passes]

theorem retry_bound_incr {D : Type} (ini : List Char) (p0 : Nat) (s : AIState D)
    (h : retry_bound p0 s) : retry_bound p0 (incr_ai_created_or_failed ini s) := by
  unfold incr_ai_created_or_failed
  by_cases hc : s.ai_created_or_failed + 1 = s.ai_count ∧ s.ai_failed = true
  · rw [if_pos hc]
    rcases h with ⟨h1, h2, h3⟩ | ⟨h1, h2, h3⟩
    · unfold retry_ai
      by_cases hr : s.ai_retry_count = MAX_AI_RETRIES
      · rw [if_pos hr]
        right
        have e : MAX_AI_RETRIES = 2 := rfl
        rw [e] at hr
        simp only []
        refine ⟨by omega, by omega, by omega⟩
      · rw [if_neg hr]
        obtain ⟨l1, l2, _, _, _, _, _⟩ := retry_loop_spec ini (List.range s.ai_count)
          (List.nodup_range _)
          ({ s with ai_created_or_failed := s.ai_created_or_failed + 1,
                    ai_retry_count := s.ai_retry_count + 1 }.call
            (SimCall.retrying_ai_creates s.ai_count))
        left
        have e : MAX_AI_RETRIES = 2 := rfl
        rw [e] at hr
        rw [l1, l2, retry_passes_append, retry_passes_requests]
        simp only [AIState.call, retry_passes_append]
        have : retry_passes [SimCall.retrying_ai_creates (D := D) s.ai_count] = 1 := rfl
        rw [this]
        push_cast
        refine ⟨by omega, by omega, by omega⟩
    · exfalso
      omega
  · rw [if_neg hc]
    rcases h with ⟨h1, h2, h3⟩ | ⟨h1, h2, h3⟩
    · left
      exact ⟨h1, h2, h3⟩
    · right
      simp only []
      exact ⟨h1, h2, by omega⟩

theorem retry_bound_dispatch {D : Type} (ini : List Char) (p0 : Nat) (s : AIState D)
    (e : Notification) (h : retry_bound p0 s) : retry_bound p0 (dispatch ini s e) := by
  cases e with
  | assigned_object_id req oid =>
    simp only [dispatch, on_assigned_object_id]
    split_ifs with hc
    · apply retry_bound_incr
      simpa [retry_bound, get_ai_pos_updates, AIState.call, init_ai, ai_set_slew,
        AIState.set_info, retry_passes, is_retry_pass] using h
    · exact h
  | create_object_failed =>
    simp only [dispatch, on_create_object_failed]
    apply retry_bound_incr
    exact h
  | object_removed oid =>
    simp only [dispatch, on_object_removed]
    split
    · exact h
    · exact h

theorem retry_bound_run {D : Type} (ini : List Char) (p0 : Nat) (evs : List Notification)
    (s : AIState D) (h : retry_bound p0 s) : retry_bound p0 (run ini s evs) := by
  induction evs generalizing s with
  | nil => exact h
  | cons e evs ih => exact ih _ (retry_bound_dispatch ini p0 s e h)

/-- C18: for every finite sequence of creation-success, creation-failure and
object-removed notifications dispatched from a state in which `ai_retry_count`
is zero (as `reset_ai` leaves it), the loop of `retry_ai` that re-issues create
requests is run at most 2 times: the trace gains at most two marks of a retry
pass. -/
theorem retry_passes_le_two {D : Type} (ini_default_aircraft : List Char) (s : AIState D)
    (evs : List Notification) (h0 : s.ai_retry_count = 0) :
    retry_passes (run ini_default_aircraft s evs).calls ≤ retry_passes s.calls + 2 := by
  have h := retry_bound_run ini_default_aircraft (retry_passes s.calls) evs s (by
    left
    rw [h0]
    exact ⟨le_refl _, by norm_num, by simp⟩)
  rcases h with ⟨h1, h2, h3⟩ | ⟨_, h2, _⟩
  · omega
  · omega

/-- Witness for C18: two actors; the first is created with object id 11, a
failure is reported (first retry pass, for the second actor), the object 11 is
removed, a failure is reported (second retry pass, for the first actor), and
two more failures are reported: `retry_ai` is entered three times,
`ai_retry_count` ends at 3, and two retry passes have been run. -/
theorem retry_passes_le_two_witness :
    (sample_fresh 2).ai_retry_count = 0 ∧
    (run "DG808S".toList (sample_fresh 2)
      [Notification.assigned_object_id REQUEST_AI_CREATE 11, Notification.create_object_failed,
        Notification.object_removed 11, Notification.create_object_failed,
        Notification.create_object_failed, Notification.create_object_failed]).ai_retry_count
      = 3 ∧
    retry_passes (run "DG808S".toList (sample_fresh 2)
      [Notification.assigned_object_id REQUEST_AI_CREATE 11, Notification.create_object_failed,
        Notification.object_removed 11, Notification.create_object_failed,
        Notification.create_object_failed, Notification.create_object_failed]).calls = 2 ∧
    retry_passes (run "DG808S".toList (sample_fresh 2)
      [Notification.assigned_object_id REQUEST_AI_CREATE 11, Notification.create_object_failed,
        Notification.object_removed 11, Notification.create_object_failed,
        Notification.create_object_failed, Notification.create_object_failed]).calls ≤
      retry_passes (sample_fresh 2).calls + 2 :=
  ⟨rfl, by decide!, by decide!,
    retry_passes_le_two "DG808S".toList (sample_fresh 2) _ rfl⟩

theorem successes_cons (e : Notification) (evs : List Notification) :
    successes (e :: evs) = successes [e] ++ successes evs := by
  cases e <;> rfl

theorem successes_append (a b : List Notification) :
    successes (a ++ b) = successes a ++ successes b := by
  induction a with
  | nil => rfl
  | cons e a ih =>
    rw [List.cons_append, successes_cons, ih, successes_cons e a, List.append_assoc]

theorem reported_before_incr {D : Type} (ini : List Char) (s0 s : AIState D)
    (created : List Nat) (m : Int) (failed : Bool) (e : Notification)
    (hmax : s0.ai_count ≤ MAX_AI) (he : is_report s0.ai_count e = true)
    (h : reported s0 s created m failed) :
    ∃ s1, dispatch ini s e = incr_ai_created_or_failed ini s1 ∧
      reported s0 s1 (created ++ successes [e]) m
        (failed || decide (e = Notification.create_object_failed)) := by
  obtain ⟨h1, h2, h3, h4, h5, h6, h7⟩ := h
  cases e with
  | assigned_object_id req oid =>
    simp only [is_report, decide_eq_true_eq] at he
    have hc : REQUEST_AI_CREATE ≤ req ∧ req < REQUEST_AI_CREATE + MAX_AI := ⟨he.1, by omega⟩
    simp only [dispatch, on_assigned_object_id, if_pos hc, successes]
    generalize req - REQUEST_AI_CREATE = r
    refine ⟨_, rfl, ?_⟩
    refine ⟨h1, h2, by simpa using h3, h4, h5, ?_, ?_⟩
    · simp [get_ai_pos_updates, AIState.call, init_ai, ai_set_slew, AIState.set_info,
        List.filter_append, h6, is_create]
    · intro k hk
      obtain ⟨a1, a2, a3⟩ := h7 k hk
      simp only [get_ai_pos_updates, AIState.call, init_ai, ai_set_slew, AIState.set_info,
        List.mem_append, List.mem_singleton]
      by_cases hkr : k = r
      · rw [hkr] at a2 a3 ⊢
        simp [a2, a3]
      · simp [Function.update_noteq hkr, a1, a2, a3, hkr]
  | create_object_failed =>
    simp only [dispatch, on_create_object_failed]
    refine ⟨_, rfl, ?_⟩
    refine ⟨h1, h2, by simp, h4, h5, h6, ?_⟩
    intro k hk
    simpa [successes] using h7 k hk
  | object_removed oid =>
    simp [is_report] at he

theorem incr_quiet {D : Type} (ini : List Char) (s : AIState D)
    (h : s.ai_created_or_failed + 1 ≠ s.ai_count) :
    incr_ai_created_or_failed ini s =
      { s with ai_created_or_failed := s.ai_created_or_failed + 1 } := by
  unfold incr_ai_created_or_failed
  rw [if_neg (fun hc => h hc.1)]

theorem reported_step {D : Type} (ini : List Char) (s0 s : AIState D)
    (created : List Nat) (m : Int) (failed : Bool) (e : Notification)
    (hmax : s0.ai_count ≤ MAX_AI) (he : is_report s0.ai_count e = true)
    (hm : m + 1 ≠ s0.ai_count) (h : reported s0 s created m failed) :
    reported s0 (dispatch ini s e) (created ++ successes [e]) (m + 1)
      (failed || decide (e = Notification.create_object_failed)) := by
  obtain ⟨s1, e1, h1, h2, h3, h4, h5, h6, h7⟩ :=
    reported_before_incr ini s0 s created m failed e hmax he h
  rw [e1, incr_quiet ini s1 (by rw [h1, h2]; exact hm)]
  exact ⟨h1, by simp only [h2], h3, h4, h5, h6, h7⟩

theorem reported_run {D : Type} (ini : List Char) (s0 : AIState D) (evs : List Notification)
    (s : AIState D) (created : List Nat) (m : Nat) (failed : Bool)
    (hmax : s0.ai_count ≤ MAX_AI) (he : ∀ e ∈ evs, is_report s0.ai_count e = true)
    (hm : m + evs.length < s0.ai_count) (h : reported s0 s created m failed) :
    reported s0 (run ini s evs) (created ++ successes evs) ((m + evs.length : Nat) : Int)
      (failed || decide (Notification.create_object_failed ∈ evs)) := by
  induction evs generalizing s created m failed with
  | nil => simpa [run, successes] using h
  | cons e evs ih =>
    simp only [List.length_cons] at hm
    have hs := reported_step ini s0 s created m failed e hmax (he e (List.mem_cons_self _ _))
      (by omega) h
    have := ih (dispatch ini s e) (created ++ successes [e]) (m + 1)
      (failed || decide (e = Notification.create_object_failed))
      (fun x hx => he x (List.mem_cons_of_mem _ hx)) (by omega) (by exact_mod_cast hs)
    rw [successes_cons, ← List.append_assoc]
    have e1 : m + (e :: evs).length = m + 1 + evs.length := by
      simp only [List.length_cons]
      omega
    rw [e1]
    have e2 : (failed || decide (Notification.create_object_failed ∈ e :: evs)) =
        (failed || decide (e = Notification.create_object_failed) ||
          decide (Notification.create_object_failed ∈ evs)) := by
      by_cases q1 : e = Notification.create_object_failed
      · simp [q1]
      · have q2 : ¬ Notification.create_object_failed = e := fun hh => q1 hh.symm
        simp [q1, q2]
    rw [e2]
    exact this

theorem reported_last {D : Type} (ini : List Char) (s0 s : AIState D)
    (created : List Nat) (m : Int) (failed : Bool) (e : Notification)
    (hmax : s0.ai_count ≤ MAX_AI) (he : is_report s0.ai_count e = true)
    (hm : m + 1 = s0.ai_count)
    (hf : (failed || decide (e = Notification.create_object_failed)) = true)
    (h : reported s0 s created m failed) :
    (dispatch ini s e).calls.filter is_create =
      ((List.range s0.ai_count).filter fun k => decide (k ∉ created ++ successes [e])).map
        (retry_request ini s0) ∧
    (dispatch ini s e).ai_retry_count = 1 := by
  obtain ⟨s1, e1, h1, h2, h3, h4, h5, h6, h7⟩ :=
    reported_before_incr ini s0 s created m failed e hmax he h
  rw [hf] at h3
  have hc : s1.ai_created_or_failed + 1 = s1.ai_count ∧ s1.ai_failed = true := by
    rw [h1, h2]
    exact ⟨hm, h3⟩
  have hr : ¬ (s1.ai_retry_count = MAX_AI_RETRIES) := by
    rw [h4]
    decide
  rw [e1]
  unfold incr_ai_created_or_failed
  rw [if_pos hc]
  unfold retry_ai
  simp only []
  rw [if_neg hr]
  obtain ⟨l1, l2, _, _, _, _, _⟩ := retry_loop_spec ini (List.range s1.ai_count)
    (List.nodup_range _)
    ({ s1 with ai_created_or_failed := s1.ai_created_or_failed + 1,
               ai_retry_count := s1.ai_retry_count + 1 }.call
      (SimCall.retrying_ai_creates s1.ai_count))
  rw [l1, l2]
  refine ⟨?_, by simp only [AIState.call, h4]; rfl⟩
  have hel : ∀ k ∈ List.range s1.ai_count,
      eligible ({ s1 with ai_created_or_failed := s1.ai_created_or_failed + 1,
                          ai_retry_count := s1.ai_retry_count + 1 }.call
        (SimCall.retrying_ai_creates s1.ai_count)) k =
      decide (k ∉ created ++ successes [e]) := by
    intro k hk
    rw [List.mem_range, h1] at hk
    obtain ⟨a1, a2, a3⟩ := h7 k hk
    simp only [eligible, AIState.call, a1, a2, a3]
    simp
  rw [List.filter_congr hel, h1]
  simp only [AIState.call, List.filter_append, h6, List.nil_append]
  have hmark : List.filter is_create [SimCall.retrying_ai_creates (D := D) s0.ai_count] = [] :=
    rfl
  rw [hmark, List.nil_append]
  have hreq : ∀ k, retry_request ini
      { s1 with ai_created_or_failed := s1.ai_created_or_failed + 1,
                ai_retry_count := s1.ai_retry_count + 1,
                calls := s1.calls ++ [SimCall.retrying_ai_creates s0.ai_count] } k =
      retry_request ini s0 k := by
    intro k
    simp only [retry_request, h5]
  rw [List.filter_eq_self.mpr]
  · apply List.map_congr_left
    intro k _
    exact hreq k
  · intro c hc
    obtain ⟨k, _, rfl⟩ := List.mem_map.mp hc
    rfl

/-- C17: from a state as `reset_ai` and the loading leave it, with
`n = ai_count` actors, `1 ≤ n ≤ MAX_AI`, let `n` reports arrive, each a
creation success of one of the actors or a creation failure, at least one of
them a failure. Then no create request is issued before the last report; on
the last report exactly one create request is issued for each actor that has
not been reported as created, in index order, none for a created actor, each
with the cleaned default aircraft as title; and afterwards
`ai_retry_count = 1`. -/
theorem retry_after_all_reports {D : Type} (ini_default_aircraft : List Char)
    (s0 : AIState D) (evs : List Notification)
    (hfresh : fresh s0) (hn : 1 ≤ s0.ai_count) (hmax : s0.ai_count ≤ MAX_AI)
    (hlen : evs.length = s0.ai_count)
    (hrep : ∀ e ∈ evs, is_report s0.ai_count e = true)
    (hfail : Notification.create_object_failed ∈ evs) :
    (∀ m, m < evs.length →
      (run ini_default_aircraft s0 (evs.take m)).calls.filter is_create = []) ∧
    (run ini_default_aircraft s0 evs).calls.filter is_create =
      ((List.range s0.ai_count).filter fun k => decide (k ∉ successes evs)).map
        (retry_request ini_default_aircraft s0) ∧
    (run ini_default_aircraft s0 evs).ai_retry_count = 1 := by
  obtain ⟨f1, f2, f3, f4, f5⟩ := hfresh
  have hstart : reported s0 s0 [] ((0 : Nat) : Int) false :=
    ⟨rfl, by simpa using f1, f2, f3, rfl, by rw [f4]; rfl, fun k hk => by
      obtain ⟨a1, a2, a3⟩ := f5 k hk
      exact ⟨by simpa using a1, a2, a3⟩⟩
  refine ⟨?_, ?_⟩
  · intro m hm
    have := reported_run ini_default_aircraft s0 (evs.take m) s0 [] 0 false hmax
      (fun e he => hrep e (List.mem_of_mem_take he)) (by
        rw [List.length_take]
        omega) hstart
    exact this.2.2.2.2.2.1
  · have hne : evs ≠ [] := by
      intro h
      rw [h] at hlen
      simp at hlen
      omega
    have hsplit := List.dropLast_append_getLast hne
    have hlen2 : evs.dropLast.length + 1 = s0.ai_count := by
      rw [List.length_dropLast]
      omega
    have hmid := reported_run ini_default_aircraft s0 evs.dropLast s0 [] 0 false hmax
      (fun e he => hrep e (List.mem_of_mem_dropLast he)) (by omega) hstart
    have hlast := reported_last ini_default_aircraft s0
      (run ini_default_aircraft s0 evs.dropLast) ([] ++ successes evs.dropLast)
      ((0 + evs.dropLast.length : Nat) : Int)
      (false || decide (Notification.create_object_failed ∈ evs.dropLast))
      (evs.getLast hne) hmax (hrep _ (List.getLast_mem hne)) (by
        push_cast
        omega) (by
        rw [← hsplit] at hfail
        rcases List.mem_append.mp hfail with q | q
        · simp [q]
        · rw [List.mem_singleton] at q
          simp [← q]) hmid
    have hrun : run ini_default_aircraft s0 evs =
        dispatch ini_default_aircraft (run ini_default_aircraft s0 evs.dropLast)
          (evs.getLast hne) := by
      conv_lhs => rw [← hsplit]
      simp only [run, List.foldl_append, List.foldl_cons, List.foldl_nil]
    have hsucc : [] ++ successes evs.dropLast ++ successes [evs.getLast hne] =
        successes evs := by
      conv_rhs => rw [← hsplit]
      rw [successes_append, List.nil_append]
    rw [hrun]
    rw [hsucc] at hlast
    exact hlast

/-- Witness for C17: three actors; actor 0 reports success, a failure is
reported, actor 2 reports success. Before the last report no create request is
issued; on the last report one create request is issued, for actor 1, with the
default aircraft `DG808S` as title; `ai_retry_count` ends at 1. -/
theorem retry_after_all_reports_witness :
    (run "DG808S".toList (sample_fresh 3)
      [Notification.assigned_object_id REQUEST_AI_CREATE 11,
        Notification.create_object_failed,
        Notification.assigned_object_id (REQUEST_AI_CREATE + 2) 12]).calls.filter is_create =
      [SimCall.AICreateSimulatedObject "DG808S".toList (sample_point 100)
        (REQUEST_AI_CREATE + 1)] ∧
    ((∀ m, m < 3 →
      (run "DG808S".toList (sample_fresh 3)
        ([Notification.assigned_object_id REQUEST_AI_CREATE 11,
          Notification.create_object_failed,
          Notification.assigned_object_id (REQUEST_AI_CREATE + 2) 12].take m)).calls.filter
        is_create = []) ∧
    (run "DG808S".toList (sample_fresh 3)
      [Notification.assigned_object_id REQUEST_AI_CREATE 11,
        Notification.create_object_failed,
        Notification.assigned_object_id (REQUEST_AI_CREATE + 2) 12]).calls.filter is_create =
      ((List.range 3).filter fun k => decide (k ∉ successes
        [Notification.assigned_object_id REQUEST_AI_CREATE 11,
          Notification.create_object_failed,
          Notification.assigned_object_id (REQUEST_AI_CREATE + 2) 12])).map
        (retry_request "DG808S".toList (sample_fresh 3)) ∧
    (run "DG808S".toList (sample_fresh 3)
      [Notification.assigned_object_id REQUEST_AI_CREATE 11,
        Notification.create_object_failed,
        Notification.assigned_object_id (REQUEST_AI_CREATE + 2) 12]).ai_retry_count = 1) :=
  ⟨by decide!,
    retry_after_all_reports "DG808S".toList (sample_fresh 3)
      [Notification.assigned_object_id REQUEST_AI_CREATE 11,
        Notification.create_object_failed,
        Notification.assigned_object_id (REQUEST_AI_CREATE + 2) 12]
      ⟨rfl, rfl, rfl, rfl, fun _ _ => ⟨rfl, rfl, rfl⟩⟩ (by decide) (by decide) rfl
      (by decide!) (by decide!)⟩

/-! ## Claim C30: gap filling keeps the order of time -/

theorem gap_fill_loop_stable {D : Type}
    (geo : ReplayPoint D → ReplayPoint D → ReplayPoint D → ReplayPoint D → Int → ReplayPoint D)
    (fuel : Nat) (p : Nat → ReplayPoint D) (i : Nat) (hi : 2 ≤ i)
    (hf : (p (i - 1)).zulu_time - (p (i - 2)).zulu_time ≤ fuel) :
    gap_fill_loop geo (fuel + 1) (p, i) = gap_fill_loop geo fuel (p, i) := by
  induction fuel generalizing p i with
  | zero =>
    have hc : ¬ ((p (i - 1)).zulu_time - (p (i - 2)).zulu_time > IGC_DELTA_MAX) := by
      simp only [IGC_DELTA_MAX]
      simp only [Nat.cast_zero] at hf
      omega
    simp only [gap_fill_loop, if_neg hc]
  | succ fuel ih =>
    by_cases hc : (p (i - 1)).zulu_time - (p (i - 2)).zulu_time > IGC_DELTA_MAX
    · rw [gap_fill_loop, if_pos hc]
      conv_rhs => rw [gap_fill_loop, if_pos hc]
      simp only []
      apply ih _ (i + 1) (by omega)
      have e1 : i + 1 - 1 = i := by omega
      have e2 : i + 1 - 2 = i - 1 := by omega
      rw [e1, e2, Function.update_same, Function.update_noteq (by omega), Function.update_same,
        Function.update_noteq (by omega)]
      simp only [interp, IGC_INTERP_TIMESTEP]
      simp only [IGC_DELTA_MAX] at hc
      push_cast at hf
      omega
    · rw [gap_fill_loop, if_neg hc]
      conv_rhs => rw [gap_fill_loop, if_neg hc]

theorem gap_fill_loop_enough {D : Type}
    (geo : ReplayPoint D → ReplayPoint D → ReplayPoint D → ReplayPoint D → Int → ReplayPoint D)
    (p : Nat → ReplayPoint D) (i : Nat) (hi : 2 ≤ i) (fuel : Nat)
    (hf : ((p (i - 1)).zulu_time - (p (i - 2)).zulu_time).toNat ≤ fuel) :
    gap_fill_loop geo fuel (p, i) =
      gap_fill_loop geo ((p (i - 1)).zulu_time - (p (i - 2)).zulu_time).toNat (p, i) := by
  induction fuel with
  | zero =>
    have : ((p (i - 1)).zulu_time - (p (i - 2)).zulu_time).toNat = 0 := by omega
    rw [this]
  | succ fuel ih =>
    by_cases h : ((p (i - 1)).zulu_time - (p (i - 2)).zulu_time).toNat ≤ fuel
    · rw [gap_fill_loop_stable geo fuel p i hi (by omega), ih h]
    · have : ((p (i - 1)).zulu_time - (p (i - 2)).zulu_time).toNat = fuel + 1 := by omega
      rw [this]

/-- C30: for every input file whose position records have strictly increasing
times, the track that `load_igc_file` produces has strictly increasing times;
where four consecutive records `p0`, `p1`, `p2`, `p3` have a gap
`p2.time - p1.time` of at most 12 s, the synthetic fixes stand between `p1`
and `p2` in the track and each has a time strictly between the times of `p1`
and `p2`; and the gap-filling loop terminates: run on any array with the
counter above 2, it stops because its condition fails, with the same result for
every number of allowed passes from the length of the gap in seconds on. -/
theorem load_igc_file_order {D : Type} (parse_b : List Char → BFix D)
    (geo : ReplayPoint D → ReplayPoint D → ReplayPoint D → ReplayPoint D → Int → ReplayPoint D)
    (ini_default_aircraft : List Char) (p : Nat → ReplayPoint D) (file : List Char)
    (hfile : List.Chain' later_fix ((b_lines file).map parse_b)) :
    increasing_track (load_igc_file parse_b geo ini_default_aircraft p file).p
      (load_igc_file parse_b geo ini_default_aircraft p file).i ∧
    (∀ (pre post : List (BFix D)) (p0 p1 p2 p3 : BFix D),
      (b_lines file).map parse_b = pre ++ p0 :: p1 :: p2 :: p3 :: post →
      p2.zulu_time - p1.zulu_time ≤ 12 →
      ∃ j,
        ((load_igc_file parse_b geo ini_default_aircraft p file).p j).fix = p1 ∧
        ((load_igc_file parse_b geo ini_default_aircraft p file).p
          (j + gap_fill_count (p2.zulu_time - p1.zulu_time) + 1)).fix = p2 ∧
        ∀ k, 1 ≤ k → k ≤ gap_fill_count (p2.zulu_time - p1.zulu_time) →
          p1.zulu_time <
            ((load_igc_file parse_b geo ini_default_aircraft p file).p (j + k)).zulu_time ∧
          ((load_igc_file parse_b geo ini_default_aircraft p file).p (j + k)).zulu_time <
            p2.zulu_time) ∧
    (∀ (q : Nat → ReplayPoint D) (i fuel : Nat), 2 < i →
      ((q (i - 1)).zulu_time - (q (i - 2)).zulu_time).toNat ≤ fuel →
      gap_fill_loop geo fuel (q, i) =
        gap_fill_loop geo ((q (i - 1)).zulu_time - (q (i - 2)).zulu_time).toNat (q, i) ∧
      ¬ (((gap_fill_loop geo fuel (q, i)).1 ((gap_fill_loop geo fuel (q, i)).2 - 1)).zulu_time -
          ((gap_fill_loop geo fuel (q, i)).1 ((gap_fill_loop geo fuel (q, i)).2 - 2)).zulu_time
        > IGC_DELTA_MAX)) := by
  have heq := load_igc_file_eq parse_b geo ini_default_aircraft p file
  have hp := congrArg Prod.fst heq
  have hi := congrArg Prod.snd heq
  simp only at hp hi
  refine ⟨?_, ?_, ?_⟩
  · rw [hp, hi]
    exact load_points_increasing geo _ p 0 (fun j hj => by omega) (fun _ _ h => by omega) hfile
  · intro pre post p0 p1 p2 p3 hsplit h12
    obtain ⟨j, j1, j2, j3, _, _⟩ := load_points_fills_gap geo (p, 0) pre post p0 p1 p2 p3 h12
    rw [← hsplit, ← hp] at j1 j2 j3
    refine ⟨j, j1, j3, ?_⟩
    intro k hk1 hk2
    rw [j2 k hk2]
    have h5 : 5 < p2.zulu_time - p1.zulu_time := by
      by_contra hh
      rw [gap_fill_count_le _ (by omega)] at hk2
      omega
    obtain ⟨_, _, c3⟩ := gap_fill_count_ceil _ h5
    constructor
    · omega
    · have : (k : Int) ≤ gap_fill_count (p2.zulu_time - p1.zulu_time) := by exact_mod_cast hk2
      omega
  · intro q i fuel hi2 hf
    have e := gap_fill_loop_enough geo q i (by omega) fuel hf
    refine ⟨e, ?_⟩
    rw [e]
    obtain ⟨r1, _, _, _, _, r6⟩ := gap_fill_loop_spec geo
      ((q (i - 1)).zulu_time - (q (i - 2)).zulu_time).toNat q i (by omega)
      (Int.self_le_toNat _)
    rw [r1]
    have a1 : i + gap_fill_count ((q (i - 1)).zulu_time - (q (i - 2)).zulu_time) - 1 =
        i - 1 + gap_fill_count ((q (i - 1)).zulu_time - (q (i - 2)).zulu_time) := by omega
    have a2 : i + gap_fill_count ((q (i - 1)).zulu_time - (q (i - 2)).zulu_time) - 2 =
        i - 2 + gap_fill_count ((q (i - 1)).zulu_time - (q (i - 2)).zulu_time) := by omega
    rw [a1, a2]
    simp only [IGC_DELTA_MAX]
    omega

/-- Witness for C30: the sample track has the record times 990, 1000, 1010,
1014; the fixes at 1003 and 1006 are put between the records at 1000 and 1010,
and the loaded track has the times 990, 1000, 1003, 1006, 1010, 1014. -/
theorem load_igc_file_order_witness :
    track_times (load_igc_file sample_parse sample_geo [] sample_array sample_track).p
      (load_igc_file sample_parse sample_geo [] sample_array sample_track).i =
        [990, 1000, 1003, 1006, 1010, 1014] ∧
    gap_fill_loop sample_geo 10
      ((load_points sample_geo (sample_array, 0)
        [⟨(), (), (), 990⟩, ⟨(), (), (), 1000⟩, ⟨(), (), (), 1010⟩]).1, 3) =
    gap_fill_loop sample_geo 100
      ((load_points sample_geo (sample_array, 0)
        [⟨(), (), (), 990⟩, ⟨(), (), (), 1000⟩, ⟨(), (), (), 1010⟩]).1, 3) ∧
    increasing_track (load_igc_file sample_parse sample_geo [] sample_array sample_track).p
      (load_igc_file sample_parse sample_geo [] sample_array sample_track).i := by
  have h := load_igc_file_order sample_parse sample_geo [] sample_array sample_track (by
    have e : (b_lines sample_track).map sample_parse =
        [⟨(), (), (), 990⟩, ⟨(), (), (), 1000⟩, ⟨(), (), (), 1010⟩, ⟨(), (), (), 1014⟩] := by
      decide!
    rw [e]
    simp [later_fix])
  refine ⟨by decide!, ?_, h.1⟩
  have h3 := (h.2.2 (load_points sample_geo (sample_array, 0)
    [⟨(), (), (), 990⟩, ⟨(), (), (), 1000⟩, ⟨(), (), (), 1010⟩]).1 3 100 (by decide)
    (by decide!)).1
  have h4 := (h.2.2 (load_points sample_geo (sample_array, 0)
    [⟨(), (), (), 990⟩, ⟨(), (), (), 1000⟩, ⟨(), (), (), 1010⟩]).1 3 10 (by decide)
    (by decide!)).1
  rw [h3, h4]

/-! ## Claim C28: what follows the 'G' record -/

theorem fgets_take_prefix_eq (k : Nat) (P rest : List Char) (h : P.getLast? = some '\n') :
    fgets_take k (P ++ rest) = ((fgets_take k P).1, (fgets_take k P).2 ++ rest) := by
  induction k generalizing P with
  | zero => simp [fgets_take]
  | succ k ih =>
    cases P with
    | nil => simp at h
    | cons c P =>
      by_cases hc : c = '\n'
      · simp [fgets_take, hc]
      · have hP : P.getLast? = some '\n' := by
          cases P with
          | nil =>
            simp only [List.getLast?_singleton, Option.some.injEq] at h
            exact absurd h hc
          | cons d P => simpa [List.getLast?_cons_cons] using h
        have e := ih P hP
        rw [List.cons_append, fgets_take_cons k c (P ++ rest) hc, fgets_take_cons k c P hc, e]

theorem fgets_take_rest_last (k : Nat) (P : List Char) (h : P.getLast? = some '\n')
    (hr : (fgets_take k P).2 ≠ []) : (fgets_take k P).2.getLast? = some '\n' := by
  have ha := fgets_take_append k P
  have : P.getLast? = (fgets_take k P).2.getLast? := by
    conv_lhs => rw [← ha]
    rw [List.getLast?_append_of_ne_nil _ hr]
  rw [← this]
  exact h

theorem read_lines_prefix_aux (n : Nat) (P rest : List Char) (hn : P.length ≤ n)
    (h : P = [] ∨ P.getLast? = some '\n') :
    read_lines (P ++ rest) = read_lines P ++ read_lines rest := by
  induction n generalizing P with
  | zero =>
    have : P = [] := List.length_eq_zero.mp (by omega)
    subst this
    simp [read_lines_nil]
  | succ n ih =>
    rcases h with h | h
    · subst h
      simp [read_lines_nil]
    · have hne : P ≠ [] := by
        intro h0
        subst h0
        simp at h
      have hlt := fgets_take_rest_length (MAXBUF - 2) P hne
      have hM : MAXBUF - 2 + 1 = MAXBUF - 1 := by decide
      rw [hM] at hlt
      rw [read_lines_cons (P ++ rest) (by simp [hne]), read_lines_cons P hne,
        fgets_take_prefix_eq _ P rest h]
      simp only [List.cons_append]
      congr 1
      apply ih _ (by omega)
      by_cases hr : (fgets_take (MAXBUF - 1) P).2 = []
      · exact Or.inl hr
      · exact Or.inr (fgets_take_rest_last _ P h hr)

theorem read_lines_prefix_eq (P rest : List Char) (h : P.getLast? = some '\n') :
    read_lines (P ++ rest) = read_lines P ++ read_lines rest :=
  read_lines_prefix_aux P.length P rest (le_refl _) (Or.inr h)

theorem igc_scan_stops (st : ChksumData) (buf : List Char) (A M : List (List Char))
    (h : ∃ l ∈ A, l.head? = some 'G') : igc_scan st buf (A ++ M) = igc_scan st buf A := by
  induction A generalizing st buf with
  | nil =>
    obtain ⟨l, hl, _⟩ := h
    cases hl
  | cons a A ih =>
    by_cases ha : a.head? = some 'G'
    · simp only [List.cons_append, igc_scan, if_pos ha]
    · simp only [List.cons_append, igc_scan, if_neg ha]
      apply ih
      obtain ⟨l, hl, hg⟩ := h
      rcases List.mem_cons.mp hl with e | e
      · subst e
        exact absurd hg ha
      · exact ⟨l, e, hg⟩

/-- C28: let `P` be the part of a track file up to and including a line that
begins with 'G' (so `P` ends with a line feed and one of its lines begins with
'G'). Two files that begin with `P` get the same result from `chksum_igc_file`,
whatever follows; if the file `P` alone verifies, the file with anything
appended verifies; and `load_igc_file` loads the position records of what
follows as well as those of `P`. -/
theorem chksum_igc_file_ignores_rest {D : Type} (parse_b : List Char → BFix D)
    (geo : ReplayPoint D → ReplayPoint D → ReplayPoint D → ReplayPoint D → Int → ReplayPoint D)
    (ini_default_aircraft : List Char) (p : Nat → ReplayPoint D)
    (P r1 r2 : List Char) (hend : P.getLast? = some '\n')
    (hG : ∃ l ∈ read_lines P, l.head? = some 'G') :
    chksum_igc_file (some (P ++ r1)) = chksum_igc_file (some (P ++ r2)) ∧
    (chksum_igc_file (some P) = CHKSUM_OK → chksum_igc_file (some (P ++ r1)) = CHKSUM_OK) ∧
    b_lines (P ++ r1) = b_lines P ++ b_lines r1 ∧
    ((load_igc_file parse_b geo ini_default_aircraft p (P ++ r1)).p,
      (load_igc_file parse_b geo ini_default_aircraft p (P ++ r1)).i) =
      load_points geo (p, 0) ((b_lines P ++ b_lines r1).map parse_b) := by
  have hscan : ∀ r, igc_scan chksum_reset [] (read_lines (P ++ r)) =
      igc_scan chksum_reset [] (read_lines P) := by
    intro r
    rw [read_lines_prefix_eq P r hend, igc_scan_stops _ _ _ _ hG]
  have hres : ∀ r, chksum_igc_file (some (P ++ r)) = chksum_igc_file (some P) := by
    intro r
    simp only [chksum_igc_file, hscan r]
  have hb : b_lines (P ++ r1) = b_lines P ++ b_lines r1 := by
    simp only [b_lines, read_lines_prefix_eq P r1 hend, List.filter_append]
  refine ⟨by rw [hres r1, hres r2], fun h => by rw [hres r1, h], hb, ?_⟩
  rw [load_igc_file_eq, hb]

/-- Witness for C28: the sample file ends with its 'G' record and verifies;
with two position records appended it still verifies, and the loader reads
three position records from it. -/
theorem chksum_igc_file_ignores_rest_witness :
    chksum_igc_file (some signed_track) = CHKSUM_OK ∧
    (b_lines (signed_track ++ appended_records)).length = 3 ∧
    (chksum_igc_file (some (signed_track ++ appended_records)) =
        chksum_igc_file (some (signed_track ++ [])) ∧
      (chksum_igc_file (some signed_track) = CHKSUM_OK →
        chksum_igc_file (some (signed_track ++ appended_records)) = CHKSUM_OK) ∧
      b_lines (signed_track ++ appended_records) =
        b_lines signed_track ++ b_lines appended_records ∧
      ((load_igc_file sample_parse sample_geo [] sample_array
          (signed_track ++ appended_records)).p,
        (load_igc_file sample_parse sample_geo [] sample_array
          (signed_track ++ appended_records)).i) =
        load_points sample_geo (sample_array, 0)
          ((b_lines signed_track ++ b_lines appended_records).map sample_parse)) :=
  ⟨by decide!, by decide!,
    chksum_igc_file_ignores_rest sample_parse sample_geo [] sample_array signed_track
      appended_records [] (by decide!) (by decide!)⟩

/-! ## Claims C24, C25: the header records of a track file -/

/-- C25, at the failing input of the claim: with the key `HFGTYGLIDERTYPE:`,
the record `HFGTYGLIDERTYPE: DG808S` and the previous output `XXXX`,
`get_igc_record` leaves `XDG808S` in the output, not `DG808S`: the copy loop
writes at the index that counted the leading space, so the first character of
the previous content stays; with the previous output `YYYY` the result is
`YDG808S`, so it depends on the previous content. -/
theorem get_igc_record_keeps_old_prefix :
    (get_igc_record "XXXX".toList "HFGTYGLIDERTYPE: DG808S".toList
      "HFGTYGLIDERTYPE:".toList).1 = true ∧
    c_str (get_igc_record "XXXX".toList "HFGTYGLIDERTYPE: DG808S".toList
      "HFGTYGLIDERTYPE:".toList).2 = "XDG808S".toList ∧
    c_str (get_igc_record "YYYY".toList "HFGTYGLIDERTYPE: DG808S".toList
      "HFGTYGLIDERTYPE:".toList).2 = "YDG808S".toList ∧
    c_str (get_igc_record "XXXX".toList "HFGTYGLIDERTYPE:DG808S".toList
      "HFGTYGLIDERTYPE:".toList).2 = "DG808S".toList := by
  refine ⟨by decide!, by decide!, by decide!, by decide!⟩

theorem get_igc_record_fst (out_s rec key : List Char) :
    (get_igc_record out_s rec key).1 = key_matches rec key := by
  unfold get_igc_record key_matches
  simp only []
  by_cases h : ((c_str rec).take key.length).map c_tolower = key.map c_tolower
  · rw [if_pos h]
    have : (((c_str rec).take key.length).map c_tolower == key.map c_tolower) = true := by
      simpa using h
    rw [this]
    split_ifs <;> rfl
  · rw [if_neg h]
    have : (((c_str rec).take key.length).map c_tolower == key.map c_tolower) = false := by
      simpa using h
    rw [this]

theorem get_igc_record_no_match (out_s rec key : List Char) (h : key_matches rec key = false) :
    (get_igc_record out_s rec key).2 = out_s := by
  unfold key_matches at h
  have h2 : ¬ (((c_str rec).take key.length).map c_tolower = key.map c_tolower) := by
    simpa using h
  unfold get_igc_record
  simp only []
  rw [if_neg h2]

theorem buf_set_mid (front tail : List Char) (ch : Char) :
    buf_set (front ++ tail) front.length ch = front ++ ch :: tail.drop 1 := by
  unfold buf_set
  cases tail with
  | nil =>
    have e : front.length + 1 - (front ++ []).length = 1 := by simp
    rw [e]
    simp
  | cons t ts =>
    have e : front.length + 1 - (front ++ t :: ts).length = 0 := by
      simp only [List.length_append, List.length_cons]
      omega
    rw [e]
    simp

theorem buf_write_mid (run front tail : List Char) :
    buf_write (front ++ tail) front.length run = front ++ run ++ tail.drop run.length := by
  induction run generalizing front tail with
  | nil => simp [buf_write]
  | cons c run ih =>
    rw [buf_write, buf_set_mid]
    have e : front ++ c :: tail.drop 1 = (front ++ [c]) ++ tail.drop 1 := by simp
    have e2 : front.length + 1 = (front ++ [c]).length := by simp
    rw [e, e2, ih]
    simp [Nat.add_comm]

theorem c_str_buf_write (out_s run : List Char) (h : ∀ c ∈ run, c ≠ '\x00') :
    c_str (buf_write out_s 0 (run ++ ['\x00'])) = run := by
  have e := buf_write_mid (run ++ ['\x00']) [] out_s
  simp only [List.nil_append, List.length_nil] at e
  rw [e]
  unfold c_str
  rw [List.append_assoc, List.takeWhile_append_of_pos (by
    intro c hc
    simpa using h c hc)]
  simp

theorem load_line_atc_id {D : Type} (parse_b : List Char → BFix D)
    (geo : ReplayPoint D → ReplayPoint D → ReplayPoint D → ReplayPoint D → Int → ReplayPoint D)
    (st : LoadState D) (l : List Char) :
    (load_line parse_b geo st l).atc_id =
      if key_matches l title_key = true then st.atc_id
      else match first_id_key l with
        | some k => (get_igc_record st.atc_id l k).2
        | none => st.atc_id := by
  unfold load_line first_id_key id_keys title_key
  simp only [get_igc_record_fst, List.find?_cons, List.find?_nil]
  generalize key_matches l "HFGTYGLIDERTYPE:".toList = b0
  generalize key_matches l "HFCIDCOMPETITIONID:".toList = b1
  generalize key_matches l "HFGIDGLIDERID:".toList = b2
  generalize key_matches l "LCU::HPGIDGLIDERID:".toList = b3
  generalize key_matches l "LCU::HPCIDCOMPETITIONID:".toList = b4
  generalize key_matches l "HFCID Competition ID    :".toList = b5
  cases b0
  · cases b1
    · cases b2
      · cases b3
        · cases b4
          · cases b5
            · simp only [Bool.false_eq_true, if_false]
              split_ifs <;> rfl
            · rfl
          · rfl
        · rfl
      · rfl
    · rfl
  · rfl

theorem load_line_not_id {D : Type} (parse_b : List Char → BFix D)
    (geo : ReplayPoint D → ReplayPoint D → ReplayPoint D → ReplayPoint D → Int → ReplayPoint D)
    (st : LoadState D) (l : List Char) (h : is_id_line l = false) :
    (load_line parse_b geo st l).atc_id = st.atc_id := by
  rw [load_line_atc_id]
  by_cases h0 : key_matches l title_key = true
  · rw [if_pos h0]
  · rw [if_neg h0]
    have h1 : key_matches l title_key = false := by simpa using h0
    simp only [is_id_line, h1, Bool.not_false, Bool.true_and] at h
    cases hk : first_id_key l with
    | none => rfl
    | some k =>
      rw [hk] at h
      simp at h

theorem load_lines_not_id {D : Type} (parse_b : List Char → BFix D)
    (geo : ReplayPoint D → ReplayPoint D → ReplayPoint D → ReplayPoint D → Int → ReplayPoint D)
    (post : List (List Char)) (st : LoadState D) (h : ∀ l ∈ post, is_id_line l = false) :
    (post.foldl (load_line parse_b geo) st).atc_id = st.atc_id := by
  induction post generalizing st with
  | nil => rfl
  | cons l post ih =>
    rw [List.foldl_cons, ih _ (fun x hx => h x (List.mem_cons_of_mem _ hx)),
      load_line_not_id parse_b geo st l (h l (List.mem_cons_self _ _))]

theorem get_igc_record_value (out_s rec key : List Char) (c : Char)
    (hm : key_matches rec key = true)
    (hval : ((c_str rec).drop key.length).head? = some c) (hc : c ≠ ' ') :
    c_str (get_igc_record out_s rec key).2 =
      ((c_str rec).drop key.length).takeWhile text_char := by
  unfold key_matches at hm
  have hm2 : ((c_str rec).take key.length).map c_tolower = key.map c_tolower := by simpa using hm
  unfold get_igc_record
  simp only []
  rw [if_pos hm2]
  obtain ⟨v, hv⟩ : ∃ v, (c_str rec).drop key.length = c :: v := by
    cases hd : (c_str rec).drop key.length with
    | nil => rw [hd] at hval; cases hval
    | cons x v =>
      rw [hd] at hval
      simp only [List.head?_cons, Option.some.injEq] at hval
      exact ⟨v, by rw [hval]⟩
  have hsp : (c == ' ') = false := by simpa using hc
  rw [hv]
  have hm0 : ((c :: v).takeWhile fun ch => ch == ' ') = [] := by
    rw [List.takeWhile_cons, hsp]
    rfl
  rw [hm0, List.length_nil, List.drop_zero, if_neg (by simp)]
  simp only []
  apply c_str_buf_write
  intro x hx
  have ht := (List.mem_takeWhile_imp hx)
  intro h0
  rw [h0] at ht
  revert ht
  decide

/-- C24, amended: the identity stored for the actor by `load_igc_file` is the
value of the last line of the file that matches a recognized identity field
name; every matching line overwrites what an earlier one has stored. For a
file whose lines are `pre`, then `l`, then `post`, where `l` is an identity
line with key `k` whose value does not begin with a space and no line of
`post` is an identity line, the stored ATC id is the run of text characters
that follows the key in `l`. -/
theorem load_igc_file_last_identity {D : Type} (parse_b : List Char → BFix D)
    (geo : ReplayPoint D → ReplayPoint D → ReplayPoint D → ReplayPoint D → Int → ReplayPoint D)
    (ini_default_aircraft : List Char) (p : Nat → ReplayPoint D) (file : List Char)
    (pre post : List (List Char)) (l k : List Char) (c : Char)
    (hlines : read_lines file = pre ++ l :: post)
    (htitle : key_matches l title_key = false) (hk : first_id_key l = some k)
    (hval : ((c_str l).drop k.length).head? = some c) (hc : c ≠ ' ')
    (hpost : ∀ l2 ∈ post, is_id_line l2 = false) :
    c_str (load_igc_file parse_b geo ini_default_aircraft p file).atc_id =
      ((c_str l).drop k.length).takeWhile text_char := by
  unfold load_igc_file
  rw [hlines, List.foldl_append, List.foldl_cons, load_lines_not_id parse_b geo post _ hpost,
    load_line_atc_id, if_neg (by simp [htitle]), hk]
  exact get_igc_record_value _ l k c (List.find?_some hk) hval hc

/-- Witness for C24 as amended: the sample file has the identity line
`HFGIDGLIDERID:G-ABCD` and, later, the identity line `HFCIDCOMPETITIONID:XY`;
the stored ATC id is `XY`. -/
theorem load_igc_file_last_identity_witness :
    read_lines two_ids_track =
      ["HFGIDGLIDERID:G-ABCD\n".toList] ++ "HFCIDCOMPETITIONID:XY\n".toList ::
        ["B1203154702000N12215500WA0123401234027000\n".toList] ∧
    c_str (load_igc_file sample_parse sample_geo [] sample_array two_ids_track).atc_id =
      ((c_str "HFCIDCOMPETITIONID:XY\n".toList).drop
        "HFCIDCOMPETITIONID:".toList.length).takeWhile text_char ∧
    ((c_str "HFCIDCOMPETITIONID:XY\n".toList).drop
      "HFCIDCOMPETITIONID:".toList.length).takeWhile text_char = "XY".toList :=
  ⟨by decide!,
    load_igc_file_last_identity sample_parse sample_geo [] sample_array two_ids_track
      ["HFGIDGLIDERID:G-ABCD\n".toList] ["B1203154702000N12215500WA0123401234027000\n".toList]
      "HFCIDCOMPETITIONID:XY\n".toList "HFCIDCOMPETITIONID:".toList 'X'
      (by decide!) (by decide!) (by decide!) (by decide!) (by decide) (by decide!),
    by decide!⟩

/-- Counterexample to C24 as stated: in the sample file the first identity
line is `HFGIDGLIDERID:G-ABCD` and a later one is `HFCIDCOMPETITIONID:XY`; the
identity stored by `load_igc_file` is `XY`, the value of the later line, not
`G-ABCD`. -/
theorem load_igc_file_identity_overwritten :
    c_str (load_igc_file sample_parse sample_geo [] sample_array two_ids_track).atc_id =
      "XY".toList ∧
    c_str (load_igc_file sample_parse sample_geo [] sample_array two_ids_track).atc_id ≠
      "G-ABCD".toList := by
  refine ⟨by decide!, by decide!⟩

/-! ## Claims C21, C22, C29: removed actors and the retry -/

theorem creates_for_append {D : Type} (k : Nat) (a b : List (SimCall D)) :
    creates_for k (a ++ b) = creates_for k a ++ creates_for k b := by
  simp [creates_for]

theorem creates_for_requests {D : Type} (ini : List Char) (s : AIState D) (k : Nat)
    (l : List Nat) (hl : l.Nodup) :
    creates_for k (l.map (retry_request ini s)) =
      if k ∈ l then [retry_request ini s k] else [] := by
  induction l with
  | nil => rfl
  | cons j l ih =>
    have hj : j ∉ l := (List.nodup_cons.mp hl).1
    have ih2 := ih (List.nodup_cons.mp hl).2
    simp only [creates_for, List.map_cons, List.filter_cons] at ih2 ⊢
    by_cases hjk : j = k
    · subst hjk
      have e : is_create_for j (retry_request ini s j) = true := by
        simp [is_create_for, retry_request]
      rw [e, if_pos rfl, ih2, if_neg hj, if_pos (List.mem_cons_self _ _)]
    · have e : is_create_for k (retry_request ini s j) = false := by
        simp [is_create_for, retry_request, hjk]
      rw [e, ih2]
      simp only [Bool.false_eq_true, if_false, List.mem_cons]
      have : ¬ k = j := fun h => hjk h.symm
      simp only [this, false_or]

theorem retry_ai_create_for {D : Type} (ini : List Char) (s : AIState D) (k : Nat) :
    (creates_for k (retry_ai ini s).calls = creates_for k s.calls ∧
      (retry_ai ini s).ai_info k = s.ai_info k) ∨
    (creates_for k (retry_ai ini s).calls = creates_for k s.calls ++ [retry_request ini s k] ∧
      eligible s k = true ∧ k < s.ai_count ∧
      (retry_ai ini s).ai_info k =
        { s.ai_info k with title := clean_string ini, default_tried := true }) := by
  unfold retry_ai
  by_cases hr : s.ai_retry_count = MAX_AI_RETRIES
  · rw [if_pos hr]
    exact Or.inl ⟨rfl, rfl⟩
  · rw [if_neg hr]
    obtain ⟨l1, _, _, _, _, _, l7⟩ := retry_loop_spec ini (List.range s.ai_count)
      (List.nodup_range _)
      ({ s with ai_retry_count := s.ai_retry_count + 1 }.call
        (SimCall.retrying_ai_creates s.ai_count))
    have hel : eligible ({ s with ai_retry_count := s.ai_retry_count + 1 }.call
        (SimCall.retrying_ai_creates s.ai_count)) = eligible s := rfl
    have hrq : retry_request ini ({ s with ai_retry_count := s.ai_retry_count + 1 }.call
        (SimCall.retrying_ai_creates s.ai_count)) = retry_request ini s := rfl
    have hc : creates_for k ({ s with ai_retry_count := s.ai_retry_count + 1 }.call
        (SimCall.retrying_ai_creates s.ai_count)).calls = creates_for k s.calls := by
      simp [AIState.call, creates_for, is_create_for]
    have l7k := l7 k
    rw [hel, hrq] at l1
    rw [hel] at l7k
    rw [l1, l7k, creates_for_append,
      creates_for_requests ini _ k _ (List.Nodup.filter _ (List.nodup_range _)), hc]
    by_cases hk : k ∈ List.range s.ai_count ∧ eligible s k = true
    · right
      rw [if_pos hk, if_pos (List.mem_filter.mpr hk)]
      exact ⟨rfl, hk.2, List.mem_range.mp hk.1, rfl⟩
    · left
      rw [if_neg hk, if_neg (fun h => hk (List.mem_filter.mp h)), List.append_nil]
      exact ⟨rfl, rfl⟩

theorem incr_create_for {D : Type} (ini : List Char) (s : AIState D) (k : Nat) :
    (creates_for k (incr_ai_created_or_failed ini s).calls = creates_for k s.calls ∧
      (incr_ai_created_or_failed ini s).ai_info k = s.ai_info k) ∨
    (creates_for k (incr_ai_created_or_failed ini s).calls =
        creates_for k s.calls ++ [retry_request ini s k] ∧
      eligible s k = true ∧ k < s.ai_count ∧
      (incr_ai_created_or_failed ini s).ai_info k =
        { s.ai_info k with title := clean_string ini, default_tried := true }) := by
  unfold incr_ai_created_or_failed
  split_ifs with hc
  · exact retry_ai_create_for ini { s with ai_created_or_failed := s.ai_created_or_failed + 1 } k
  · exact Or.inl ⟨rfl, rfl⟩

theorem eligible_flags {D : Type} (s : AIState D) (k : Nat) (h : eligible s k = true) :
    (s.ai_info k).created = false ∧ (s.ai_info k).removed = false ∧
      (s.ai_info k).default_tried = false := by
  simpa [eligible, and_assoc] using h

theorem dispatch_create_for {D : Type} (ini : List Char) (s : AIState D) (e : Notification)
    (k : Nat) :
    (creates_for k (dispatch ini s e).calls = creates_for k s.calls ∧
      ((dispatch ini s e).ai_info k).default_tried = (s.ai_info k).default_tried ∧
      ((dispatch ini s e).ai_info k).removed = (s.ai_info k).removed) ∨
    (creates_for k (dispatch ini s e).calls = creates_for k s.calls ++ [retry_request ini s k] ∧
      eligible s k = true ∧ k < s.ai_count ∧
      ((dispatch ini s e).ai_info k).default_tried = true ∧
      ((dispatch ini s e).ai_info k).created = false ∧
      ((dispatch ini s e).ai_info k).removed = false) := by
  cases e with
  | assigned_object_id req oid =>
    simp only [dispatch, on_assigned_object_id]
    split_ifs with hc
    · generalize req - REQUEST_AI_CREATE = r
      generalize hs1 : get_ai_pos_updates r
        ((init_ai r (s.set_info r fun a => { a with id := oid, created := true })).call
          (SimCall.SetData_AI_SET_DATA
            ((init_ai r (s.set_info r fun a => { a with id := oid, created := true })).ai_info
              r).id
            ((init_ai r (s.set_info r fun a => { a with id := oid, created := true })).ai_info
              r).atc_id)) = s1
      have c1 : creates_for k s1.calls = creates_for k s.calls := by
        rw [← hs1]
        simp [get_ai_pos_updates, AIState.call, init_ai, ai_set_slew, AIState.set_info,
          creates_for, is_create_for, List.filter_append]
      have c2 : s1.ai_count = s.ai_count := by rw [← hs1]; rfl
      have c3 : retry_request ini s1 k = retry_request ini s k := by rw [← hs1]; rfl
      have c4 : ∀ j, j ≠ r → s1.ai_info j = s.ai_info j := by
        intro j hj
        rw [← hs1]
        simp [get_ai_pos_updates, AIState.call, init_ai, ai_set_slew, AIState.set_info,
          Function.update_noteq hj]
      have c5 : (s1.ai_info r).created = true ∧
          (s1.ai_info r).default_tried = (s.ai_info r).default_tried ∧
          (s1.ai_info r).removed = (s.ai_info r).removed := by
        rw [← hs1]
        simp [get_ai_pos_updates, AIState.call, init_ai, ai_set_slew, AIState.set_info]
      have c6 : (s1.ai_info k).default_tried = (s.ai_info k).default_tried ∧
          (s1.ai_info k).removed = (s.ai_info k).removed := by
        by_cases hkr : k = r
        · rw [hkr]
          exact c5.2
        · rw [c4 k hkr]
          exact ⟨rfl, rfl⟩
      rcases incr_create_for ini s1 k with ⟨a1, a2⟩ | ⟨a1, a2, a3, a4⟩
      · left
        rw [a1, a2, c1]
        exact ⟨rfl, c6⟩
      · right
        obtain ⟨f1, f2, f3⟩ := eligible_flags s1 k a2
        have hkr : k ≠ r := by
          intro h
          rw [h, c5.1] at f1
          cases f1
        have hinfo := c4 k hkr
        rw [a1, a4, c1, c3, ← c2]
        refine ⟨rfl, ?_, a3, rfl, ?_, ?_⟩
        · simp only [eligible, ← hinfo]
          exact a2
        · exact f1
        · exact f2
    · exact Or.inl ⟨rfl, rfl, rfl⟩
  | create_object_failed =>
    simp only [dispatch, on_create_object_failed]
    rcases incr_create_for ini { s with ai_failed := true } k with ⟨a1, a2⟩ | ⟨a1, a2, a3, a4⟩
    · left
      rw [a1, a2]
      exact ⟨rfl, rfl, rfl⟩
    · right
      obtain ⟨f1, f2, f3⟩ := eligible_flags _ k a2
      rw [a1, a4]
      exact ⟨rfl, a2, a3, rfl, f1, f2⟩
  | object_removed oid =>
    left
    simp only [dispatch, on_object_removed]
    split
    · rename_i i _
      refine ⟨rfl, ?_, ?_⟩
      · simp only [AIState.set_info]
        by_cases hki : k = i
        · rw [hki, Function.update_same]
        · rw [Function.update_noteq hki]
      · simp only [AIState.set_info]
        by_cases hki : k = i
        · rw [hki, Function.update_same]
        · rw [Function.update_noteq hki]
    · exact ⟨rfl, rfl, rfl⟩

theorem remove_ai_create_for {D : Type} (ai_index : Nat) (s : AIState D) (k : Nat) :
    creates_for k (remove_ai ai_index s).calls = creates_for k s.calls ∧
    ((s.ai_info k).removed = true → ((remove_ai ai_index s).ai_info k).removed = true) := by
  unfold remove_ai
  split_ifs with h
  · constructor
    · simp [AIState.call, AIState.set_info, creates_for, is_create_for]
    · intro hr
      simp only [AIState.call, AIState.set_info]
      by_cases hk : k = ai_index
      · rw [hk, Function.update_same]
      · rw [Function.update_noteq hk]
        exact hr
  · exact ⟨rfl, fun h => h⟩

theorem update_ai_create_for {D : Type}
    (predict : Rat → ReplayPoint D → ReplayPoint D → AIStruct D → D → ReplayPoint D)
    (rates : AIStruct D → ReplayPoint D → SlewRates)
    (ai_index : Nat) (pos : AIStruct D) (s : AIState D) (k : Nat) :
    creates_for k (update_ai predict rates ai_index pos s).calls = creates_for k s.calls ∧
    ((s.ai_info k).removed = true →
      ((update_ai predict rates ai_index pos s).ai_info k).removed = true) := by
  unfold update_ai
  simp only []
  split_ifs
  all_goals first
    | exact remove_ai_create_for ai_index s k
    | (refine ⟨by simp [move_ai, ai_set_slew, AIState.call, AIState.set_info, creates_for,
          is_create_for], ?_⟩
       intro hr
       simp only [move_ai, ai_set_slew, AIState.call, AIState.set_info]
       by_cases hk : k = ai_index
       · subst hk
         simp [hr]
       · simp [Function.update_noteq hk, hr])

theorem ai_steps_removed {D : Type} (ini : List Char)
    (predict : Rat → ReplayPoint D → ReplayPoint D → AIStruct D → D → ReplayPoint D)
    (rates : AIStruct D → ReplayPoint D → SlewRates) (steps : List (AIStep D))
    (s : AIState D) (k : Nat) (hr : (s.ai_info k).removed = true) :
    creates_for k (ai_steps ini predict rates s steps).calls = creates_for k s.calls ∧
    ((ai_steps ini predict rates s steps).ai_info k).removed = true := by
  induction steps generalizing s with
  | nil => exact ⟨rfl, hr⟩
  | cons st steps ih =>
    simp only [ai_steps, List.foldl_cons]
    have hstep : creates_for k (ai_step ini predict rates s st).calls = creates_for k s.calls ∧
        ((ai_step ini predict rates s st).ai_info k).removed = true := by
      cases st with
      | notify e =>
        simp only [ai_step]
        rcases dispatch_create_for ini s e k with ⟨a1, _, a3⟩ | ⟨_, a2, _⟩
        · exact ⟨a1, by rw [a3, hr]⟩
        · have := (eligible_flags s k a2).2.1
          rw [hr] at this
          cases this
      | tick ai_index pos clock =>
        simp only [ai_step]
        have := update_ai_create_for predict rates ai_index pos { s with zulu_clock := clock } k
        exact ⟨this.1, this.2 hr⟩
    have := ih (ai_step ini predict rates s st) hstep.2
    simp only [ai_steps] at this
    rw [this.1, hstep.1]
    exact ⟨rfl, this.2⟩

/-- C22: for every clock value and observed pose, a tick of `update_ai` on a
created actor whose track has no fix removes the actor: `created` becomes
false, `removed` becomes true, the only call made is the removal of the object
(no reposition and no rate command); and whatever notifications and ticks
follow, no create request is issued for that actor. -/
theorem update_ai_empty_track {D : Type} (ini_default_aircraft : List Char)
    (predict : Rat → ReplayPoint D → ReplayPoint D → AIStruct D → D → ReplayPoint D)
    (rates : AIStruct D → ReplayPoint D → SlewRates)
    (ai_index : Nat) (pos : AIStruct D) (s : AIState D) (steps : List (AIStep D))
    (hcreated : (s.ai_info ai_index).created = true)
    (hempty : (s.ai_info ai_index).logpoint_count = 0) :
    (update_ai predict rates ai_index pos s).calls = s.calls ++
      [SimCall.AIRemoveObject (s.ai_info ai_index).id (REQUEST_AI_REMOVE + ai_index)] ∧
    ((update_ai predict rates ai_index pos s).ai_info ai_index).created = false ∧
    ((update_ai predict rates ai_index pos s).ai_info ai_index).removed = true ∧
    creates_for ai_index
      (ai_steps ini_default_aircraft predict rates
        (update_ai predict rates ai_index pos s) steps).calls =
      creates_for ai_index s.calls := by
  have hu : update_ai predict rates ai_index pos s = remove_ai ai_index s := by
    unfold update_ai
    simp only [hempty]
    rfl
  have hrm : remove_ai ai_index s =
      (s.set_info ai_index fun a => { a with created := false, removed := true }).call
        (SimCall.AIRemoveObject (s.ai_info ai_index).id (REQUEST_AI_REMOVE + ai_index)) := by
    unfold remove_ai
    rw [if_pos hcreated]
  rw [hu, hrm]
  have hflags : (((s.set_info ai_index fun a => { a with created := false, removed := true }).call
      (SimCall.AIRemoveObject (s.ai_info ai_index).id (REQUEST_AI_REMOVE + ai_index))).ai_info
        ai_index).removed = true := by
    simp [AIState.call, AIState.set_info]
  refine ⟨rfl, by simp [AIState.call, AIState.set_info], hflags, ?_⟩
  rw [(ai_steps_removed ini_default_aircraft predict rates steps _ ai_index hflags).1]
  simp [AIState.call, AIState.set_info, creates_for, is_create_for]

/-- Witness for C22: actor 0 is created on a track without a fix and actor 1
waits; the tick removes actor 0; the failure that follows starts a retry pass,
which issues a create request for actor 1 and none for actor 0. -/
theorem update_ai_empty_track_witness :
    (ai_steps "DG808S".toList sample_predict sample_rates
      (update_ai sample_predict sample_rates 0 sample_pos sample_empty_track)
      [AIStep.notify Notification.create_object_failed]).calls =
      [SimCall.AIRemoveObject 7 (REQUEST_AI_REMOVE + 0), SimCall.retrying_ai_creates 2,
        SimCall.AICreateSimulatedObject "DG808S".toList (sample_point 100)
          (REQUEST_AI_CREATE + 1)] ∧
    ((update_ai sample_predict sample_rates 0 sample_pos sample_empty_track).calls =
        sample_empty_track.calls ++
          [SimCall.AIRemoveObject (sample_empty_track.ai_info 0).id (REQUEST_AI_REMOVE + 0)] ∧
      ((update_ai sample_predict sample_rates 0 sample_pos sample_empty_track).ai_info
        0).created = false ∧
      ((update_ai sample_predict sample_rates 0 sample_pos sample_empty_track).ai_info
        0).removed = true ∧
      creates_for 0
        (ai_steps "DG808S".toList sample_predict sample_rates
          (update_ai sample_predict sample_rates 0 sample_pos sample_empty_track)
          [AIStep.notify Notification.create_object_failed]).calls =
        creates_for 0 sample_empty_track.calls) :=
  ⟨by decide!,
    update_ai_empty_track "DG808S".toList sample_predict sample_rates 0 sample_pos
      sample_empty_track [AIStep.notify Notification.create_object_failed] rfl rfl⟩

theorem run_default_tried {D : Type} (ini : List Char) (evs : List Notification)
    (s : AIState D) (k : Nat) (h : (s.ai_info k).default_tried = true) :
    creates_for k (run ini s evs).calls = creates_for k s.calls ∧
    ((run ini s evs).ai_info k).default_tried = true := by
  induction evs generalizing s with
  | nil => exact ⟨rfl, h⟩
  | cons e evs ih =>
    simp only [run, List.foldl_cons]
    rcases dispatch_create_for ini s e k with ⟨a1, a2, _⟩ | ⟨_, a2, _⟩
    · have := ih (dispatch ini s e) (by rw [a2, h])
      simp only [run] at this
      rw [this.1, a1]
      exact ⟨rfl, this.2⟩
    · have := (eligible_flags s k a2).2.2
      rw [h] at this
      cases this

theorem run_creates_le {D : Type} (ini : List Char) (evs : List Notification)
    (s : AIState D) (k : Nat) :
    (creates_for k (run ini s evs).calls).length ≤ (creates_for k s.calls).length + 1 := by
  induction evs generalizing s with
  | nil => exact Nat.le_succ _
  | cons e evs ih =>
    simp only [run, List.foldl_cons]
    rcases dispatch_create_for ini s e k with ⟨a1, _, _⟩ | ⟨a1, _, _, a4, _, _⟩
    · have := ih (dispatch ini s e)
      simp only [run] at this
      rw [a1] at this
      exact this
    · have := (run_default_tried ini evs (dispatch ini s e) k a4).1
      simp only [run] at this
      rw [this, a1]
      simp

/-- C29: in every sequence of creation-success, creation-failure and
object-removed notifications, from any state, `retry_ai` issues at most one
create request for a given actor, and none if the actor's `default_tried` is
already set; and whenever a notification makes it issue one for an actor, that
actor was not created, not removed and not tried before the notification, and
afterwards its `default_tried` is set while it is still not created and not
removed. -/
theorem retry_once_per_actor {D : Type} (ini_default_aircraft : List Char) (s : AIState D)
    (evs : List Notification) (e : Notification) (k : Nat) :
    (creates_for k (run ini_default_aircraft s evs).calls).length ≤
      (creates_for k s.calls).length + 1 ∧
    ((s.ai_info k).default_tried = true →
      creates_for k (run ini_default_aircraft s evs).calls = creates_for k s.calls) ∧
    (creates_for k (dispatch ini_default_aircraft s e).calls ≠ creates_for k s.calls →
      creates_for k (dispatch ini_default_aircraft s e).calls =
        creates_for k s.calls ++ [retry_request ini_default_aircraft s k] ∧
      (s.ai_info k).created = false ∧ (s.ai_info k).removed = false ∧
      (s.ai_info k).default_tried = false ∧
      ((dispatch ini_default_aircraft s e).ai_info k).default_tried = true ∧
      ((dispatch ini_default_aircraft s e).ai_info k).created = false ∧
      ((dispatch ini_default_aircraft s e).ai_info k).removed = false) := by
  refine ⟨run_creates_le ini_default_aircraft evs s k,
    fun h => (run_default_tried ini_default_aircraft evs s k h).1, ?_⟩
  intro hne
  rcases dispatch_create_for ini_default_aircraft s e k with ⟨a1, _, _⟩ | ⟨a1, a2, _, a4, a5, a6⟩
  · exact absurd a1 hne
  · obtain ⟨f1, f2, f3⟩ := eligible_flags s k a2
    exact ⟨a1, f1, f2, f3, a4, a5, a6⟩

/-- Witness for C29: two actors; actor 0 is created with object id 11, a
failure is reported (retry pass: a create request for actor 1), object 11 is
removed, a failure is reported (retry pass: a create request for actor 0), and
two more failures are reported. Each actor gets one create request. -/
theorem retry_once_per_actor_witness :
    (run "DG808S".toList (sample_fresh 2)
      [Notification.assigned_object_id REQUEST_AI_CREATE 11, Notification.create_object_failed,
        Notification.object_removed 11, Notification.create_object_failed,
        Notification.create_object_failed, Notification.create_object_failed]).calls.filter
        is_create =
      [SimCall.AICreateSimulatedObject "DG808S".toList (sample_point 100)
          (REQUEST_AI_CREATE + 1),
        SimCall.AICreateSimulatedObject "DG808S".toList (sample_point 100)
          (REQUEST_AI_CREATE + 0)] ∧
    (creates_for 0 (run "DG808S".toList (sample_fresh 2)
      [Notification.assigned_object_id REQUEST_AI_CREATE 11, Notification.create_object_failed,
        Notification.object_removed 11, Notification.create_object_failed,
        Notification.create_object_failed, Notification.create_object_failed]).calls).length ≤
      (creates_for 0 (sample_fresh 2).calls).length + 1 :=
  ⟨by decide!,
    (retry_once_per_actor "DG808S".toList (sample_fresh 2)
      [Notification.assigned_object_id REQUEST_AI_CREATE 11, Notification.create_object_failed,
        Notification.object_removed 11, Notification.create_object_failed,
        Notification.create_object_failed, Notification.create_object_failed]
      Notification.create_object_failed 0).1⟩

theorem find_range_first (q : Nat → Bool) (n i : Nat) (hi : i < n) (hq : q i = true)
    (hfirst : ∀ j, j < i → q j = false) : (List.range n).find? q = some i := by
  induction n with
  | zero => omega
  | succ n ih =>
    rw [List.range_succ, List.find?_append]
    by_cases hin : i < n
    · rw [ih hin]
      rfl
    · have e : i = n := by omega
      have hnone : (List.range n).find? q = none := by
        rw [List.find?_eq_none]
        intro j hj
        have := hfirst j (by rw [e]; exact List.mem_range.mp hj)
        simp [this]
      rw [hnone, ← e]
      simp [hq]

/-- C21, amended: when an object-removed notification arrives whose handle
equals the id of a registered actor, the first such actor is no longer
created; its `removed` flag, its `default_tried` flag and the other actors are
left as they are and no call is made. The actor is then one that a later retry
pass selects, unless it is marked removed or has been tried with the default
aircraft. -/
theorem object_removed_clears_created {D : Type} (ini_default_aircraft : List Char)
    (s : AIState D) (dwData i : Nat) (hi : i < s.ai_count)
    (hid : (s.ai_info i).id = dwData) (hfirst : ∀ j, j < i → (s.ai_info j).id ≠ dwData) :
    ((dispatch ini_default_aircraft s (Notification.object_removed dwData)).ai_info i).created
      = false ∧
    ((dispatch ini_default_aircraft s (Notification.object_removed dwData)).ai_info i).removed
      = (s.ai_info i).removed ∧
    ((dispatch ini_default_aircraft s
      (Notification.object_removed dwData)).ai_info i).default_tried =
        (s.ai_info i).default_tried ∧
    (∀ j, j ≠ i →
      (dispatch ini_default_aircraft s (Notification.object_removed dwData)).ai_info j =
        s.ai_info j) ∧
    (dispatch ini_default_aircraft s (Notification.object_removed dwData)).calls = s.calls ∧
    eligible (dispatch ini_default_aircraft s (Notification.object_removed dwData)) i =
      (!(s.ai_info i).removed && !(s.ai_info i).default_tried) := by
  have hf : (List.range s.ai_count).find? (fun j => decide (dwData = (s.ai_info j).id)) =
      some i := by
    apply find_range_first _ _ _ hi
    · simp [hid]
    · intro j hj
      have := hfirst j hj
      simp only [decide_eq_false_iff_not]
      exact fun h => this h.symm
  simp only [dispatch, on_object_removed, hf, AIState.set_info, eligible, Function.update_same]
  refine ⟨trivial, trivial, trivial, ?_, trivial, by simp⟩
  intro j hj
  rw [Function.update_noteq hj]

/-- Witness for C21 as amended: actor 0 of two is created with object id 11 and
a failure is reported; the notification that object 11 is removed leaves actor
0 not created and not removed. -/
theorem object_removed_clears_created_witness :
    ((run "DG808S".toList (sample_fresh 2)
      [Notification.assigned_object_id REQUEST_AI_CREATE 11,
        Notification.create_object_failed]).ai_info 0).id = 11 ∧
    ((dispatch "DG808S".toList (run "DG808S".toList (sample_fresh 2)
        [Notification.assigned_object_id REQUEST_AI_CREATE 11,
          Notification.create_object_failed])
      (Notification.object_removed 11)).ai_info 0).created = false ∧
    ((dispatch "DG808S".toList (run "DG808S".toList (sample_fresh 2)
        [Notification.assigned_object_id REQUEST_AI_CREATE 11,
          Notification.create_object_failed])
      (Notification.object_removed 11)).ai_info 0).removed =
      ((run "DG808S".toList (sample_fresh 2)
        [Notification.assigned_object_id REQUEST_AI_CREATE 11,
          Notification.create_object_failed]).ai_info 0).removed := by
  have h := object_removed_clears_created "DG808S".toList
    (run "DG808S".toList (sample_fresh 2)
      [Notification.assigned_object_id REQUEST_AI_CREATE 11,
        Notification.create_object_failed]) 11 0 (by decide!) (by decide!)
    (fun j hj => absurd hj (Nat.not_lt_zero j))
  exact ⟨by decide!, h.1, h.2.1⟩

/-- Counterexample to C21 as stated: actor 0 of two is created with object id
11 and a failure is reported (first retry pass, for actor 1). After the
notification that object 11 is removed, actor 0 is not created but its
`removed` flag is not set, and the retry pass that the next failure starts
issues a create request for actor 0. -/
theorem object_removed_not_marked :
    ((run "DG808S".toList (sample_fresh 2)
      [Notification.assigned_object_id REQUEST_AI_CREATE 11, Notification.create_object_failed,
        Notification.object_removed 11]).ai_info 0).created = false ∧
    ((run "DG808S".toList (sample_fresh 2)
      [Notification.assigned_object_id REQUEST_AI_CREATE 11, Notification.create_object_failed,
        Notification.object_removed 11]).ai_info 0).removed = false ∧
    creates_for 0 (run "DG808S".toList (sample_fresh 2)
      [Notification.assigned_object_id REQUEST_AI_CREATE 11, Notification.create_object_failed,
        Notification.object_removed 11]).calls = [] ∧
    creates_for 0 (run "DG808S".toList (sample_fresh 2)
      [Notification.assigned_object_id REQUEST_AI_CREATE 11, Notification.create_object_failed,
        Notification.object_removed 11, Notification.create_object_failed]).calls =
      [SimCall.AICreateSimulatedObject "DG808S".toList (sample_point 100)
        (REQUEST_AI_CREATE + 0)] := by
  refine ⟨by decide!, by decide!, by decide!, by decide!⟩

/-! ## Claims C23, C27: the smooth-follow tick -/

theorem update_ai_follow {D : Type}
    (predict : Rat → ReplayPoint D → ReplayPoint D → AIStruct D → D → ReplayPoint D)
    (rates : AIStruct D → ReplayPoint D → SlewRates)
    (ai_index : Nat) (pos : AIStruct D) (s : AIState D)
    (hfound : (tick_scan s ai_index).2 = true)
    (hnear : ¬ (s.zulu_clock -
      (s.replay ai_index (s.ai_info ai_index).next_logpoint).zulu_time > 30))
    (hpred : (predict_scan s ai_index).2 = true) :
    (update_ai predict rates ai_index pos s).calls =
      (s.calls ++
        if (s.ai_info ai_index).slew_on then []
        else [SimCall.TransmitClientEvent (s.ai_info ai_index).id AI_EVENT.EVENT_SLEW_ON 1]) ++
      rate_commands (s.ai_info ai_index).id
        (rates pos
          (predict (s.zulu_clock + PREDICT_PERIOD)
            (s.replay ai_index ((predict_scan s ai_index).1 - 1))
            (s.replay ai_index (predict_scan s ai_index).1) pos
            (s.ai_info ai_index).alt_offset)) := by
  have hw : ¬ (s.zulu_clock -
      (s.replay ai_index (s.ai_info ai_index).next_logpoint).zulu_time > AI_WARP_TIME) := hnear
  unfold predict_scan tick_scan at hpred
  unfold tick_scan at hfound
  unfold update_ai predict_scan tick_scan rate_commands
  simp only [hfound, not_true_eq_false, if_false, if_neg hw, hpred, if_true]
  by_cases hslew : (s.ai_info ai_index).slew_on = true
  · simp [hslew, AIState.call, AIState.set_info]
  · simp [hslew, AIState.call, AIState.set_info, ai_set_slew]

theorem floor_sqrt_3084000 : Int.floor (Real.sqrt 3084000) = 1756 := by
  rw [Int.floor_eq_iff]
  constructor
  · have h : (0 : ℝ) < ((1756 : Int) : ℝ) := by norm_num
    rw [Real.le_sqrt' h]
    norm_num
  · have h : (0 : ℝ) < ((1756 : Int) : ℝ) + 1 := by norm_num
    rw [Real.sqrt_lt' h]
    norm_num

/-- C23, as amended: in every smooth-follow tick of `update_ai` (the first
scan finds a fix, the clock is not more than 30 s past the cursor fix, and the
second scan finds the fix `j`), the five rate commands are sent after the
earlier calls, and the bank and pitch rate commands are
`slew_rotation_to_rate` applied to (predicted - observed) / 4, while the
altitude rate command is `slew_alt_to_rate` applied to
(observed altitude - predicted altitude) / 4, the sink, positive downwards. -/
theorem update_ai_rates {K : Type} [LinearOrderedField K] [FloorRing K]
    (m : CMath K) (ai_index : Nat) (pos : AIStruct K) (s : AIState K)
    (hfound : (tick_scan s ai_index).2 = true)
    (hnear : ¬ (s.zulu_clock -
      (s.replay ai_index (s.ai_info ai_index).next_logpoint).zulu_time > 30))
    (hpred : (predict_scan s ai_index).2 = true) :
    ∃ rt : SlewRates,
      (update_ai (predict_point m) (slew_rates m) ai_index pos s).calls =
        (s.calls ++
          if (s.ai_info ai_index).slew_on then []
          else [SimCall.TransmitClientEvent (s.ai_info ai_index).id
            AI_EVENT.EVENT_SLEW_ON 1]) ++
        rate_commands (s.ai_info ai_index).id rt ∧
      rt.alt_rate = slew_alt_to_rate m
        ((pos.altitude -
          (predict_point m (s.zulu_clock + PREDICT_PERIOD)
            (s.replay ai_index ((predict_scan s ai_index).1 - 1))
            (s.replay ai_index (predict_scan s ai_index).1) pos
            (s.ai_info ai_index).alt_offset).altitude) / 4) ∧
      rt.bank_rate = slew_rotation_to_rate m
        (((predict_point m (s.zulu_clock + PREDICT_PERIOD)
            (s.replay ai_index ((predict_scan s ai_index).1 - 1))
            (s.replay ai_index (predict_scan s ai_index).1) pos
            (s.ai_info ai_index).alt_offset).bank - pos.bank) / 4) ∧
      rt.pitch_rate = slew_rotation_to_rate m
        (((predict_point m (s.zulu_clock + PREDICT_PERIOD)
            (s.replay ai_index ((predict_scan s ai_index).1 - 1))
            (s.replay ai_index (predict_scan s ai_index).1) pos
            (s.ai_info ai_index).alt_offset).pitch - pos.pitch) / 4) := by
  have e : ((PREDICT_PERIOD : Rat) : K) = 4 := by
    simp [PREDICT_PERIOD]
  refine ⟨_, update_ai_follow (predict_point m) (slew_rates m) ai_index pos s hfound hnear hpred,
    ?_, ?_, ?_⟩
  · simp only [slew_rates, e]
  · simp only [slew_rates, e]
  · simp only [slew_rates, e]

theorem update_ai_rates_witness :
    tick_scan (sample_follow ℝ) 0 = (4, true) ∧
    ¬ ((sample_follow ℝ).zulu_clock -
      ((sample_follow ℝ).replay 0 ((sample_follow ℝ).ai_info 0).next_logpoint).zulu_time > 30) ∧
    predict_scan (sample_follow ℝ) 0 = (5, true) ∧
    ∃ rt : SlewRates,
      (update_ai
        (predict_point (CMath.mk Real.sin Real.cos Real.tan Real.arccos Real.arctan
          (fun y x => Complex.arg ⟨x, y⟩) Real.sqrt))
        (slew_rates (CMath.mk Real.sin Real.cos Real.tan Real.arccos Real.arctan
          (fun y x => Complex.arg ⟨x, y⟩) Real.sqrt)) 0 (sample_pos_at ℝ)
        (sample_follow ℝ)).calls = rate_commands 7 rt ∧
      rt.bank_rate = 0 ∧ rt.pitch_rate = 0 := by
  have hs : tick_scan (sample_follow ℝ) 0 = (4, true) := by decide!
  have hp : predict_scan (sample_follow ℝ) 0 = (5, true) := by decide!
  have hn : ¬ ((sample_follow ℝ).zulu_clock -
      ((sample_follow ℝ).replay 0 ((sample_follow ℝ).ai_info 0).next_logpoint).zulu_time > 30) := by
    decide!
  obtain ⟨rt, h1, _, h3, h4⟩ := update_ai_rates
    (CMath.mk Real.sin Real.cos Real.tan Real.arccos Real.arctan
      (fun y x => Complex.arg ⟨x, y⟩) Real.sqrt)
    0 (sample_pos_at ℝ) (sample_follow ℝ) (by rw [hs]) hn (by rw [hp])
  refine ⟨hs, hn, hp, rt, h1, ?_, ?_⟩
  · rw [h3]
    simp [predict_point, sample_pos_at, sample_follow, sample_fix_at, slew_rotation_to_rate,
      to_DWORD]
  · rw [h4]
    simp [predict_point, sample_pos_at, sample_follow, sample_fix_at, slew_rotation_to_rate,
      to_DWORD]

/-- C23, counterexample. On the sample track (altitude 104 m throughout) with
the actor reported at 108 m, the tick is a smooth-follow tick, the predicted
altitude is 104 m, and the altitude rate command sent is 1756, the curve
applied to (observed - predicted) / 4 = +1 m/s of sink; the curve applied to
(predicted - observed) / 4 = -1 is 4294965540, the same magnitude with the
other sign as a DWORD. -/
theorem update_ai_alt_rate_is_sink :
    tick_scan (sample_follow ℝ) 0 = (4, true) ∧
    predict_scan (sample_follow ℝ) 0 = (5, true) ∧
    (predict_point (CMath.mk Real.sin Real.cos Real.tan Real.arccos Real.arctan
        (fun y x => Complex.arg ⟨x, y⟩) Real.sqrt)
      ((sample_follow ℝ).zulu_clock + PREDICT_PERIOD) ((sample_follow ℝ).replay 0 4)
      ((sample_follow ℝ).replay 0 5) (sample_pos_at ℝ) 0).altitude = 104 ∧
    (sample_pos_at ℝ).altitude = 108 ∧
    alt_rates (update_ai
      (predict_point (CMath.mk Real.sin Real.cos Real.tan Real.arccos Real.arctan
        (fun y x => Complex.arg ⟨x, y⟩) Real.sqrt))
      (slew_rates (CMath.mk Real.sin Real.cos Real.tan Real.arccos Real.arctan
        (fun y x => Complex.arg ⟨x, y⟩) Real.sqrt)) 0 (sample_pos_at ℝ)
      (sample_follow ℝ)).calls = [1756] ∧
    slew_alt_to_rate (CMath.mk Real.sin Real.cos Real.tan Real.arccos Real.arctan
        (fun y x => Complex.arg ⟨x, y⟩) Real.sqrt) (((104 : ℝ) - 108) / 4) = 4294965540 := by
  have hs : tick_scan (sample_follow ℝ) 0 = (4, true) := by decide!
  have hp : predict_scan (sample_follow ℝ) 0 = (5, true) := by decide!
  have hn : ¬ ((sample_follow ℝ).zulu_clock -
      ((sample_follow ℝ).replay 0 ((sample_follow ℝ).ai_info 0).next_logpoint).zulu_time > 30) := by
    decide!
  have hc := update_ai_follow
    (predict_point (CMath.mk Real.sin Real.cos Real.tan Real.arccos Real.arctan
      (fun y x => Complex.arg ⟨x, y⟩) Real.sqrt))
    (slew_rates (CMath.mk Real.sin Real.cos Real.tan Real.arccos Real.arctan
      (fun y x => Complex.arg ⟨x, y⟩) Real.sqrt))
    0 (sample_pos_at ℝ) (sample_follow ℝ) (by rw [hs]) hn (by rw [hp])
  have ha : (predict_point (CMath.mk Real.sin Real.cos Real.tan Real.arccos Real.arctan
        (fun y x => Complex.arg ⟨x, y⟩) Real.sqrt)
      ((sample_follow ℝ).zulu_clock + PREDICT_PERIOD) ((sample_follow ℝ).replay 0 4)
      ((sample_follow ℝ).replay 0 5) (sample_pos_at ℝ) 0).altitude = 104 := by
    simp [predict_point, sample_follow, sample_fix_at]
  refine ⟨hs, hp, ha, rfl, ?_, ?_⟩
  · rw [hc, hp]
    have e1 : (sample_follow ℝ).calls = [] := rfl
    have e2 : ((sample_follow ℝ).ai_info 0).slew_on = true := rfl
    have e3 : ((sample_follow ℝ).ai_info 0).alt_offset = 0 := rfl
    rw [e1, e2, e3]
    simp only [if_true, List.append_nil, List.nil_append, rate_commands, alt_rates]
    have e4 : (5 : Nat) - 1 = 4 := rfl
    simp only [slew_rates, e4, ha]
    have e5 : ((sample_pos_at ℝ).altitude - 104) / ((PREDICT_PERIOD : Rat) : ℝ) = 1 := by
      simp [sample_pos_at, PREDICT_PERIOD]
      norm_num
    rw [e5]
    simp only [slew_alt_to_rate, to_DWORD]
    rw [if_neg (by norm_num), if_pos (Real.sqrt_nonneg _)]
    norm_num
    rw [floor_sqrt_3084000]
    rfl
  · simp only [slew_alt_to_rate, to_DWORD]
    rw [if_pos (by norm_num)]
    have e6 : -(((104 : ℝ) - 108) / 4) * 3084000 = 3084000 := by norm_num
    rw [e6, if_neg (by
      have := Real.sqrt_pos.mpr (by norm_num : (0 : ℝ) < 3084000)
      linarith)]
    rw [Int.ceil_neg, floor_sqrt_3084000]
    rfl

/-! ## Claim C26: the attitude pass and the low-speed pass -/

theorem low_speed_step_pos {K : Type} [LinearOrderedField K] (m : CMath K)
    (st : (Nat → ReplayPoint K) × Bool) (x k : Nat) :
    ((low_speed_step m st x).1 k).latitude = (st.1 k).latitude ∧
    ((low_speed_step m st x).1 k).longitude = (st.1 k).longitude ∧
    ((low_speed_step m st x).1 k).zulu_time = (st.1 k).zulu_time := by
  unfold low_speed_step
  by_cases hs : heading_speed_ok m st.1 x = true
  · rw [if_pos hs]
    exact ⟨rfl, rfl, rfl⟩
  · rw [if_neg hs]
    by_cases hk : k = x
    · subst hk
      simp [Function.update_same]
    · simp [Function.update_noteq hk]

theorem low_speed_step_other {K : Type} [LinearOrderedField K] (m : CMath K)
    (st : (Nat → ReplayPoint K) × Bool) (x k : Nat) (hk : k ≠ x) :
    (low_speed_step m st x).1 k = st.1 k := by
  unfold low_speed_step
  by_cases hs : heading_speed_ok m st.1 x = true
  · rw [if_pos hs]
  · rw [if_neg hs]
    simp [Function.update_noteq hk]

theorem low_speed_step_keep {K : Type} [LinearOrderedField K] (m : CMath K)
    (st : (Nat → ReplayPoint K) × Bool) (x k : Nat)
    (h : (st.1 k).pitch = 0 ∧ (st.1 k).bank = 0) :
    ((low_speed_step m st x).1 k).pitch = 0 ∧ ((low_speed_step m st x).1 k).bank = 0 := by
  unfold low_speed_step
  by_cases hs : heading_speed_ok m st.1 x = true
  · rw [if_pos hs]
    exact h
  · rw [if_neg hs]
    by_cases hk : k = x
    · subst hk
      simp [Function.update_same]
    · simp only [Function.update_noteq hk]
      exact h

theorem low_speed_step_zero {K : Type} [LinearOrderedField K] (m : CMath K)
    (st : (Nat → ReplayPoint K) × Bool) (x : Nat) (h : heading_speed_ok m st.1 x = false) :
    ((low_speed_step m st x).1 x).pitch = 0 ∧ ((low_speed_step m st x).1 x).bank = 0 := by
  unfold low_speed_step
  rw [h]
  simp [Function.update_same]

theorem heading_speed_ok_congr {K : Type} [LinearOrderedField K] (m : CMath K)
    (p q : Nat → ReplayPoint K) (x : Nat)
    (h : ∀ k, (q k).latitude = (p k).latitude ∧ (q k).longitude = (p k).longitude ∧
      (q k).zulu_time = (p k).zulu_time) :
    heading_speed_ok m q x = heading_speed_ok m p x := by
  unfold heading_speed_ok
  rw [(h x).1, (h x).2.1, (h x).2.2, (h (x + 1)).1, (h (x + 1)).2.1, (h (x + 1)).2.2]

theorem low_speed_fold {K : Type} [LinearOrderedField K] (m : CMath K) (xs : List Nat)
    (st : (Nat → ReplayPoint K) × Bool) :
    (∀ k, ((xs.foldl (low_speed_step m) st).1 k).latitude = (st.1 k).latitude ∧
      ((xs.foldl (low_speed_step m) st).1 k).longitude = (st.1 k).longitude ∧
      ((xs.foldl (low_speed_step m) st).1 k).zulu_time = (st.1 k).zulu_time) ∧
    (∀ k, k ∉ xs → (xs.foldl (low_speed_step m) st).1 k = st.1 k) ∧
    (∀ k, (st.1 k).pitch = 0 ∧ (st.1 k).bank = 0 →
      ((xs.foldl (low_speed_step m) st).1 k).pitch = 0 ∧
      ((xs.foldl (low_speed_step m) st).1 k).bank = 0) ∧
    (∀ x ∈ xs, heading_speed_ok m st.1 x = false →
      ((xs.foldl (low_speed_step m) st).1 x).pitch = 0 ∧
      ((xs.foldl (low_speed_step m) st).1 x).bank = 0) := by
  induction xs generalizing st with
  | nil =>
    refine ⟨fun k => ⟨rfl, rfl, rfl⟩, fun k _ => rfl, fun k h => h, ?_⟩
    intro x hx
    simp at hx
  | cons y ys ih =>
    obtain ⟨a1, a2, a3, a4⟩ := ih (low_speed_step m st y)
    simp only [List.foldl_cons]
    refine ⟨?_, ?_, ?_, ?_⟩
    · intro k
      obtain ⟨b1, b2, b3⟩ := a1 k
      obtain ⟨c1, c2, c3⟩ := low_speed_step_pos m st y k
      exact ⟨b1.trans c1, b2.trans c2, b3.trans c3⟩
    · intro k hk
      simp only [List.mem_cons, not_or] at hk
      rw [a2 k hk.2, low_speed_step_other m st y k hk.1]
    · intro k hk
      exact a3 k (low_speed_step_keep m st y k hk)
    · intro x hx hs
      rcases List.mem_cons.mp hx with hxy | hxys
      · subst hxy
        exact a3 x (low_speed_step_zero m st x hs)
      · apply a4 x hxys
        rw [heading_speed_ok_congr m st.1 _ x (low_speed_step_pos m st y)]
        exact hs

theorem update_pos {K : Type} (q : Nat → ReplayPoint K) (j : Nat) (v : ReplayPoint K)
    (hv : (v.latitude, v.longitude, v.zulu_time) =
      ((q j).latitude, (q j).longitude, (q j).zulu_time)) (k : Nat) :
    ((Function.update q j v k).latitude, (Function.update q j v k).longitude,
      (Function.update q j v k).zulu_time) =
      ((q k).latitude, (q k).longitude, (q k).zulu_time) := by
  rw [Function.update_apply]
  by_cases h : k = j
  · rw [if_pos h, h]
    exact hv
  · rw [if_neg h]

theorem ai_update_pbhs_pos {K : Type} [LinearOrderedField K] [FloorRing K] (m : CMath K)
    (ini : PitchIni K) (p : Nat → ReplayPoint K) (i k : Nat) :
    (ai_update_pbhs m ini p i k).latitude = (p k).latitude ∧
    (ai_update_pbhs m ini p i k).longitude = (p k).longitude ∧
    (ai_update_pbhs m ini p i k).zulu_time = (p k).zulu_time := by
  have h : ((ai_update_pbhs m ini p i k).latitude, (ai_update_pbhs m ini p i k).longitude,
      (ai_update_pbhs m ini p i k).zulu_time) =
      ((p k).latitude, (p k).longitude, (p k).zulu_time) := by
    unfold ai_update_pbhs
    dsimp only
    split_ifs <;>
      first
      | (refine (update_pos _ _ _ ?_ k).trans
          ((update_pos _ _ _ ?_ k).trans (update_pos _ _ _ ?_ k)) <;> rfl)
      | (refine (update_pos _ _ _ ?_ k).trans (update_pos _ _ _ ?_ k) <;> rfl)
  simp only [Prod.mk.injEq] at h
  exact h

theorem pbh_pass_succ {K : Type} [LinearOrderedField K] [FloorRing K] (m : CMath K)
    (ini : PitchIni K) (p : Nat → ReplayPoint K) (n : Nat) :
    pbh_pass m ini p (n + 1) = ai_update_pbhs m ini (pbh_pass m ini p n) n := by
  simp [pbh_pass, List.range_succ, List.foldl_append]

theorem pbh_pass_pos {K : Type} [LinearOrderedField K] [FloorRing K] (m : CMath K)
    (ini : PitchIni K) (p : Nat → ReplayPoint K) (n k : Nat) :
    (pbh_pass m ini p n k).latitude = (p k).latitude ∧
    (pbh_pass m ini p n k).longitude = (p k).longitude ∧
    (pbh_pass m ini p n k).zulu_time = (p k).zulu_time := by
  induction n with
  | zero => exact ⟨rfl, rfl, rfl⟩
  | succ n ih =>
    rw [pbh_pass_succ]
    obtain ⟨a1, a2, a3⟩ := ai_update_pbhs_pos m ini (pbh_pass m ini p n) n k
    exact ⟨a1.trans ih.1, a2.trans ih.2.1, a3.trans ih.2.2⟩

/-- C26, as amended: after the attitude pass and the low-speed pass of
`load_igc_file` over the `i` fixes of `p`, every fix `x` other than the last
(`x + 1 < i`), at a time other than that of the next fix, whose ground speed
over the leg to the next fix (the distance from fix `x` to fix `x + 1` divided
by the time between them) is at most 3 m/s, in particular every such fix with
that speed below 3 m/s, has pitch = 0 and bank = 0. -/
theorem attitude_passes_low_speed {K : Type} [LinearOrderedField K] [FloorRing K]
    (m : CMath K) (ini : PitchIni K) (p : Nat → ReplayPoint K) (i x : Nat)
    (hx : x + 1 < i) (ht : (p (x + 1)).zulu_time ≠ (p x).zulu_time)
    (hslow : distance m (p x).latitude (p x).longitude (p (x + 1)).latitude
        (p (x + 1)).longitude /
      (((p (x + 1)).zulu_time - (p x).zulu_time : Int) : K) ≤ 3) :
    (attitude_passes m ini p i x).pitch = 0 ∧ (attitude_passes m ini p i x).bank = 0 := by
  have _ := ht
  have h := (low_speed_fold m (List.range (i - 1)).reverse (pbh_pass m ini p i, false)).2.2.2 x
    (by
      rw [List.mem_reverse, List.mem_range]
      omega)
    (by
      rw [heading_speed_ok_congr m p _ x (pbh_pass_pos m ini p i)]
      unfold heading_speed_ok MIN_HEADING_SPEED
      exact decide_eq_false (not_lt.mpr hslow))
  exact h

theorem real_M_PI :
    M_PI (CMath.mk Real.sin Real.cos Real.tan Real.arccos Real.arctan
        (fun y x => Complex.arg ⟨x, y⟩) Real.sqrt) = Real.pi := by
  simp only [M_PI, Real.arctan_one]
  ring

theorem real_distance_same (lat lon : ℝ) (hlat : lat = 0) :
    distance (CMath.mk Real.sin Real.cos Real.tan Real.arccos Real.arctan
        (fun y x => Complex.arg ⟨x, y⟩) Real.sqrt) lat lon lat lon = 0 := by
  subst hlat
  simp [distance, deg2rad]

theorem real_bearing_same (lon : ℝ) :
    bearing (CMath.mk Real.sin Real.cos Real.tan Real.arccos Real.arctan
        (fun y x => Complex.arg ⟨x, y⟩) Real.sqrt) 0 lon 0 lon = 0 := by
  have h0 : ({ re := 0, im := 0 } : ℂ) = 0 := rfl
  have hp := Real.pi_pos
  simp only [bearing, deg2rad, real_M_PI, zero_mul, sub_self, Real.sin_zero, Real.cos_zero,
    mul_zero, mul_one, h0, Complex.arg_zero, zero_add]
  have h := fmod_add_mul (0 : ℝ) (2 * Real.pi) 1 le_rfl (by linarith)
  simpa using h

theorem arg_north (s : ℝ) (hs : 0 < s) : Complex.arg { re := 0, im := s } = Real.pi / 2 := by
  have e : ({ re := 0, im := s } : ℂ) = (s : ℂ) * Complex.I := by
    apply Complex.ext <;> simp
  rw [e, Complex.arg_real_mul _ hs, Complex.arg_I]

theorem real_bearing_east :
    bearing (CMath.mk Real.sin Real.cos Real.tan Real.arccos Real.arctan
        (fun y x => Complex.arg ⟨x, y⟩) Real.sqrt) 0 0 0 (1 / 1000) = Real.pi / 2 := by
  have hp := Real.pi_pos
  have hs : 0 < Real.sin (1 / 1000 * (Real.pi / 180)) :=
    Real.sin_pos_of_pos_of_lt_pi (by positivity) (by linarith)
  have ha : Complex.arg { re := 0, im := Real.sin (1 / 1000 * (Real.pi / 180)) } =
      Real.pi / 2 := arg_north _ hs
  simp only [bearing, deg2rad, real_M_PI, zero_mul, sub_zero, Real.sin_zero, Real.cos_zero,
    mul_zero, mul_one, sub_self, ha]
  have h := fmod_add_mul (Real.pi / 2) (2 * Real.pi) 1 (by linarith) (by linarith)
  simpa using h

theorem ai_update_pbhs_stop (q : Nat → ReplayPoint ℝ)
    (hq : ∀ k, (q k).latitude = (sample_stop ℝ k).latitude ∧
      (q k).longitude = (sample_stop ℝ k).longitude ∧
      (q k).zulu_time = (sample_stop ℝ k).zulu_time) :
    (ai_update_pbhs (CMath.mk Real.sin Real.cos Real.tan Real.arccos Real.arctan
      (fun y x => Complex.arg ⟨x, y⟩) Real.sqrt) (sample_pitch ℝ) q 2 2).speed = 0 ∧
    (ai_update_pbhs (CMath.mk Real.sin Real.cos Real.tan Real.arccos Real.arctan
      (fun y x => Complex.arg ⟨x, y⟩) Real.sqrt) (sample_pitch ℝ) q 2 2).bank = 3 / 2 := by
  obtain ⟨a0, b0, c0⟩ := hq 0
  obtain ⟨a1, b1, c1⟩ := hq 1
  obtain ⟨a2, b2, c2⟩ := hq 2
  simp only [sample_stop, sample_fix_at] at a0 b0 c0 a1 b1 c1 a2 b2 c2
  norm_num at a0 b0 c0 a1 b1 c1 a2 b2 c2
  have hp := Real.pi_gt_three
  have hf : fmod (0 + 2 * Real.pi - Real.pi / 2) (2 * Real.pi) = 3 * Real.pi / 2 := by
    have h := fmod_add_mul (3 * Real.pi / 2) (2 * Real.pi) 0 (by linarith) (by linarith)
    have e : 3 * Real.pi / 2 + ((0 : Nat) : ℝ) * (2 * Real.pi) =
        0 + 2 * Real.pi - Real.pi / 2 := by
      push_cast
      ring
    rw [e] at h
    exact h
  have hd := real_distance_same 0 (1000⁻¹) rfl
  have hb1 := real_bearing_same (1000⁻¹)
  have hb0 := real_bearing_east
  rw [one_div] at hb0
  unfold ai_update_pbhs
  simp [Function.update, a0, b0, c0, a1, b1, c1, a2, b2, c2]
  rw [hd, hb1, hb0, real_M_PI, hf, if_pos (by linarith)]
  refine ⟨rfl, ?_⟩
  rw [min_eq_right (by linarith), max_eq_left (by norm_num)]

theorem attitude_passes_low_speed_witness :
    (sample_stop ℝ 2).zulu_time ≠ (sample_stop ℝ 1).zulu_time ∧
    distance (CMath.mk Real.sin Real.cos Real.tan Real.arccos Real.arctan
        (fun y x => Complex.arg ⟨x, y⟩) Real.sqrt)
      (sample_stop ℝ 1).latitude (sample_stop ℝ 1).longitude (sample_stop ℝ 2).latitude
      (sample_stop ℝ 2).longitude = 0 ∧
    (attitude_passes (CMath.mk Real.sin Real.cos Real.tan Real.arccos Real.arctan
      (fun y x => Complex.arg ⟨x, y⟩) Real.sqrt) (sample_pitch ℝ) (sample_stop ℝ) 3 1).pitch = 0 ∧
    (attitude_passes (CMath.mk Real.sin Real.cos Real.tan Real.arccos Real.arctan
      (fun y x => Complex.arg ⟨x, y⟩) Real.sqrt) (sample_pitch ℝ) (sample_stop ℝ) 3 1).bank = 0 := by
  have ht : (sample_stop ℝ 2).zulu_time ≠ (sample_stop ℝ 1).zulu_time := by decide
  have hd : distance (CMath.mk Real.sin Real.cos Real.tan Real.arccos Real.arctan
        (fun y x => Complex.arg ⟨x, y⟩) Real.sqrt)
      (sample_stop ℝ 1).latitude (sample_stop ℝ 1).longitude (sample_stop ℝ 2).latitude
      (sample_stop ℝ 2).longitude = 0 := real_distance_same _ _ rfl
  exact ⟨ht, hd,
    attitude_passes_low_speed (CMath.mk Real.sin Real.cos Real.tan Real.arccos Real.arctan
      (fun y x => Complex.arg ⟨x, y⟩) Real.sqrt) (sample_pitch ℝ) (sample_stop ℝ) 3 1
      (by decide) ht (by
        rw [hd, zero_div]
        norm_num)⟩

/-- C26, counterexample. On the sample track of three fixes, where the glider
flies east and then stands still, the attitude pass gives the last fix the
derived ground speed 0 m/s, below 3 m/s, and the bank 1.5 rad (a turn by a
quarter circle in 4 s, cut off at 1.5); the low-speed pass, which runs from the
last fix but one downwards, leaves the last fix as it is. -/
theorem attitude_passes_last_fix_banked :
    (attitude_passes (CMath.mk Real.sin Real.cos Real.tan Real.arccos Real.arctan
      (fun y x => Complex.arg ⟨x, y⟩) Real.sqrt) (sample_pitch ℝ) (sample_stop ℝ) 3 2).speed = 0 ∧
    (attitude_passes (CMath.mk Real.sin Real.cos Real.tan Real.arccos Real.arctan
      (fun y x => Complex.arg ⟨x, y⟩) Real.sqrt) (sample_pitch ℝ) (sample_stop ℝ) 3 2).bank =
      3 / 2 := by
  have h := (low_speed_fold (CMath.mk Real.sin Real.cos Real.tan Real.arccos Real.arctan
      (fun y x => Complex.arg ⟨x, y⟩) Real.sqrt) (List.range (3 - 1)).reverse
    (pbh_pass (CMath.mk Real.sin Real.cos Real.tan Real.arccos Real.arctan
      (fun y x => Complex.arg ⟨x, y⟩) Real.sqrt) (sample_pitch ℝ) (sample_stop ℝ) 3, false)).2.1 2
    (by decide)
  have e : attitude_passes (CMath.mk Real.sin Real.cos Real.tan Real.arccos Real.arctan
      (fun y x => Complex.arg ⟨x, y⟩) Real.sqrt) (sample_pitch ℝ) (sample_stop ℝ) 3 2 =
      ai_update_pbhs (CMath.mk Real.sin Real.cos Real.tan Real.arccos Real.arctan
        (fun y x => Complex.arg ⟨x, y⟩) Real.sqrt) (sample_pitch ℝ)
        (pbh_pass (CMath.mk Real.sin Real.cos Real.tan Real.arccos Real.arctan
          (fun y x => Complex.arg ⟨x, y⟩) Real.sqrt) (sample_pitch ℝ) (sample_stop ℝ) 2) 2 2 := by
    rw [← pbh_pass_succ]
    exact h
  rw [e]
  exact ai_update_pbhs_stop _ (pbh_pass_pos _ _ _ 2)

/-! ## Claim C9: a 'B' record written and read back -/

theorem blank_not_digit (c : Char) (h : (' ' :: ([] : List Char)).head? = some c) :
    c.isDigit = false := by
  simp only [List.head?_cons, Option.some.injEq] at h
  rw [← h]
  decide

end SimLogger
